import Mathlib

/-!
# JOS system-call layer (`kern/syscall.c`) and user IPC library (`lib/ipc.c`)

A shallow embedding of the kernel's system-call handlers.  Kernel state is an
explicit record that is threaded through every handler; C integers are natural
numbers (32-bit patterns), handler results are mathematical integers.

The handlers themselves are transcribed from `kern/syscall.c`.  The memory
manager (`kern/pmap.c`), the environment table (`kern/env.c`), the scheduler and
the console are not part of the sources at hand; their models below follow the
interface contracts of the specification and are marked as such.
-/

namespace JOS

/-! ## Constants of the absent headers -/

/-- Modelled from the spec: the page size (`inc/mmu.h` is absent); the x86 value. -/
def PGSIZE : Nat := 4096

/-- Modelled from the spec: span of one page table, `PGSIZE * 1024` (`inc/mmu.h` is absent). -/
def PTSIZE : Nat := PGSIZE * 1024

/-- Modelled from the spec: `UTOP`, the highest virtual address a user environment may map
(`inc/memlayout.h` is absent); the JOS value. -/
def UTOP : Nat := 0xeec00000

/-- Modelled from the spec: `UXSTACKTOP`, top of the one-page user exception stack
(`inc/memlayout.h` is absent); in JOS it coincides with `UTOP`. -/
def UXSTACKTOP : Nat := UTOP

/-- Modelled from the spec: `USTACKTOP`, top of the normal user stack
(`inc/memlayout.h` is absent); in JOS it is `UTOP - 2*PGSIZE`. -/
def USTACKTOP : Nat := UTOP - 2 * PGSIZE

/-- Modelled from the spec: the PRESENT permission bit (`inc/mmu.h` is absent). -/
def PTE_P : Nat := 0x001

/-- Modelled from the spec: the WRITE permission bit (`inc/mmu.h` is absent). -/
def PTE_W : Nat := 0x002

/-- Modelled from the spec: the USER permission bit (`inc/mmu.h` is absent). -/
def PTE_U : Nat := 0x004

/-- Modelled from the spec: the three AVAILABLE bits left to software (`inc/mmu.h` is absent). -/
def PTE_AVAIL : Nat := 0xE00

/-- Modelled from the spec: number of slots of the environment table (`inc/env.h` is absent). -/
def NENV : Nat := 1024

/-- Modelled from the spec: status FREE (`inc/env.h` is absent). -/
def ENV_FREE : Nat := 0

/-- Modelled from the spec: status RUNNABLE (`inc/env.h` is absent). -/
def ENV_RUNNABLE : Nat := 1

/-- Modelled from the spec: status NOT_RUNNABLE (`inc/env.h` is absent). -/
def ENV_NOT_RUNNABLE : Nat := 2

/-- Modelled from the spec: error kind BAD_ENV (`inc/error.h` is absent). -/
def E_BAD_ENV : Int := 2

/-- Modelled from the spec: error kind INVAL (`inc/error.h` is absent). -/
def E_INVAL : Int := 3

/-- Modelled from the spec: error kind NO_MEM (`inc/error.h` is absent). -/
def E_NO_MEM : Int := 4

/-- Modelled from the spec: error kind NO_FREE_ENV (`inc/error.h` is absent). -/
def E_NO_FREE_ENV : Int := 5

/-- Modelled from the spec: error kind IPC_NOT_RECV (`inc/error.h` is absent). -/
def E_IPC_NOT_RECV : Int := 7

/-- Modelled from the spec: system-call numbers, in the order of the stable indices of
spec §6 (`inc/syscall.h` is absent). -/
def SYS_cputs : Nat := 0

/-- Modelled from the spec: see `SYS_cputs`. -/
def SYS_cgetc : Nat := 1

/-- Modelled from the spec: see `SYS_cputs`. -/
def SYS_getenvid : Nat := 2

/-- Modelled from the spec: see `SYS_cputs`. -/
def SYS_env_destroy : Nat := 3

/-- Modelled from the spec: see `SYS_cputs`. -/
def SYS_page_alloc : Nat := 4

/-- Modelled from the spec: see `SYS_cputs`. -/
def SYS_page_map : Nat := 5

/-- Modelled from the spec: see `SYS_cputs`. -/
def SYS_page_unmap : Nat := 6

/-- Modelled from the spec: see `SYS_cputs`. -/
def SYS_exofork : Nat := 7

/-- Modelled from the spec: see `SYS_cputs`. -/
def SYS_env_set_status : Nat := 8

/-- Modelled from the spec: see `SYS_cputs`. -/
def SYS_env_set_pgfault_upcall : Nat := 9

/-- Modelled from the spec: see `SYS_cputs`. -/
def SYS_yield : Nat := 10

/-- Modelled from the spec: see `SYS_cputs`. -/
def SYS_phy_page : Nat := 11

/-- Modelled from the spec: see `SYS_cputs`. -/
def SYS_ipc_try_send : Nat := 12

/-- Modelled from the spec: see `SYS_cputs`. -/
def SYS_ipc_recv : Nat := 13

/-! ## Machine arithmetic -/

/-- The C macro `ROUNDDOWN(a, n)`. -/
def ROUNDDOWN (a n : Nat) : Nat := a - a % n

/-- Bitwise complement of a 32-bit pattern (the C operator `~` on `int`). -/
def not32 (x : Nat) : Nat := (x % 2 ^ 32) ^^^ 0xFFFFFFFF

/-- Reading of a 32-bit pattern as a signed `int32_t`. -/
def toInt32 (x : Nat) : Int :=
  if x % 2 ^ 32 < 2 ^ 31 then ((x % 2 ^ 32 : Nat) : Int) else ((x % 2 ^ 32 : Nat) : Int) - 2 ^ 32

/-- Page number of a virtual address (`PPN`/`VPN`). -/
def PGNUM (va : Nat) : Nat := va / PGSIZE

/-- Page-directory index of a virtual address (`PDX`). -/
def PDX (va : Nat) : Nat := va / PTSIZE

/-- Slot index of an environment id (`ENVX`). -/
def ENVX (envid : Nat) : Nat := envid % NENV

/-! ## Finite maps as association lists -/

/-- Value bound to `key`, if any. -/
def fmGet {α : Type} : List (Nat × α) → Nat → Option α
  | [], _ => none
  | (k, v) :: m, key => if k = key then some v else fmGet m key

/-- Remove every binding of `key`. -/
def fmErase {α : Type} : List (Nat × α) → Nat → List (Nat × α)
  | [], _ => []
  | (k, v) :: m, key => if k = key then fmErase m key else (k, v) :: fmErase m key

/-- Bind `key` to `v`, replacing an earlier binding. -/
def fmSet {α : Type} (m : List (Nat × α)) (key : Nat) (v : α) : List (Nat × α) :=
  (key, v) :: fmErase m key

/-! ## Data model -/

/-- General-purpose registers as pushed by `pusha` (`struct PushRegs`). -/
structure PushRegs where
  reg_edi : Nat
  reg_esi : Nat
  reg_ebp : Nat
  reg_oesp : Nat
  reg_ebx : Nat
  reg_edx : Nat
  reg_ecx : Nat
  reg_eax : Nat
  deriving DecidableEq, Repr, Inhabited

/-- Saved register frame of a trap (`struct Trapframe`). -/
structure Trapframe where
  tf_regs : PushRegs
  tf_es : Nat
  tf_ds : Nat
  tf_trapno : Nat
  tf_err : Nat
  tf_eip : Nat
  tf_cs : Nat
  tf_eflags : Nat
  tf_esp : Nat
  tf_ss : Nat
  deriving DecidableEq, Repr, Inhabited

/-- Leaf page-table entry: physical frame number and permission bits. -/
structure Pte where
  frame : Nat
  perm : Nat
  deriving DecidableEq, Repr, Inhabited

/-- Two-level address space: the page tables that exist (directory index ↦ frame holding the
table) and the leaf entries that are present (page number ↦ entry). -/
structure PageDir where
  tables : List (Nat × Nat)
  ptes : List (Nat × Pte)
  deriving DecidableEq, Repr, Inhabited

/-- An environment (`struct Env`). -/
structure Env where
  env_tf : Trapframe
  env_id : Nat
  env_parent_id : Nat
  env_status : Nat
  env_pgdir : PageDir
  env_pgfault_upcall : Nat
  env_ipc_recving : Nat
  env_ipc_dstva : Nat
  env_ipc_value : Nat
  env_ipc_from : Nat
  env_ipc_perm : Nat
  deriving DecidableEq, Repr, Inhabited

/-- One call of the memory manager's `page_insert` or `page_remove`: the slot of the
environment whose page directory is passed, and the virtual address. -/
structure MMOp where
  isInsert : Bool
  env : Nat
  va : Nat
  deriving DecidableEq, Repr, Inhabited

/-- Kernel state.  `curenv` is the slot of the running environment.  `cons_in` is the sequence
of results of the coming `cons_getc()` polls (0 = no character ready).  `mm_ops` is a history
variable: the calls of `page_insert`/`page_remove` issued so far by the system-call handlers. -/
structure State where
  envs : List Env
  curenv : Nat
  env_free_list : List Nat
  page_free_list : List Nat
  pp_ref : List (Nat × Nat)
  mem : List (Nat × Nat)
  cons_in : List Nat
  cons_out : List Nat
  mm_ops : List MMOp
  deriving DecidableEq, Repr, Inhabited

/-- How a handler that may give up the CPU ends: it returns `v` to its caller, or control never
comes back to the caller (the scheduler took over, the calling environment was destroyed, or a
busy-wait never ends), or the kernel stops in `panic`. -/
inductive Outcome where
  | ret (v : Int) (s : State)
  | noreturn (s : State)
  | panic (s : State)
  deriving DecidableEq, Repr

/-- Kernel state at the end of a handler. -/
def Outcome.state : Outcome → State
  | .ret _ s => s
  | .noreturn s => s
  | .panic s => s

/-- Entry `i` of an environment table (an all-zero record outside the table). -/
def envAt (envs : List Env) (i : Nat) : Env := envs.getD i default

/-- The environment in slot `i`. -/
def getEnv (s : State) (i : Nat) : Env := envAt s.envs i

/-- Overwrite slot `i`. -/
def setEnv (s : State) (i : Nat) (e : Env) : State := { s with envs := s.envs.set i e }

/-- The running environment (`curenv`). -/
def curEnv (s : State) : Env := getEnv s s.curenv

/-! ## Physical memory manager (`kern/pmap.c`, absent) -/

/-- Reference count of frame `f`. -/
def refGet (s : State) (f : Nat) : Nat := (fmGet s.pp_ref f).getD 0

/-- Modelled from the spec: `page_alloc` of kern/pmap.c (absent), contract
`phys_alloc() → frame | null`: takes the first frame of the free list, with reference count 0;
`none` when no frame is free. -/
def page_alloc (s : State) : Option (Nat × State) :=
  match s.page_free_list with
  | [] => none
  | f :: rest => some (f, { s with page_free_list := rest, pp_ref := fmSet s.pp_ref f 0 })

/-- Modelled from the spec: `page_free` of kern/pmap.c (absent), contract `phys_free(frame)`:
the frame goes back on the free list. -/
def page_free (s : State) (f : Nat) : State :=
  { s with page_free_list := f :: s.page_free_list }

/-- Modelled from the spec: `page_decref` of kern/pmap.c (absent): "decrements, free at zero". -/
def page_decref (s : State) (f : Nat) : State :=
  let r := refGet s f - 1
  let s1 := { s with pp_ref := fmSet s.pp_ref f r }
  if r = 0 then page_free s1 f else s1

/-- Modelled from the spec: `page_lookup` of kern/pmap.c (absent), contract
`map_lookup(as, va) → (frame, pte*) | null`: the leaf entry of the page containing `va`. -/
def page_lookup (pd : PageDir) (va : Nat) : Option Pte := fmGet pd.ptes (PGNUM va)

/-- Modelled from the spec: `pgdir_walk` of kern/pmap.c (absent) with `create = 1`, the
"intermediate page-table allocation" of the `map_insert` contract: when the page table covering
`va` does not exist a frame is taken for it; `none` when no frame is free. -/
def pgdir_walk (s : State) (pd : PageDir) (va : Nat) : Option (State × PageDir) :=
  match fmGet pd.tables (PDX va) with
  | some _ => some (s, pd)
  | none =>
    match page_alloc s with
    | none => none
    | some (t, s1) =>
      some ({ s1 with pp_ref := fmSet s1.pp_ref t 1 },
            { pd with tables := fmSet pd.tables (PDX va) t })

/-- Drop the reference held by the mapping of the page containing `va`, if there is one. -/
def unref_mapped (s : State) (pd : PageDir) (va : Nat) : State :=
  match fmGet pd.ptes (PGNUM va) with
  | some old => page_decref s old.frame
  | none => s

/-- Modelled from the spec: `page_insert` of kern/pmap.c (absent), contract
`map_insert(as, frame, va, perm) → 0 | NO_MEM` "(handles intermediate page-table allocation and
refcount bump; replaces prior mapping)".  The page directory is the one of the environment in
slot `i`.  When the page table cannot be allocated the call fails with `-E_NO_MEM` and maps
nothing.  The call is recorded in `mm_ops`. -/
def page_insert (s : State) (i : Nat) (frame va perm : Nat) : Int × State :=
  let s0 : State := { s with mm_ops := s.mm_ops ++ [⟨true, i, va⟩] }
  match pgdir_walk s0 (getEnv s0 i).env_pgdir va with
  | none => (-E_NO_MEM, s0)
  | some (s1, pd1) =>
    let s2 : State := { s1 with pp_ref := fmSet s1.pp_ref frame (refGet s1 frame + 1) }
    let s3 := unref_mapped s2 pd1 va
    (0, setEnv s3 i { getEnv s3 i with
          env_pgdir := { pd1 with ptes := fmSet pd1.ptes (PGNUM va) ⟨frame, perm⟩ } })

/-- Modelled from the spec: `page_remove` of kern/pmap.c (absent), contract
`map_remove(as, va)`: drops the mapping of the page containing `va` and the reference it held;
does nothing when no page is mapped.  The call is recorded in `mm_ops`. -/
def page_remove (s : State) (i : Nat) (va : Nat) : State :=
  let s0 : State := { s with mm_ops := s.mm_ops ++ [⟨false, i, va⟩] }
  let pd := (getEnv s0 i).env_pgdir
  let s1 := unref_mapped s0 pd va
  setEnv s1 i { getEnv s1 i with env_pgdir := { pd with ptes := fmErase pd.ptes (PGNUM va) } }

/-- The C call `memset(page2kva(page), 0, PGSIZE)`: every byte of the frame reads 0 afterwards
(an address without a binding in `mem` reads 0). -/
def memset_page_zero (s : State) (frame : Nat) : State :=
  { s with mem := s.mem.filter (fun kv => kv.1 / PGSIZE != frame) }

/-- Byte at user virtual address `va` of environment `e` (0 when unmapped). -/
def readByte (s : State) (e : Env) (va : Nat) : Nat :=
  match page_lookup e.env_pgdir va with
  | some pte => (fmGet s.mem (pte.frame * PGSIZE + va % PGSIZE)).getD 0
  | none => 0

/-- Modelled from the spec: `user_mem_check` of kern/pmap.c (absent), the memory-safety
contract of spec §5: "a walk of the target's page table demanding {PRESENT|USER}" and the
further bits of `perm`, over every page that meets `[va, va+len)`. -/
def user_mem_check (e : Env) (va len perm : Nat) : Bool :=
  (List.range ((va + len + PGSIZE - 1) / PGSIZE - va / PGSIZE)).all fun k =>
    match fmGet e.env_pgdir.ptes (va / PGSIZE + k) with
    | some pte => pte.perm &&& (perm ||| PTE_P ||| PTE_U) == (perm ||| PTE_P ||| PTE_U)
    | none => false

/-! ## Environment table and scheduler (`kern/env.c`, `kern/sched.c`, absent) -/

/-- Modelled from the spec: the id generator of kern/env.c (absent): "index + generation counter
packed so stale handles are detectable"; the generation sits above the slot index, is bumped on
every use and is kept positive as a signed 32-bit number. -/
def mkenvid (old idx : Nat) : Nat :=
  let generation := (old + 4096) % 2 ^ 32 / NENV * NENV
  (if generation = 0 ∨ 2 ^ 31 ≤ generation then 4096 else generation) + ENVX idx

/-- Modelled from the spec: `envid2env` of kern/env.c (absent), spec §4.A: id 0 names the
current environment; otherwise look the slot up by index and fail when the slot is FREE or the
generation mismatches; with `checkperm`, fail unless the environment is the caller or a child of
the caller.  `none` stands for the only error, `-E_BAD_ENV`; `some i` is the slot found. -/
def envid2env (s : State) (envid : Nat) (checkperm : Bool) : Option Nat :=
  if envid = 0 then some s.curenv
  else
    match s.envs.get? (ENVX envid) with
    | none => none
    | some e =>
      if e.env_status = ENV_FREE ∨ e.env_id ≠ envid then none
      else if checkperm = true ∧ e.env_id ≠ (curEnv s).env_id
                ∧ e.env_parent_id ≠ (curEnv s).env_id then none
      else some (ENVX envid)

/-- Modelled from the spec: `env_alloc` of kern/env.c (absent): "allocate a new env with the
caller as parent", from "a bounded array of slots"; the new environment has a fresh id and an
empty address space.  `none` when no slot is free. -/
def env_alloc (s : State) (parent_id : Nat) : Option (Nat × State) :=
  match s.env_free_list with
  | [] => none
  | i :: rest =>
    let child : Env :=
      { env_tf := default
        env_id := mkenvid (getEnv s i).env_id i
        env_parent_id := parent_id
        env_status := ENV_RUNNABLE
        env_pgdir := ⟨[], []⟩
        env_pgfault_upcall := 0
        env_ipc_recving := 0
        env_ipc_dstva := 0
        env_ipc_value := 0
        env_ipc_from := 0
        env_ipc_perm := 0 }
    some (i, { setEnv s i child with env_free_list := rest })

/-- Modelled from the spec: `env_free` of kern/env.c (absent): "free address space, drop
refcounts, set status FREE, bump generation". -/
def env_free (s : State) (i : Nat) : State :=
  let e := getEnv s i
  let s1 := e.env_pgdir.ptes.foldl (fun st kv => page_decref st kv.2.frame) s
  let s2 := e.env_pgdir.tables.foldl (fun st kv => page_decref st kv.2) s1
  let s3 := setEnv s2 i { e with env_pgdir := ⟨[], []⟩
                                 env_status := ENV_FREE
                                 env_id := mkenvid e.env_id i }
  { s3 with env_free_list := i :: s3.env_free_list }

/-- Modelled from the spec: `env_destroy` of kern/env.c (absent): frees the environment; when
it is the running one the scheduler takes over and the call does not return. -/
def env_destroy (s : State) (i : Nat) : Outcome :=
  if i = s.curenv then .noreturn (env_free s i) else .ret 0 (env_free s i)

/-- Modelled from the spec: `sched_yield` of kern/sched.c (absent): "never returns to caller".
Which environment runs next is the scheduler's business and is not modelled. -/
def sched_yield (s : State) : Outcome := .noreturn s

/-- Modelled from the spec: the polling loop over `cons_getc` of kern/console.c (absent): skips
the polls that return 0 and yields the first character together with the polls left; `none`
when no character ever arrives. -/
def cons_getc_loop : List Nat → Option (Nat × List Nat)
  | [] => none
  | c :: rest => if c = 0 then cons_getc_loop rest else some (c, rest)

/-- Modelled from the spec: the console output of `cprintf("%.*s", len, s)` (kern/printf.c is
absent): at most `len` bytes of the string at `va`, up to its terminating NUL. -/
def cputs_bytes (s : State) (e : Env) (va len : Nat) : List Nat :=
  ((List.range len).map fun k => readByte s e (va + k)).takeWhile (fun b => b != 0)

/-- Modelled from the spec: the raw leaf entry "(frame + flags)" that `*pte` reads. -/
def pteWord (p : Pte) : Nat := p.frame * PGSIZE ||| p.perm

/-! ## System-call handlers (`kern/syscall.c`) -/

/-- Handler `sys_cputs`: `user_mem_assert` destroys the caller on a bad range. -/
def sys_cputs (s : State) (sva len : Nat) : Outcome :=
  if user_mem_check (curEnv s) sva len 0 then
    .ret 0 { s with cons_out := s.cons_out ++ cputs_bytes s (curEnv s) sva len }
  else env_destroy s s.curenv

/-- Handler `sys_cgetc`: busy-waits for a character. -/
def sys_cgetc (s : State) : Outcome :=
  match cons_getc_loop s.cons_in with
  | some (c, rest) => .ret (toInt32 c) { s with cons_in := rest }
  | none => .noreturn { s with cons_in := [] }

/-- Handler `sys_getenvid`. -/
def sys_getenvid (s : State) : Int := toInt32 (curEnv s).env_id

/-- Handler `sys_env_destroy`. -/
def sys_env_destroy (s : State) (envid : Nat) : Outcome :=
  match envid2env s envid true with
  | none => .ret (-E_BAD_ENV) s
  | some e =>
    match env_destroy s e with
    | .ret _ s1 => .ret 0 s1
    | o => o

/-- Handler `sys_yield`. -/
def sys_yield (s : State) : Outcome := sched_yield s

/-- Handler `sys_exofork`. -/
def sys_exofork (s : State) : Int × State :=
  match env_alloc s (curEnv s).env_id with
  | none => (-E_NO_FREE_ENV, s)
  | some (c, s1) =>
    let cur := curEnv s1
    let child : Env :=
      { getEnv s1 c with
          env_status := ENV_NOT_RUNNABLE
          env_tf := { cur.env_tf with tf_regs := { cur.env_tf.tf_regs with reg_eax := 0 } }
          env_pgfault_upcall := cur.env_pgfault_upcall }
    (toInt32 child.env_id, setEnv s1 c child)

/-- Handler `sys_env_set_status`. -/
def sys_env_set_status (s : State) (envid status : Nat) : Int × State :=
  match envid2env s envid true with
  | none => (-E_BAD_ENV, s)
  | some task =>
    if status ≠ ENV_FREE ∧ status ≠ ENV_RUNNABLE ∧ status ≠ ENV_NOT_RUNNABLE then (-E_INVAL, s)
    else (0, setEnv s task { getEnv s task with env_status := status })

/-- Handler `sys_env_set_trapframe`: the body is a call of `panic`. -/
def sys_env_set_trapframe (s : State) (_envid _tf : Nat) : Outcome := .panic s

/-- Handler `sys_env_set_pgfault_upcall`. -/
def sys_env_set_pgfault_upcall (s : State) (envid func : Nat) : Int × State :=
  match envid2env s envid true with
  | none => (-E_BAD_ENV, s)
  | some task => (0, setEnv s task { getEnv s task with env_pgfault_upcall := func })

/-- The test `perm & ((~(PTE_U | PTE_P | PTE_W | PTE_AVAIL)) & 0xfff)` of the three mapping
handlers. -/
def permOtherBits (perm : Nat) : Nat :=
  perm &&& (not32 (PTE_U ||| PTE_P ||| PTE_W ||| PTE_AVAIL) &&& 0xfff)

/-- Handler `sys_page_alloc`. -/
def sys_page_alloc (s : State) (envid va perm : Nat) : Int × State :=
  match envid2env s envid true with
  | none => (-E_BAD_ENV, s)
  | some task =>
    match page_alloc s with
    | none => (-E_NO_MEM, s)
    | some (page, s1) =>
      if va ≥ UTOP ∨ va ≠ ROUNDDOWN va PGSIZE then (-E_INVAL, s1)
      else if perm &&& PTE_U = 0 ∨ perm &&& PTE_P = 0 then (-E_INVAL, s1)
      else if permOtherBits perm ≠ 0 then (-E_INVAL, s1)
      else
        let s2 := memset_page_zero s1 page
        let r := page_insert s2 task page va perm
        if r.1 < 0 then (-E_NO_MEM, page_free r.2 page) else (0, r.2)

/-- Handler `sys_page_map`. -/
def sys_page_map (s : State) (srcenvid srcva dstenvid dstva perm : Nat) : Int × State :=
  match envid2env s srcenvid true, envid2env s dstenvid true with
  | some srcenv, some dstenv =>
    if srcva ≥ UTOP ∨ srcva ≠ ROUNDDOWN srcva PGSIZE ∨
       dstva ≥ UTOP ∨ dstva ≠ ROUNDDOWN dstva PGSIZE then (-E_INVAL, s)
    else
      match page_lookup (getEnv s srcenv).env_pgdir srcva with
      | none => (-E_INVAL, s)
      | some srcpte =>
        if perm &&& PTE_U = 0 ∨ perm &&& PTE_P = 0 then (-E_INVAL, s)
        else if permOtherBits perm ≠ 0 then (-E_INVAL, s)
        else if perm &&& PTE_W ≠ 0 ∧ srcpte.perm &&& PTE_W = 0 then (-E_INVAL, s)
        else
          let r := page_insert s dstenv srcpte.frame dstva perm
          if r.1 < 0 then (-E_NO_MEM, r.2) else (0, r.2)
  | _, _ => (-E_BAD_ENV, s)

/-- Handler `sys_page_unmap`. -/
def sys_page_unmap (s : State) (envid va : Nat) : Int × State :=
  match envid2env s envid true with
  | none => (-E_BAD_ENV, s)
  | some task =>
    if va ≥ UTOP ∨ va ≠ ROUNDDOWN va PGSIZE then (-E_INVAL, s)
    else (0, page_remove s task va)

/-- The tail of `sys_ipc_try_send` (the assignments after the `if (srcva)` block): completes the
rendezvous with the environment in slot `target` and returns `ret`. -/
def ipc_complete (s : State) (target value perm : Nat) (ret : Int) : Int × State :=
  let t := getEnv s target
  (ret, setEnv s target
    { t with
        env_ipc_recving := 0
        env_ipc_value := value
        env_ipc_from := (curEnv s).env_id
        env_ipc_perm := if ret ≠ 0 then perm else 0
        env_status := ENV_RUNNABLE })

/-- Handler `sys_ipc_try_send`. -/
def sys_ipc_try_send (s : State) (envid value srcva perm : Nat) : Int × State :=
  match envid2env s envid false with
  | none => (-E_BAD_ENV, s)
  | some target =>
    if (getEnv s target).env_ipc_recving = 0 then (-E_IPC_NOT_RECV, s)
    else if srcva ≠ 0 then
      if srcva ≥ UTOP then (-E_INVAL, s)
      else if srcva ≠ ROUNDDOWN srcva PGSIZE then (-E_INVAL, s)
      else
        match page_lookup (curEnv s).env_pgdir srcva with
        | none => (-E_INVAL, s)
        | some pte =>
          if perm &&& PTE_U = 0 ∨ perm &&& PTE_P = 0 then (-E_INVAL, s)
          else if permOtherBits perm ≠ 0 then (-E_INVAL, s)
          else if perm &&& PTE_W ≠ 0 ∧ pte.perm &&& PTE_W = 0 then (-E_INVAL, s)
          else if (getEnv s target).env_ipc_dstva = srcva then
            let r := page_insert s target pte.frame srcva perm
            if r.1 < 0 then (-E_NO_MEM, r.2) else ipc_complete r.2 target value perm 1
          else ipc_complete s target value perm 1
    else ipc_complete s target value perm 0

/-- Handler `sys_ipc_recv`. -/
def sys_ipc_recv (s : State) (dstva : Nat) : Outcome :=
  if dstva ≥ UTOP ∨ dstva ≠ ROUNDDOWN dstva PGSIZE then .ret (-E_INVAL) s
  else
    let c := curEnv s
    sched_yield (setEnv s s.curenv
      { c with
          env_ipc_dstva := dstva
          env_ipc_recving := 1
          env_status := ENV_NOT_RUNNABLE
          env_tf := { c.env_tf with tf_regs := { c.env_tf.tf_regs with reg_eax := 0 } } })

/-- Handler `sys_phy_page`. -/
def sys_phy_page (s : State) (envid va : Nat) : Int :=
  match envid2env s envid true with
  | none => -E_BAD_ENV
  | some task =>
    match page_lookup (getEnv s task).env_pgdir va with
    | none => 0
    | some pte => toInt32 (pteWord pte)

/-- Lift a handler that always returns. -/
def returns (r : Int × State) : Outcome := .ret r.1 r.2

/-- The dispatcher `syscall`.  Handlers of type `void` leave `ret = 0`. -/
def syscall (s : State) (syscallno a1 a2 a3 a4 a5 : Nat) : Outcome :=
  if syscallno = SYS_cputs then
    match sys_cputs s a1 a2 with
    | .ret _ s1 => .ret 0 s1
    | o => o
  else if syscallno = SYS_cgetc then sys_cgetc s
  else if syscallno = SYS_getenvid then .ret (sys_getenvid s) s
  else if syscallno = SYS_env_destroy then sys_env_destroy s a1
  else if syscallno = SYS_page_alloc then returns (sys_page_alloc s a1 a2 a3)
  else if syscallno = SYS_page_map then returns (sys_page_map s a1 a2 a3 a4 a5)
  else if syscallno = SYS_page_unmap then returns (sys_page_unmap s a1 a2)
  else if syscallno = SYS_exofork then returns (sys_exofork s)
  else if syscallno = SYS_env_set_status then returns (sys_env_set_status s a1 a2)
  else if syscallno = SYS_env_set_pgfault_upcall then
    returns (sys_env_set_pgfault_upcall s a1 a2)
  else if syscallno = SYS_yield then sys_yield s
  else if syscallno = SYS_phy_page then .ret (sys_phy_page s a1 a2) s
  else if syscallno = SYS_ipc_try_send then returns (sys_ipc_try_send s a1 a2 a3 a4)
  else if syscallno = SYS_ipc_recv then sys_ipc_recv s a1
  else .ret (-E_INVAL) s

/-! ## User IPC library (`lib/ipc.c`) -/

/-- What `ipc_recv` hands back: its return value (as a 32-bit pattern) and what it stored
through `from_env_store` and `perm_store` (`none` when the pointer is null). -/
structure IpcRecvResult where
  value : Int
  from_env : Option Nat
  perm : Option Nat
  deriving DecidableEq, Repr

/-- The address `ipc_recv` passes to `sys_ipc_recv`: `pg`, or `USTACKTOP` when `pg` is null. -/
def ipc_recv_arg (pg : Nat) : Nat := if pg = 0 then USTACKTOP else pg

/-- The part of the library function `ipc_recv` after the system call: `r` is what `sys_ipc_recv`
returned, `env` the caller's own environment record as it reads it then. -/
def ipc_recv_finish (r : Int) (env : Env) (from_env_store perm_store : Bool) : IpcRecvResult :=
  if r < 0 then
    { value := r
      from_env := if from_env_store then some 0 else none
      perm := if perm_store then some 0 else none }
  else
    { value := toInt32 env.env_ipc_value
      from_env := if from_env_store then some env.env_ipc_from else none
      perm := if perm_store then some env.env_ipc_perm else none }

/-! ## Predicates and sample states used in the statements -/

/-- Argument validation shared by the mapping handlers, as the code performs it on `perm`. -/
def permAccepted (perm : Nat) : Prop :=
  ¬ (perm &&& PTE_U = 0 ∨ perm &&& PTE_P = 0) ∧ ¬ (permOtherBits perm ≠ 0)

/-- Address validation shared by the mapping handlers. -/
def vaAccepted (va : Nat) : Prop := ¬ (va ≥ UTOP ∨ va ≠ ROUNDDOWN va PGSIZE)

/-- What every system call respects (C3): the `page_insert`/`page_remove` calls issued between
`s` and `t` are at page-aligned addresses below `UTOP`, and an environment that is the same
before and after (same id in the same slot) has the same mappings at addresses `≥ UTOP`. -/
def UtopRespected (s t : State) : Prop :=
  (∃ ops, t.mm_ops = s.mm_ops ++ ops ∧ ∀ op ∈ ops, op.va < UTOP ∧ op.va % PGSIZE = 0)
  ∧ (∀ i va, UTOP ≤ va → (getEnv t i).env_id = (getEnv s i).env_id →
      page_lookup (getEnv t i).env_pgdir va = page_lookup (getEnv s i).env_pgdir va)

/-- The environment `envid` names exists: its slot holds a non-FREE environment with that id. -/
def envExists (s : State) (envid : Nat) : Bool :=
  match s.envs.get? (ENVX envid) with
  | some e => e.env_status != ENV_FREE && e.env_id == envid
  | none => false

/-- The caller may change the environment `envid` names (spec §4.A): id 0 is the caller itself;
otherwise the environment exists and is the caller or has the caller as its parent. -/
def mayChange (s : State) (envid : Nat) : Bool :=
  envid == 0 ||
    match s.envs.get? (ENVX envid) with
    | some e =>
      e.env_status != ENV_FREE && e.env_id == envid &&
        (e.env_id == (curEnv s).env_id || e.env_parent_id == (curEnv s).env_id)
    | none => false

/-- A sample sender: environment 0x1000 in slot 0, with frame 7 mapped at 0x00800000 with
permission `srcperm`, and a read-only kernel page (frame 3) visible at `UTOP`. -/
def sampleSender (srcperm : Nat) : Env :=
  { (default : Env) with
      env_id := 0x1000
      env_status := ENV_RUNNABLE
      env_pgdir := ⟨[(2, 50), (0x3BB, 51)], [(0x800, ⟨7, srcperm⟩), (0xEEC00, ⟨3, 5⟩)]⟩ }

/-- A sample receiver: environment 0x1001 in slot 1, blocked in `sys_ipc_recv` (status
NOT_RUNNABLE, `env_ipc_recving = 1`, saved `eax = 0`) with destination `dstva`. -/
def sampleReceiver (dstva parent : Nat) : Env :=
  { (default : Env) with
      env_id := 0x1001
      env_parent_id := parent
      env_status := ENV_NOT_RUNNABLE
      env_ipc_recving := 1
      env_ipc_dstva := dstva }

/-- A sample kernel state: the sender is running, the receiver waits, frames 9 and 10 are
free. -/
def sampleState (srcperm dstva parent : Nat) : State :=
  { (default : State) with
      envs := [sampleSender srcperm, sampleReceiver dstva parent]
      curenv := 0
      page_free_list := [9, 10]
      pp_ref := [(3, 1), (7, 1), (50, 1), (51, 1)] }

/-- A permission word that is valid by the contract comment of `sys_page_alloc`: `PTE_U` and
`PTE_P` set and no bit outside `PTE_U | PTE_P | PTE_W | PTE_AVAIL` (over all 32 bits). -/
def validPerm (perm : Nat) : Prop :=
  perm &&& PTE_U ≠ 0 ∧ perm &&& PTE_P ≠ 0
    ∧ perm &&& not32 (PTE_U ||| PTE_P ||| PTE_W ||| PTE_AVAIL) = 0

/-- Byte of physical memory at address `pa` (0 when never written). -/
def physByte (s : State) (pa : Nat) : Nat := (fmGet s.mem pa).getD 0

/-- Modelled from the spec: the effect of the scheduler (`kern/sched.c`, absent) picking the
environment in slot `i` to run next. -/
def switch_to (s : State) (i : Nat) : State := { s with curenv := i }

/-- A sample sender that has a writable page (frame 8) mapped at `USTACKTOP`, environment
0x1000 in slot 0. -/
def sampleStackTopSender : Env :=
  { (default : Env) with
      env_id := 0x1000
      env_status := ENV_RUNNABLE
      env_pgdir := ⟨[(0x3BA, 50)], [(0xEEBFE, ⟨8, 7⟩)]⟩ }

/-- A sample state in which environment 0x1001 (slot 1, no page mapped) is running and has not
yet asked to receive; the sender of `sampleStackTopSender` is runnable in slot 0. -/
def sampleIdleState : State :=
  { (default : State) with
      envs := [sampleStackTopSender,
               { (default : Env) with env_id := 0x1001, env_status := ENV_RUNNABLE }]
      curenv := 1
      page_free_list := [9, 10]
      pp_ref := [(8, 1), (50, 1)] }

/-- A sample state for `sys_exofork`: environment 0x1000 runs in slot 0 with an upcall installed
and `eax = 7` (the system-call number) in its saved frame; slot 1 is free. -/
def sampleForkState : State :=
  { (default : State) with
      envs := [{ sampleSender 7 with
                  env_pgfault_upcall := 0x800020
                  env_tf := { (default : Trapframe) with
                                tf_eip := 0x800100
                                tf_cs := 0x1b
                                tf_regs := { (default : PushRegs) with reg_eax := 7 } } },
               (default : Env)]
      curenv := 0
      env_free_list := [1]
      page_free_list := [9, 10]
      pp_ref := [(3, 1), (7, 1), (50, 1), (51, 1)] }

/-! ## Trap handling (`kern/trap.c`) -/

/-- Modelled from the spec: the record the upcall receives (`struct UTrapframe` of `inc/trap.h`,
absent): `{fault_va, err, regs, eip, eflags, esp}`. -/
structure UTrapframe where
  utf_fault_va : Nat
  utf_err : Nat
  utf_regs : PushRegs
  utf_eip : Nat
  utf_eflags : Nat
  utf_esp : Nat
  deriving DecidableEq, Repr, Inhabited

/-- Modelled from the spec: `sizeof(struct UTrapframe)` (`inc/trap.h` is absent): thirteen
32-bit words. -/
def sizeof_UTrapframe : Nat := 52

/-- Subtraction of 32-bit unsigned integers (the C operator `-=` on `uintptr_t`). -/
def sub32 (a b : Nat) : Nat := (a % 2 ^ 32 + 2 ^ 32 - b % 2 ^ 32) % 2 ^ 32

/-- The four bytes of a 32-bit word in memory order (little endian). -/
def word_bytes (w : Nat) : List Nat :=
  [w % 256, w / 256 % 256, w / 65536 % 256, w / 16777216 % 256]

/-- The bytes of the general registers in memory order (`struct PushRegs`). -/
def regs_bytes (r : PushRegs) : List Nat :=
  word_bytes r.reg_edi ++ word_bytes r.reg_esi ++ word_bytes r.reg_ebp ++ word_bytes r.reg_oesp
    ++ word_bytes r.reg_ebx ++ word_bytes r.reg_edx ++ word_bytes r.reg_ecx
    ++ word_bytes r.reg_eax

/-- The bytes of a fault record in memory order. -/
def utf_bytes (u : UTrapframe) : List Nat :=
  word_bytes u.utf_fault_va ++ word_bytes u.utf_err ++ regs_bytes u.utf_regs
    ++ word_bytes u.utf_eip ++ word_bytes u.utf_eflags ++ word_bytes u.utf_esp

/-- Store one byte at user virtual address `va` of environment `e`, whose page directory is the
active one (a store to an unmapped page, which would fault in the kernel, stores nothing). -/
def writeByte (s : State) (e : Env) (va b : Nat) : State :=
  match page_lookup e.env_pgdir va with
  | some pte => { s with mem := fmSet s.mem (pte.frame * PGSIZE + va % PGSIZE) b }
  | none => s

/-- Store the bytes `bs` at consecutive user virtual addresses from `va` on. -/
def copyout (s : State) (e : Env) : Nat → List Nat → State
  | _, [] => s
  | va, b :: bs => copyout (writeByte s e va b) e (va + 1) bs

/-- The trap frame a handler works on, as a C pointer: either `&curenv->env_tf` (what `trap`
passes on for a trap from user mode) or a frame on the kernel stack. -/
inductive TfPtr where
  | env_tf
  | stack (tf : Trapframe)
  deriving DecidableEq, Repr

/-- Read through a trap-frame pointer. -/
def tfRead (s : State) : TfPtr → Trapframe
  | .env_tf => (curEnv s).env_tf
  | .stack tf => tf

/-- Store through a trap-frame pointer; a frame on the kernel stack is dead once the handler
leaves through `env_run` or `env_destroy`, so only the store into the environment is kept. -/
def tfStore (s : State) (p : TfPtr) (tf : Trapframe) : State :=
  match p with
  | .env_tf => setEnv s s.curenv { curEnv s with env_tf := tf }
  | .stack _ => s

/-- How a trap handler ends: it returns to its caller, it leaves through `env_run(curenv)` (the
running environment resumes from its saved trap frame), the scheduler takes over (after the
running environment was destroyed), or the kernel stops in `panic`. -/
inductive TrapResult where
  | returned (s : State)
  | env_run (s : State)
  | yielded (s : State)
  | panic (s : State)
  deriving DecidableEq, Repr

/-- Kernel state at the end of a trap handler. -/
def TrapResult.state : TrapResult → State
  | .returned s => s
  | .env_run s => s
  | .yielded s => s
  | .panic s => s

/-- The call `env_destroy(curenv)` inside a trap handler. -/
def destroy_curenv (s : State) : TrapResult :=
  match env_destroy s s.curenv with
  | .ret _ s1 => .returned s1
  | .noreturn s1 => .yielded s1
  | .panic s1 => .panic s1

/-- The stack pointer after the handler made room for the record: one scratch word below the
trap-time `esp` when that lies in the exception-stack page, a fresh start at `UXSTACKTOP`
otherwise, then `sizeof(struct UTrapframe)` bytes down. -/
def utf_place (esp : Nat) : Nat :=
  sub32 (if esp ≥ UXSTACKTOP - PGSIZE ∧ esp < UXSTACKTOP then sub32 esp 4 else UXSTACKTOP)
    sizeof_UTrapframe

/-- Handler `page_fault_handler`; `fault_va` is what `rcr2()` reads.  The diagnostic output
(`cprintf`, `print_trapframe`) is left out. -/
def page_fault_handler (s : State) (p : TfPtr) (fault_va : Nat) : TrapResult :=
  let tf := tfRead s p
  if tf.tf_cs &&& 3 = 0 then .panic s
  else if (curEnv s).env_pgfault_upcall = 0 then destroy_curenv s
  else if user_mem_check (curEnv s) (UXSTACKTOP - 4) 4 (PTE_P ||| PTE_W ||| PTE_U) = false then
    destroy_curenv s
  else if user_mem_check (curEnv s) (curEnv s).env_pgfault_upcall 4 (PTE_P ||| PTE_U) = false then
    destroy_curenv s
  else
    let utf : UTrapframe :=
      { utf_fault_va := fault_va
        utf_err := tf.tf_err
        utf_regs := tf.tf_regs
        utf_eip := tf.tf_eip
        utf_eflags := tf.tf_eflags
        utf_esp := tf.tf_esp }
    let esp := utf_place tf.tf_esp
    if esp < UXSTACKTOP - PGSIZE then destroy_curenv (tfStore s p { tf with tf_esp := esp })
    else
      let s1 := copyout (tfStore s p { tf with tf_esp := esp }) (curEnv s) esp (utf_bytes utf)
      .env_run (tfStore s1 p { tf with tf_esp := esp, tf_eip := (curEnv s).env_pgfault_upcall })

/-- Modelled from the spec: the address of the fault record in the words of spec §4.D: one
scratch word and the record below the trap-time `esp` when that lies in the exception-stack
page, the record directly below `UXSTACKTOP` otherwise. -/
def fault_record_addr (esp : Nat) : Nat :=
  if UXSTACKTOP - PGSIZE ≤ esp ∧ esp < UXSTACKTOP then esp - 4 - sizeof_UTrapframe
  else UXSTACKTOP - sizeof_UTrapframe

/-- A sample faulting environment: id 0x1000 in slot 0, upcall at 0x00800020 in a mapped code
page, exception stack (frame 11) mapped writable below `UXSTACKTOP`; it trapped from user mode
(`cs = 0x1b`) with `esp = trapesp`. -/
def sampleFaultState (trapesp : Nat) : State :=
  { (default : State) with
      envs := [{ (default : Env) with
                  env_id := 0x1000
                  env_status := ENV_RUNNABLE
                  env_pgfault_upcall := 0x800020
                  env_tf := { (default : Trapframe) with
                                tf_cs := 0x1b, tf_esp := trapesp, tf_eip := 0x800100,
                                tf_err := 7 }
                  env_pgdir := ⟨[(2, 50), (0x3BA, 51)],
                                [(0x800, ⟨7, 5⟩), (0xEEBFF, ⟨11, 7⟩)]⟩ }]
      curenv := 0
      page_free_list := [9, 10]
      pp_ref := [(7, 1), (11, 1), (50, 1), (51, 1)] }

/-! ## Reading user memory back -/

/-- The 32-bit word stored little endian at user virtual address `va` of environment `e`. -/
def readWord (s : State) (e : Env) (va : Nat) : Nat :=
  readByte s e va + 256 * readByte s e (va + 1) + 65536 * readByte s e (va + 2)
    + 16777216 * readByte s e (va + 3)

/-- The general registers stored at `va` (`struct PushRegs`). -/
def readRegs (s : State) (e : Env) (va : Nat) : PushRegs :=
  { reg_edi := readWord s e va
    reg_esi := readWord s e (va + 4)
    reg_ebp := readWord s e (va + 8)
    reg_oesp := readWord s e (va + 12)
    reg_ebx := readWord s e (va + 16)
    reg_edx := readWord s e (va + 20)
    reg_ecx := readWord s e (va + 24)
    reg_eax := readWord s e (va + 28) }

/-- The fault record stored at `va`, as the upcall reads it (`struct UTrapframe`). -/
def read_utf (s : State) (e : Env) (va : Nat) : UTrapframe :=
  { utf_fault_va := readWord s e va
    utf_err := readWord s e (va + 4)
    utf_regs := readRegs s e (va + 8)
    utf_eip := readWord s e (va + 40)
    utf_eflags := readWord s e (va + 44)
    utf_esp := readWord s e (va + 48) }

/-- Every register of the frame holds a 32-bit value. -/
def Trapframe32 (tf : Trapframe) : Prop :=
  tf.tf_regs.reg_edi < 2 ^ 32 ∧ tf.tf_regs.reg_esi < 2 ^ 32 ∧ tf.tf_regs.reg_ebp < 2 ^ 32
    ∧ tf.tf_regs.reg_oesp < 2 ^ 32 ∧ tf.tf_regs.reg_ebx < 2 ^ 32 ∧ tf.tf_regs.reg_edx < 2 ^ 32
    ∧ tf.tf_regs.reg_ecx < 2 ^ 32 ∧ tf.tf_regs.reg_eax < 2 ^ 32
    ∧ tf.tf_err < 2 ^ 32 ∧ tf.tf_eip < 2 ^ 32 ∧ tf.tf_eflags < 2 ^ 32 ∧ tf.tf_esp < 2 ^ 32

/-! ## User-level fork (`lib/fork.c`) -/

/-- The software bit `PTE_COW` that marks copy-on-write entries (defined in `lib/fork.c`). -/
def PTE_COW : Nat := 0x800

/-- Modelled from the spec: the write bit `err.WRITE` of a page-fault error code (`FEC_WR` of
`inc/mmu.h`, absent); the x86 value. -/
def FEC_WR : Nat := 0x2

/-- Modelled from the spec: `UTEMP`, the parent-side scratch address of `spawn`
(`inc/memlayout.h` is absent); the JOS value. -/
def UTEMP : Nat := PTSIZE

/-- Modelled from the spec: `PFTEMP`, the "fixed temporary virtual address" of the
copy-on-write handler (`inc/memlayout.h` is absent); the JOS value, the last page of the table
that starts at `UTEMP`. -/
def PFTEMP : Nat := UTEMP + PTSIZE - PGSIZE

/-- How a user-level library function ends: it returns `v`, it stops in the library's `panic`
(the environment exits), or one of its own memory accesses traps with a page fault. -/
inductive UserOutcome where
  | ret (v : Int) (s : State)
  | panic (s : State)
  | fault (s : State)
  deriving DecidableEq, Repr

/-- Kernel state at the end of a library function. -/
def UserOutcome.state : UserOutcome → State
  | .ret _ s => s
  | .panic s => s
  | .fault s => s

/-- Modelled from the spec: `vpt[pn]`, the running environment's leaf entry for page `pn` read
through the read-only self-map (`inc/memlayout.h` is absent); an entry that is not there reads
as 0. -/
def vpt (s : State) (pn : Nat) : Nat :=
  match fmGet (curEnv s).env_pgdir.ptes pn with
  | some pte => pteWord pte
  | none => 0

/-- Modelled from the spec: `vpd[pdx]`, the running environment's page-directory entry read
through the self-map (`inc/memlayout.h` is absent): the frame of the page table with
`PTE_P | PTE_W | PTE_U`, or 0 when there is no page table. -/
def vpd (s : State) (pdx : Nat) : Nat :=
  match fmGet (curEnv s).env_pgdir.tables pdx with
  | some t => t * PGSIZE ||| (PTE_P ||| PTE_W ||| PTE_U)
  | none => 0

/-- Modelled from the spec: the C library's `memmove(dst, src, n)` (`lib/string.c` is absent)
run by the current environment in user mode: the `n` bytes at `src` are read, then stored at
`dst` through the environment's page directory, which changes memory only; `none` when a page
touched is not mapped for the access (the access traps). -/
def memmove (s : State) (dst src n : Nat) : Option State :=
  if user_mem_check (curEnv s) src n (PTE_P ||| PTE_U) = true
      ∧ user_mem_check (curEnv s) dst n (PTE_P ||| PTE_U ||| PTE_W) = true then
    some { s with
      mem := (copyout s (curEnv s) dst
        ((List.range n).map fun k => readByte s (curEnv s) (src + k))).mem }
  else none

/-- The page-fault handler `pgfault` of `lib/fork.c`, run in user mode by the faulting
environment with the fault record `utf`. -/
def pgfault (s : State) (utf : UTrapframe) : UserOutcome :=
  let addr := utf.utf_fault_va
  let err := utf.utf_err
  if ¬ (err &&& FEC_WR ≠ 0 ∧ vpt s (PGNUM addr) &&& PTE_COW ≠ 0) then .panic s
  else
    let r1 := sys_page_alloc s 0 PFTEMP (PTE_U ||| PTE_W ||| PTE_P)
    if r1.1 < 0 then .panic r1.2
    else
      match memmove r1.2 PFTEMP (ROUNDDOWN addr PGSIZE) PGSIZE with
      | none => .fault r1.2
      | some s2 =>
        let r2 := sys_page_map s2 0 PFTEMP 0 (ROUNDDOWN addr PGSIZE) (PTE_U ||| PTE_W ||| PTE_P)
        if r2.1 < 0 then .panic r2.2
        else
          let r3 := sys_page_unmap r2.2 0 PFTEMP
          if r3.1 < 0 then .panic r3.2 else .ret 0 r3.2

/-- The function `duppage` of `lib/fork.c`; `pn * PGSIZE` is computed in `unsigned`. -/
def duppage (s : State) (envid pn : Nat) : UserOutcome :=
  let pte := vpt s pn
  if pte &&& PTE_W ≠ 0 ∨ pte &&& PTE_COW ≠ 0 then
    let r1 := sys_page_map s 0 (pn * PGSIZE % 2 ^ 32) envid (pn * PGSIZE % 2 ^ 32)
      (PTE_U ||| PTE_P ||| PTE_COW)
    if r1.1 < 0 then .panic r1.2
    else
      let r2 := sys_page_map r1.2 envid (pn * PGSIZE % 2 ^ 32) 0 (pn * PGSIZE % 2 ^ 32)
        (PTE_U ||| PTE_P ||| PTE_COW)
      if r2.1 < 0 then .panic r2.2 else .ret 0 r2.2
  else
    let r := sys_page_map s 0 (pn * PGSIZE % 2 ^ 32) envid (pn * PGSIZE % 2 ^ 32)
      (PTE_W ||| PTE_P ||| PTE_U)
    if r.1 < 0 then .panic r.2 else .ret 0 r.2

/-- The page scan of `fork`, `while (--pn >= 0) if (...) duppage(envid, pn);`, started with
`pn` equal to the first argument.  The list is a history variable: the page numbers `duppage`
has been called with so far, in order.  The value `duppage` returns is not looked at; a panic
inside `duppage` ends the scan. -/
def fork_scan (envid : Nat) : Nat → State → List Nat → UserOutcome × List Nat
  | 0, s, calls => (.ret 0 s, calls)
  | pn + 1, s, calls =>
    if vpd s (pn >>> 10) &&& PTE_P ≠ 0 ∧ vpt s pn &&& PTE_P ≠ 0 then
      match duppage s envid pn with
      | .ret _ s1 => fork_scan envid pn s1 (calls ++ [pn])
      | o => (o, calls ++ [pn])
    else fork_scan envid pn s calls

/-- The parent branch of `fork` (the code after `sys_exofork` returned the child's id `envid`):
the page scan, the child's exception stack, its upcall (`upcall` is the address of the assembly
entry `_pgfault_upcall`, `lib/pfentry.S` being absent) and its start.  The second component is
the history of `duppage` calls. -/
def fork_parent (s : State) (envid upcall : Nat) : UserOutcome × List Nat :=
  match fork_scan envid (UTOP / PGSIZE - 1) s [] with
  | (.ret _ s1, calls) =>
    let r1 := sys_page_alloc s1 envid (UXSTACKTOP - PGSIZE) (PTE_W ||| PTE_U ||| PTE_P)
    if r1.1 < 0 then (.panic r1.2, calls)
    else
      let r2 := sys_env_set_pgfault_upcall r1.2 envid upcall
      if r2.1 < 0 then (.panic r2.2, calls)
      else
        let r3 := sys_env_set_status r2.2 envid ENV_RUNNABLE
        if r3.1 < 0 then (.panic r3.2, calls) else (.ret (toInt32 envid) r3.2, calls)
  | o => o

/-- A sample parent for `fork`: environment 0x1000 runs in slot 0 with the leaf entries `ptes`
(page tables exist for the directory slots 2 and 0x3BA); its child 0x1001 in slot 1 has just
been created by `sys_exofork` (NOT_RUNNABLE, empty address space); frames 9, 10, 12 and 13 are
free. -/
def sampleForkParent (ptes : List (Nat × Pte)) : State :=
  { (default : State) with
      envs := [{ (default : Env) with
                  env_id := 0x1000
                  env_status := ENV_RUNNABLE
                  env_pgfault_upcall := 0x800020
                  env_pgdir := ⟨[(2, 50), (0x3BA, 51)], ptes⟩ },
               { (default : Env) with
                  env_id := 0x1001
                  env_parent_id := 0x1000
                  env_status := ENV_NOT_RUNNABLE
                  env_pgfault_upcall := 0x800020 }]
      curenv := 0
      page_free_list := [9, 10, 12, 13]
      pp_ref := [(6, 1), (7, 1), (8, 2), (11, 1), (50, 1), (51, 1)] }

/-- The state `t` differs from `s` at most in the address space of the environment in slot `i`
(and in the bookkeeping of the memory manager): the same environment runs, every other slot is
as before, slot `i` keeps every field but `env_pgdir`, and ids resolve as before. -/
def OnlyPgdirOf (s t : State) (i : Nat) : Prop :=
  t.curenv = s.curenv ∧ t.envs.length = s.envs.length
  ∧ (∀ j, j ≠ i → getEnv t j = getEnv s j)
  ∧ getEnv t i = { getEnv s i with env_pgdir := (getEnv t i).env_pgdir }
  ∧ (∀ envid cp, envid2env t envid cp = envid2env s envid cp)

/-- A sample state for the copy-on-write handler: environment 0x1000 runs in slot 0 with the
leaf entries `ptes` (page tables exist for the directory slots 1, 2 and 0x3BA); environment
0x1001 in slot 1 maps frame 7 copy-on-write at 0x00800000; byte 0x123 of frame 7 holds 0xAB;
frames 9 and 10 are free. -/
def sampleCowState (ptes : List (Nat × Pte)) : State :=
  { (default : State) with
      envs := [{ (default : Env) with
                  env_id := 0x1000
                  env_status := ENV_RUNNABLE
                  env_pgfault_upcall := 0x800020
                  env_pgdir := ⟨[(1, 52), (2, 50), (0x3BA, 51)], ptes⟩ },
               { (default : Env) with
                  env_id := 0x1001
                  env_parent_id := 0x1000
                  env_status := ENV_RUNNABLE
                  env_pgfault_upcall := 0x800020
                  env_pgdir := ⟨[(2, 53)], [(0x800, ⟨7, 0x805⟩)]⟩ }]
      curenv := 0
      page_free_list := [9, 10]
      pp_ref := [(7, 2), (11, 1), (50, 1), (51, 1), (52, 1), (53, 1)]
      mem := [(7 * 4096 + 0x123, 0xAB)] }

/-! ## User-level spawn (`lib/spawn.c`) -/

/-- Addition of 32-bit unsigned integers (the C operator `+` on `uint32_t` and on pointers). -/
def add32 (a b : Nat) : Nat := (a + b) % 2 ^ 32

/-- The C macro `ROUNDUP(a, n)` on a 32-bit value: `ROUNDDOWN(a + n - 1, n)`. -/
def ROUNDUP (a n : Nat) : Nat := ROUNDDOWN (add32 a (n - 1)) n

/-- The macro `UTEMP2USTACK(addr)` of `lib/spawn.c`: `addr + (USTACKTOP - PGSIZE) - UTEMP`. -/
def UTEMP2USTACK (addr : Nat) : Nat := sub32 (add32 addr (USTACKTOP - PGSIZE)) UTEMP

/-- A store of the bytes `bs` at `va` by the current environment in user mode: the bytes go
through the environment's page directory, which changes memory only; `none` when a page touched
is not mapped writable for user mode (the store traps).  A store of no byte touches nothing. -/
def user_store (s : State) (va : Nat) (bs : List Nat) : Option State :=
  if bs.length = 0 then some s
  else if user_mem_check (curEnv s) va bs.length (PTE_P ||| PTE_U ||| PTE_W) = true then
    some { s with mem := (copyout s (curEnv s) va bs).mem }
  else none

/-- A sequence of stores, in order: the state reached, and whether every store went through
(`false`: one of them trapped and the rest was not executed). -/
def perform_stores (s : State) : List (Nat × List Nat) → State × Bool
  | [] => (s, true)
  | (va, bs) :: rest =>
    match user_store s va bs with
    | none => (s, false)
    | some s1 => perform_stores s1 rest

/-- The first loop of `init_stack`: `string_size`, the sum of `strlen(argv[i]) + 1` in
`size_t`.  An argument is the list of its bytes without the terminating NUL, so that `strlen`
is the length of the list. -/
def string_size (argv : List (List Nat)) : Nat :=
  argv.foldl (fun acc str => add32 acc (add32 str.length 1)) 0

/-- The pointer `string_store` of `init_stack` before the copy loop:
`(char*) UTEMP + PGSIZE - string_size`. -/
def string_store0 (argv : List (List Nat)) : Nat :=
  sub32 (add32 UTEMP PGSIZE) (string_size argv)

/-- The pointer `argv_store` of `init_stack`:
`ROUNDDOWN(string_store, 4) - 4 * (argc + 1)`. -/
def argv_store0 (argv : List (List Nat)) : Nat :=
  sub32 (ROUNDDOWN (string_store0 argv) 4) (4 * (argv.length + 1) % 2 ^ 32)

/-- The stores of the copy loop of `init_stack` for the arguments left, `ss` being
`string_store` and `ap` the address of `argv_store[i]`: the bytes of the string (`memmove`), its
terminating NUL, and the child-side address of the copy. -/
def copy_loop_stores : List (List Nat) → Nat → Nat → List (Nat × List Nat)
  | [], _, _ => []
  | str :: rest, ss, ap =>
    (ss, str) :: (add32 ss str.length, [0]) :: (ap, word_bytes (UTEMP2USTACK ss))
      :: copy_loop_stores rest (add32 ss (add32 str.length 1)) (add32 ap 4)

/-- Every store `init_stack` makes between `sys_page_alloc` and `sys_page_map`, in order: the
copy loop, then `argv_store[argc] = 0`, `argv_store[-1] = UTEMP2USTACK(argv_store)` and
`argv_store[-2] = argc`. -/
def init_stack_stores (argv : List (List Nat)) : List (Nat × List Nat) :=
  copy_loop_stores argv (string_store0 argv) (argv_store0 argv)
    ++ [(add32 (argv_store0 argv) (4 * argv.length % 2 ^ 32), word_bytes 0),
        (sub32 (argv_store0 argv) 4, word_bytes (UTEMP2USTACK (argv_store0 argv))),
        (sub32 (argv_store0 argv) 8, word_bytes argv.length)]

/-- The function `init_stack` of `lib/spawn.c`.  The second component is what it stored in
`*init_esp` (`none` when it returned before the assignment). -/
def init_stack (s : State) (child : Nat) (argv : List (List Nat)) : UserOutcome × Option Nat :=
  if sub32 (argv_store0 argv) 8 < UTEMP then (.ret (-E_NO_MEM) s, none)
  else
    let r1 := sys_page_alloc s 0 UTEMP (PTE_P ||| PTE_U ||| PTE_W)
    if r1.1 < 0 then (.ret r1.1 r1.2, none)
    else
      let w := perform_stores r1.2 (init_stack_stores argv)
      if w.2 = false then (.fault w.1, none)
      else
        let esp := UTEMP2USTACK (sub32 (argv_store0 argv) 8)
        let r2 := sys_page_map w.1 0 UTEMP child (USTACKTOP - PGSIZE) (PTE_P ||| PTE_U ||| PTE_W)
        if r2.1 < 0 then (.ret r2.1 (sys_page_unmap r2.2 0 UTEMP).2, some esp)
        else
          let r3 := sys_page_unmap r2.2 0 UTEMP
          if r3.1 < 0 then (.ret r3.1 r3.2, some esp) else (.ret 0 r3.2, some esp)

/-- The bytes the arguments need, each with its NUL, as a natural number. -/
def argv_bytes (argv : List (List Nat)) : Nat := (argv.map fun str => str.length + 1).sum

/-- The arguments fit, in the words of the specification: the strings at the top of one page,
the `(argc + 1)`-entry pointer array below them at a 4-byte aligned address, and the two words
for `argc` and `argv` below the array, all inside the page. -/
def argv_fits (argv : List (List Nat)) : Prop :=
  argv_bytes argv ≤ PGSIZE
    ∧ 4 * (argv.length + 1) + 8 ≤ ROUNDDOWN (PGSIZE - argv_bytes argv) 4

/-- Modelled from the spec: a program header (`struct Proghdr` of `inc/elf.h`, absent). -/
structure Proghdr where
  p_type : Nat
  p_offset : Nat
  p_va : Nat
  p_pa : Nat
  p_filesz : Nat
  p_memsz : Nat
  p_flags : Nat
  p_align : Nat
  deriving DecidableEq, Repr, Inhabited

/-- Modelled from the spec: the segment type `ELF_PROG_LOAD` (`inc/elf.h` is absent). -/
def ELF_PROG_LOAD : Nat := 1

/-- Modelled from the spec: the segment flag `ELF_PROG_FLAG_WRITE` (`inc/elf.h` is absent). -/
def ELF_PROG_FLAG_WRITE : Nat := 2

/-- Modelled from the spec: an open file descriptor of the file-server client (`lib/fd.c`,
`lib/file.c`, absent): the size of the file, its bytes, and the seek position. -/
structure Fd where
  size : Nat
  byte : Nat → Nat
  pos : Nat

/-- Modelled from the spec: `seek(fd, offset)` of the file-server client (`lib/fd.c` is
absent): sets the position and returns 0. -/
def seek (fd : Fd) (offset : Nat) : Int × Fd := (0, { fd with pos := offset })

/-- Modelled from the spec: `read(fd, buf, n)` of the file-server client (`lib/fd.c` is
absent): copies up to `n` bytes from the seek position into the caller's memory at `buf`,
advances the position and returns the number of bytes copied; `none` when the copy traps. -/
def read (s : State) (fd : Fd) (buf n : Nat) : Option (Int × State × Fd) :=
  match user_store s buf ((List.range (min n (fd.size - fd.pos))).map
      fun k => fd.byte (fd.pos + k)) with
  | none => none
  | some s1 => some (((min n (fd.size - fd.pos) : Nat) : Int), s1,
      { fd with pos := fd.pos + min n (fd.size - fd.pos) })

/-- Modelled from the spec: the C library's `memset(va, 0, n)` (`lib/string.c` is absent) run in
user mode. -/
def memset_zero (s : State) (va n : Nat) : Option State := user_store s va (List.replicate n 0)

/-- How a loop of `load_elf_to_child` ends: it ran to its end (with the state, the descriptor
and the variables `offset` and `cur_va`), or the function left from inside it. -/
inductive LoopEnd where
  | done (s : State) (fd : Fd) (offset cur_va : Nat)
  | left (o : UserOutcome)

/-- The first loop of the read/write branch of `load_elf_to_child` (pages with file bytes);
`fuel` bounds the number of iterations (`none`: not finished within `fuel`). -/
def load_file_loop (child : Nat) (ph : Proghdr) :
    Nat → State → Fd → Nat → Nat → Option LoopEnd
  | 0, _, _, _, _ => none
  | fuel + 1, s, fd, offset, cur_va =>
    if cur_va < add32 ph.p_va ph.p_filesz then
      let size0 := PGSIZE - (offset &&& 0xfff)
      let size := if add32 cur_va size0 ≥ add32 ph.p_va ph.p_filesz
        then sub32 (add32 ph.p_va ph.p_filesz) cur_va else size0
      let r1 := sys_page_alloc s 0 UTEMP (PTE_P ||| PTE_U ||| PTE_W)
      if r1.1 < 0 then some (.left (.ret r1.1 r1.2))
      else
        let r2 := seek fd (ROUNDDOWN offset PGSIZE)
        if r2.1 < 0 then some (.left (.ret r2.1 r1.2))
        else
          match read r1.2 r2.2 (UTEMP + (offset &&& 0xfff)) size with
          | none => some (.left (.fault r1.2))
          | some (r3, s3, fd3) =>
            if r3 < 0 then some (.left (.ret r3 s3))
            else
              let r4 := sys_page_map s3 0 UTEMP child (ROUNDDOWN cur_va PGSIZE)
                (PTE_P ||| PTE_U ||| PTE_W)
              if r4.1 < 0 then some (.left (.ret r4.1 r4.2))
              else
                let r5 := sys_page_unmap r4.2 0 UTEMP
                if r5.1 < 0 then some (.left (.ret r5.1 r5.2))
                else load_file_loop child ph fuel r5.2 fd3 (add32 offset size) (add32 cur_va size)
    else some (.done s fd offset cur_va)

/-- The second loop of the read/write branch of `load_elf_to_child` (zero-filled pages up to
`p_memsz`). -/
def load_zero_loop (child : Nat) (ph : Proghdr) :
    Nat → State → Fd → Nat → Nat → Option LoopEnd
  | 0, _, _, _, _ => none
  | fuel + 1, s, fd, offset, cur_va =>
    if cur_va < add32 ph.p_va ph.p_memsz then
      let size0 := PGSIZE - (offset &&& 0xfff)
      let size := if add32 cur_va size0 ≥ add32 ph.p_va ph.p_memsz
        then sub32 (add32 ph.p_va ph.p_memsz) cur_va else size0
      let r1 := sys_page_alloc s 0 UTEMP (PTE_P ||| PTE_U ||| PTE_W)
      if r1.1 < 0 then some (.left (.ret r1.1 r1.2))
      else
        match memset_zero r1.2 (UTEMP + (offset &&& 0xfff)) size with
        | none => some (.left (.fault r1.2))
        | some s2 =>
          let r4 := sys_page_map s2 0 UTEMP child (ROUNDDOWN cur_va PGSIZE)
            (PTE_P ||| PTE_U ||| PTE_W)
          if r4.1 < 0 then some (.left (.ret r4.1 r4.2))
          else
            let r5 := sys_page_unmap r4.2 0 UTEMP
            if r5.1 < 0 then some (.left (.ret r5.1 r5.2))
            else load_zero_loop child ph fuel r5.2 fd (add32 offset size) (add32 cur_va size)
    else some (.done s fd offset cur_va)

/-- The loop of the read-only branch of `load_elf_to_child`.  `read_map` belongs to the
file-server client (`lib/file.c`, absent); `blk_of offset` stands for the address of the block
it hands back for the file offset, and it is taken to succeed. -/
def load_text_loop (child : Nat) (ph : Proghdr) (blk_of : Nat → Nat) :
    Nat → State → Nat → Nat → Option UserOutcome
  | 0, _, _, _ => none
  | fuel + 1, s, offset, cur_va =>
    if cur_va < add32 ph.p_va ph.p_filesz then
      let size := PGSIZE - (offset &&& 0xfff)
      let r := sys_page_map s 0 (ROUNDDOWN (blk_of offset) PGSIZE) child
        (ROUNDDOWN cur_va PGSIZE) (PTE_P ||| PTE_U)
      if r.1 < 0 then some (.ret r.1 r.2)
      else load_text_loop child ph blk_of fuel r.2 (add32 offset size) (add32 cur_va size)
    else some (.ret 0 s)

/-- The function `load_elf_to_child` of `lib/spawn.c`; `fuel` bounds the iterations of each
loop (`none`: a loop did not finish within `fuel`). -/
def load_elf_to_child (fuel : Nat) (s : State) (fd : Fd) (ph : Proghdr) (child : Nat)
    (blk_of : Nat → Nat) : Option UserOutcome :=
  if ph.p_flags &&& ELF_PROG_FLAG_WRITE ≠ 0 then
    match load_file_loop child ph fuel s fd ph.p_offset ph.p_va with
    | none => none
    | some (.left o) => some o
    | some (.done s1 fd1 offset cur_va) =>
      match load_zero_loop child ph fuel s1 fd1 (ROUNDUP offset PGSIZE) (ROUNDUP cur_va PGSIZE) with
      | none => none
      | some (.left o) => some o
      | some (.done s2 _ _ _) => some (.ret 0 s2)
  else load_text_loop child ph blk_of fuel s ph.p_offset ph.p_va

/-- A sample program file of 0x2000 bytes whose byte at offset `i` is `i mod 256`. -/
def sampleFile : Fd := { size := 0x2000, byte := fun i => i % 256, pos := 0 }

/-- A sample writable LOAD segment. -/
def sampleSegment (p_offset p_va p_filesz p_memsz : Nat) : Proghdr :=
  { p_type := ELF_PROG_LOAD, p_offset := p_offset, p_va := p_va, p_pa := p_va,
    p_filesz := p_filesz, p_memsz := p_memsz, p_flags := 6, p_align := PGSIZE }

/-- The byte at parent address `a` of the page under construction at `UTEMP`, which lives in
frame `f`. -/
def pageByte (s : State) (f a : Nat) : Nat := physByte s (f * PGSIZE + (a - UTEMP))

/-- No page at or above `UTOP` is mapped writable for user mode in the address space of `e`:
what the handlers of `kern/syscall.c` maintain, since they refuse every `va >= UTOP`. -/
def UserWritableBelowUTOP (e : Env) : Prop :=
  ∀ pn pte, fmGet e.env_pgdir.ptes pn = some pte →
    pte.perm &&& (PTE_P ||| PTE_U ||| PTE_W) = PTE_P ||| PTE_U ||| PTE_W → pn < UTOP / PGSIZE

/-- The arguments `["prog", "a", "bb"]` as byte strings. -/
def sampleArgv : List (List Nat) := [[0x70, 0x72, 0x6f, 0x67], [0x61], [0x62, 0x62]]

/-! ## Trap dispatch (`kern/trap.c`) -/

/-- Modelled from the spec: the vector of the debug-breakpoint trap (`T_BRKPT` of `inc/trap.h`,
absent); the x86 value. -/
def T_BRKPT : Nat := 3

/-- Modelled from the spec: the vector of the page fault (`T_PGFLT` of `inc/trap.h`, absent);
the x86 value. -/
def T_PGFLT : Nat := 14

/-- Modelled from the spec: the "fixed vector" of the system-call gate (`T_SYSCALL` of
`inc/trap.h`, absent); the JOS value. -/
def T_SYSCALL : Nat := 48

/-- Modelled from the spec: the selector of the kernel text segment (`GD_KT` of
`inc/memlayout.h`, absent); the JOS value. -/
def GD_KT : Nat := 0x08

/-- The descriptor privilege level that `idt_init` gives the gate of a vector (the last
argument of `SETGATE`): 3 for `T_BRKPT` and `T_SYSCALL`, 0 for every other gate it sets. -/
def idt_dpl (trapno : Nat) : Nat := if trapno = T_BRKPT ∨ trapno = T_SYSCALL then 3 else 0

/-- The bit pattern of an `int32_t` stored in a 32-bit register. -/
def ofInt32 (v : Int) : Nat := (v % 2 ^ 32).toNat

/-- The end of `trap_dispatch`, reached when the `switch` is left by `break`: "Unexpected
trap" (`print_trapframe` is left out). -/
def unexpected_trap (s : State) (p : TfPtr) : TrapResult :=
  if (tfRead s p).tf_cs = GD_KT then .panic s else destroy_curenv s

/-- The function `trap_dispatch` of `kern/trap.c`; `fault_va` is what `rcr2()` would read. -/
def trap_dispatch (s : State) (p : TfPtr) (fault_va : Nat) : TrapResult :=
  let tf := tfRead s p
  if tf.tf_trapno = T_BRKPT then .panic s
  else if tf.tf_trapno = T_PGFLT then
    match page_fault_handler s p fault_va with
    | .returned s1 => unexpected_trap s1 p
    | o => o
  else if tf.tf_trapno = T_SYSCALL then
    match syscall s tf.tf_regs.reg_eax tf.tf_regs.reg_edx tf.tf_regs.reg_ecx tf.tf_regs.reg_ebx
        tf.tf_regs.reg_edi tf.tf_regs.reg_esi with
    | .ret v s1 =>
      .returned (tfStore s1 p
        { tfRead s1 p with tf_regs := { (tfRead s1 p).tf_regs with reg_eax := ofInt32 v } })
    | .noreturn s1 => .yielded s1
    | .panic s1 => .panic s1
  else unexpected_trap s p

/-- The sample faulting environment with trap number `trapno` and system-call number `eax` in
its saved frame (it trapped from user mode, `cs = 0x1b`). -/
def sampleTrapState (trapno eax : Nat) : State :=
  tfStore (sampleFaultState 0xeebfdf00) .env_tf
    { (curEnv (sampleFaultState 0xeebfdf00)).env_tf with
        tf_trapno := trapno
        tf_regs := { (default : PushRegs) with reg_eax := eax } }

/-! ## Shared-page propagation of `spawn` (`lib/spawn.c`) -/

theorem fmGet_fmErase {α : Type} (m : List (Nat × α)) (k key : Nat) :
    fmGet (fmErase m k) key = if key = k then none else fmGet m key := by
  induction m with
  | nil => simp [fmErase, fmGet]
  | cons kv m ih =>
    obtain ⟨a, v⟩ := kv
    by_cases h : a = k
    · subst h
      by_cases h2 : key = a
      · subst h2
        simp [fmErase, fmGet, ih]
      · have h3 : a ≠ key := fun h => h2 h.symm
        simp [fmErase, fmGet, ih, h2, h3]
    · by_cases h2 : a = key
      · subst h2
        simp [fmErase, fmGet, h]
      · simp [fmErase, fmGet, h, h2, ih]

theorem fmGet_fmSet {α : Type} (m : List (Nat × α)) (k key : Nat) (v : α) :
    fmGet (fmSet m k v) key = if key = k then some v else fmGet m key := by
  by_cases h : key = k
  · subst h
    simp [fmSet, fmGet]
  · have h3 : k ≠ key := fun h2 => h h2.symm
    simp [fmSet, fmGet, fmGet_fmErase, h, h3]

theorem envAt_set_ne (envs : List Env) (i j : Nat) (e : Env) (h : j ≠ i) :
    envAt (envs.set i e) j = envAt envs j := by
  have h2 : i ≠ j := fun h3 => h h3.symm
  simp [envAt, List.getD_eq_getElem?_getD, List.getElem?_set_ne h2]

theorem envAt_set_eq (envs : List Env) (i : Nat) (e : Env) (h : i < envs.length) :
    envAt (envs.set i e) i = e := by
  simp [envAt, List.getD_eq_getElem?_getD, h]

theorem envAt_of_length_le (envs : List Env) (i : Nat) (h : envs.length ≤ i) :
    envAt envs i = default := by
  simp [envAt, List.getD_eq_getElem?_getD, List.getElem?_eq_none h]

theorem set_envAt (envs : List Env) (i : Nat) : envs.set i (envAt envs i) = envs := by
  by_cases h : i < envs.length
  · apply List.ext_getElem
    · simp
    · intro n h1 h2
      by_cases hn : i = n
      · subst hn
        simp [envAt, List.getD_eq_getElem?_getD, List.getElem?_eq_getElem h]
      · simp [List.getElem_set_ne hn]
  · exact List.set_eq_of_length_le (by omega)

theorem envAt_eq_of_get? (envs : List Env) (i : Nat) (e : Env) (h : envs.get? i = some e) :
    envAt envs i = e := by
  simp [envAt, List.getD_eq_getElem?_getD, List.get?_eq_getElem?] at *
  simp [h]

theorem getEnv_setEnv_ne (s : State) (i j : Nat) (e : Env) (h : j ≠ i) :
    getEnv (setEnv s i e) j = getEnv s j := by
  simp [getEnv, setEnv, envAt_set_ne _ _ _ _ h]

theorem getEnv_setEnv_eq (s : State) (i : Nat) (e : Env) (h : i < s.envs.length) :
    getEnv (setEnv s i e) i = e := by
  simp [getEnv, setEnv, envAt_set_eq _ _ _ h]

theorem setEnv_of_length_le (s : State) (i : Nat) (e : Env) (h : s.envs.length ≤ i) :
    setEnv s i e = s := by
  simp [setEnv, List.set_eq_of_length_le h]

/-! ## Lemmas: the memory manager -/

theorem getEnv_congr (s t : State) (i : Nat) (h : t.envs = s.envs) : getEnv t i = getEnv s i := by
  simp [getEnv, h]

theorem curEnv_congr (s t : State) (h : t.envs = s.envs) (hc : t.curenv = s.curenv) :
    curEnv t = curEnv s := by
  simp [curEnv, getEnv, h, hc]

theorem page_decref_envs (s : State) (f : Nat) : (page_decref s f).envs = s.envs := by
  unfold page_decref page_free
  simp only []
  split <;> rfl

theorem page_decref_curenv (s : State) (f : Nat) : (page_decref s f).curenv = s.curenv := by
  unfold page_decref page_free
  simp only []
  split <;> rfl

theorem page_decref_mm_ops (s : State) (f : Nat) : (page_decref s f).mm_ops = s.mm_ops := by
  unfold page_decref page_free
  simp only []
  split <;> rfl

theorem page_alloc_frame (s s1 : State) (f : Nat) (h : page_alloc s = some (f, s1)) :
    s1.envs = s.envs ∧ s1.curenv = s.curenv ∧ s1.mm_ops = s.mm_ops := by
  unfold page_alloc at h
  split at h
  · cases h
  · simp only [Option.some.injEq, Prod.mk.injEq] at h
    obtain ⟨_, h⟩ := h
    subst h
    exact ⟨rfl, rfl, rfl⟩

theorem pgdir_walk_spec (s s1 : State) (pd pd1 : PageDir) (va : Nat)
    (h : pgdir_walk s pd va = some (s1, pd1)) :
    s1.envs = s.envs ∧ s1.curenv = s.curenv ∧ s1.mm_ops = s.mm_ops ∧ pd1.ptes = pd.ptes := by
  unfold pgdir_walk at h
  split at h
  · simp only [Option.some.injEq, Prod.mk.injEq] at h
    obtain ⟨h1, h2⟩ := h
    subst h1 h2
    exact ⟨rfl, rfl, rfl, rfl⟩
  · split at h
    · cases h
    · rename_i t s2 ha
      simp only [Option.some.injEq, Prod.mk.injEq] at h
      obtain ⟨h1, h2⟩ := h
      subst h1 h2
      have := page_alloc_frame _ _ _ ha
      exact ⟨this.1, this.2.1, this.2.2, rfl⟩

theorem unref_mapped_frame (s : State) (pd : PageDir) (va : Nat) :
    (unref_mapped s pd va).envs = s.envs ∧ (unref_mapped s pd va).curenv = s.curenv
      ∧ (unref_mapped s pd va).mm_ops = s.mm_ops := by
  unfold unref_mapped
  split
  · exact ⟨page_decref_envs _ _, page_decref_curenv _ _, page_decref_mm_ops _ _⟩
  · exact ⟨rfl, rfl, rfl⟩

theorem page_insert_spec (s : State) (i f va perm : Nat) :
    ∃ pd : PageDir,
      (page_insert s i f va perm).2.envs = s.envs.set i { getEnv s i with env_pgdir := pd }
      ∧ (page_insert s i f va perm).2.curenv = s.curenv
      ∧ (page_insert s i f va perm).2.mm_ops = s.mm_ops ++ [⟨true, i, va⟩]
      ∧ ((page_insert s i f va perm).1 = 0 ∨ (page_insert s i f va perm).1 = -E_NO_MEM)
      ∧ ((page_insert s i f va perm).1 = 0 → fmGet pd.ptes (PGNUM va) = some ⟨f, perm⟩)
      ∧ ((page_insert s i f va perm).1 ≠ 0 → pd = (getEnv s i).env_pgdir)
      ∧ (∀ k, k ≠ PGNUM va → fmGet pd.ptes k = fmGet (getEnv s i).env_pgdir.ptes k) := by
  cases hw : pgdir_walk { s with mm_ops := s.mm_ops ++ [⟨true, i, va⟩] } (getEnv s i).env_pgdir va with
  | none =>
    refine ⟨(getEnv s i).env_pgdir, ?_⟩
    have hs : s.envs.set i (getEnv s i) = s.envs := set_envAt s.envs i
    have hp : page_insert s i f va perm
        = (-E_NO_MEM, { s with mm_ops := s.mm_ops ++ [⟨true, i, va⟩] }) := by
      unfold page_insert
      simp only []
      rw [show getEnv { s with mm_ops := s.mm_ops ++ [⟨true, i, va⟩] } i = getEnv s i from rfl, hw]
    rw [hp]
    simp [hs, E_NO_MEM]
  | some r =>
    obtain ⟨s1, pd1⟩ := r
    obtain ⟨h1, h2, h3, h4⟩ := pgdir_walk_spec _ _ _ _ _ hw
    refine ⟨{ pd1 with ptes := fmSet pd1.ptes (PGNUM va) ⟨f, perm⟩ }, ?_⟩
    have key : ∃ s3 : State, s3.envs = s.envs ∧ s3.curenv = s.curenv
        ∧ s3.mm_ops = s.mm_ops ++ [⟨true, i, va⟩]
        ∧ page_insert s i f va perm
          = (0, setEnv s3 i { getEnv s3 i with
                env_pgdir := { pd1 with ptes := fmSet pd1.ptes (PGNUM va) ⟨f, perm⟩ } }) := by
      obtain ⟨u1, u2, u3⟩ := unref_mapped_frame
        { s1 with pp_ref := fmSet s1.pp_ref f (refGet s1 f + 1) } pd1 va
      refine ⟨unref_mapped { s1 with pp_ref := fmSet s1.pp_ref f (refGet s1 f + 1) } pd1 va,
        u1.trans h1, u2.trans h2, u3.trans h3, ?_⟩
      unfold page_insert
      simp only []
      rw [show getEnv { s with mm_ops := s.mm_ops ++ [⟨true, i, va⟩] } i = getEnv s i from rfl, hw]
    obtain ⟨s3, e1, e2, e3, hp⟩ := key
    have hg : getEnv s3 i = getEnv s i := getEnv_congr _ _ _ e1
    rw [hp, hg]
    simp only [setEnv, e1, e2, e3, h4, fmGet_fmSet]
    simp
    intro k hk hk2
    exact absurd hk2 hk

theorem page_remove_spec (s : State) (i va : Nat) :
    ∃ pd : PageDir,
      (page_remove s i va).envs = s.envs.set i { getEnv s i with env_pgdir := pd }
      ∧ (page_remove s i va).curenv = s.curenv
      ∧ (page_remove s i va).mm_ops = s.mm_ops ++ [⟨false, i, va⟩]
      ∧ fmGet pd.ptes (PGNUM va) = none
      ∧ (∀ k, k ≠ PGNUM va → fmGet pd.ptes k = fmGet (getEnv s i).env_pgdir.ptes k) := by
  refine ⟨{ (getEnv s i).env_pgdir with
              ptes := fmErase (getEnv s i).env_pgdir.ptes (PGNUM va) }, ?_⟩
  obtain ⟨u1, u2, u3⟩ := unref_mapped_frame
    { s with mm_ops := s.mm_ops ++ [⟨false, i, va⟩] } (getEnv s i).env_pgdir va
  have hg : getEnv (unref_mapped { s with mm_ops := s.mm_ops ++ [⟨false, i, va⟩] }
      (getEnv s i).env_pgdir va) i = getEnv s i := getEnv_congr _ _ _ u1
  have hp : page_remove s i va
      = setEnv (unref_mapped { s with mm_ops := s.mm_ops ++ [⟨false, i, va⟩] }
          (getEnv s i).env_pgdir va) i
          { getEnv s i with env_pgdir := { (getEnv s i).env_pgdir with
              ptes := fmErase (getEnv s i).env_pgdir.ptes (PGNUM va) } } := by
    unfold page_remove
    simp only []
    rw [show getEnv { s with mm_ops := s.mm_ops ++ [⟨false, i, va⟩] } i = getEnv s i from rfl, hg]
  rw [hp]
  simp only [setEnv, u1, u2, u3, fmGet_fmErase]
  simp
  intro k hk hk2
  exact absurd hk2 hk

/-! ## Lemmas: the paths through the handlers -/

theorem sys_page_map_cases (s : State) (srcenvid srcva dstenvid dstva perm : Nat) :
    ((sys_page_map s srcenvid srcva dstenvid dstva perm).2 = s
      ∧ ((sys_page_map s srcenvid srcva dstenvid dstva perm).1 = -E_BAD_ENV
          ∧ (envid2env s srcenvid true = none ∨ envid2env s dstenvid true = none)
        ∨ (sys_page_map s srcenvid srcva dstenvid dstva perm).1 = -E_INVAL
          ∧ envid2env s srcenvid true ≠ none ∧ envid2env s dstenvid true ≠ none))
    ∨ (∃ src dst pte,
        envid2env s srcenvid true = some src ∧ envid2env s dstenvid true = some dst
        ∧ vaAccepted srcva ∧ vaAccepted dstva
        ∧ page_lookup (getEnv s src).env_pgdir srcva = some pte
        ∧ permAccepted perm ∧ (perm &&& PTE_W ≠ 0 → pte.perm &&& PTE_W ≠ 0)
        ∧ (sys_page_map s srcenvid srcva dstenvid dstva perm).2
            = (page_insert s dst pte.frame dstva perm).2
        ∧ (sys_page_map s srcenvid srcva dstenvid dstva perm).1
            = (page_insert s dst pte.frame dstva perm).1) := by
  unfold sys_page_map
  cases h1 : envid2env s srcenvid true with
  | none => simp
  | some src =>
    cases h2 : envid2env s dstenvid true with
    | none => simp
    | some dst =>
      simp only []
      split
      · simp
      · rename_i hva
        cases h3 : page_lookup (getEnv s src).env_pgdir srcva with
        | none => simp
        | some pte =>
          simp only []
          split
          · simp
          · rename_i hp1
            split
            · simp
            · rename_i hp2
              split
              · simp
              · rename_i hw
                right
                refine ⟨src, dst, pte, rfl, rfl, ?_, ?_, h3, ⟨hp1, hp2⟩, ?_, ?_, ?_⟩
                · intro h
                  exact hva (by tauto)
                · intro h
                  exact hva (by tauto)
                · intro h1 h2
                  exact hw ⟨h1, h2⟩
                · split <;> rfl
                · obtain ⟨pd, _, _, _, h4, _⟩ := page_insert_spec s dst pte.frame dstva perm
                  rcases h4 with h4 | h4
                  · simp [h4]
                  · simp [h4, E_NO_MEM]

theorem page_insert_ret (s : State) (i f va perm : Nat) :
    (page_insert s i f va perm).1 = 0 ∨ (page_insert s i f va perm).1 = -E_NO_MEM := by
  obtain ⟨pd, _, _, _, h4, _⟩ := page_insert_spec s i f va perm
  exact h4

theorem sys_ipc_try_send_cases (s : State) (envid value srcva perm : Nat) (r : Int × State)
    (hr : r = sys_ipc_try_send s envid value srcva perm) :
    (r.2 = s ∧ (r.1 = -E_BAD_ENV ∧ envid2env s envid false = none
        ∨ (∃ t, envid2env s envid false = some t ∧ (getEnv s t).env_ipc_recving = 0
              ∧ r.1 = -E_IPC_NOT_RECV)
        ∨ (∃ t, envid2env s envid false = some t ∧ (getEnv s t).env_ipc_recving ≠ 0
              ∧ srcva ≠ 0 ∧ r.1 = -E_INVAL)))
    ∨ (∃ t, envid2env s envid false = some t ∧ (getEnv s t).env_ipc_recving ≠ 0 ∧ srcva = 0
          ∧ r = ipc_complete s t value perm 0)
    ∨ (∃ t pte, envid2env s envid false = some t ∧ (getEnv s t).env_ipc_recving ≠ 0
          ∧ srcva ≠ 0 ∧ vaAccepted srcva
          ∧ page_lookup (curEnv s).env_pgdir srcva = some pte
          ∧ permAccepted perm ∧ (perm &&& PTE_W ≠ 0 → pte.perm &&& PTE_W ≠ 0)
          ∧ ((getEnv s t).env_ipc_dstva ≠ srcva ∧ r = ipc_complete s t value perm 1
            ∨ (getEnv s t).env_ipc_dstva = srcva
                ∧ (page_insert s t pte.frame srcva perm).1 = -E_NO_MEM
                ∧ r = (-E_NO_MEM, (page_insert s t pte.frame srcva perm).2)
            ∨ (getEnv s t).env_ipc_dstva = srcva
                ∧ (page_insert s t pte.frame srcva perm).1 = 0
                ∧ r = ipc_complete (page_insert s t pte.frame srcva perm).2 t value perm 1)) := by
  unfold sys_ipc_try_send at hr
  cases h1 : envid2env s envid false with
  | none =>
    rw [h1] at hr
    subst hr
    exact Or.inl ⟨rfl, Or.inl ⟨rfl, rfl⟩⟩
  | some t =>
    rw [h1] at hr
    dsimp only at hr
    split at hr
    · rename_i hrecv
      subst hr
      exact Or.inl ⟨rfl, Or.inr (Or.inl ⟨t, rfl, hrecv, rfl⟩)⟩
    · rename_i hrecv
      split at hr
      · rename_i hsrc
        split at hr
        · subst hr
          exact Or.inl ⟨rfl, Or.inr (Or.inr ⟨t, rfl, hrecv, hsrc, rfl⟩)⟩
        · rename_i hv1
          split at hr
          · subst hr
            exact Or.inl ⟨rfl, Or.inr (Or.inr ⟨t, rfl, hrecv, hsrc, rfl⟩)⟩
          · rename_i hv2
            cases h3 : page_lookup (curEnv s).env_pgdir srcva with
            | none =>
              rw [h3] at hr
              subst hr
              exact Or.inl ⟨rfl, Or.inr (Or.inr ⟨t, rfl, hrecv, hsrc, rfl⟩)⟩
            | some pte =>
              rw [h3] at hr
              dsimp only at hr
              split at hr
              · subst hr
                exact Or.inl ⟨rfl, Or.inr (Or.inr ⟨t, rfl, hrecv, hsrc, rfl⟩)⟩
              · rename_i hp1
                split at hr
                · subst hr
                  exact Or.inl ⟨rfl, Or.inr (Or.inr ⟨t, rfl, hrecv, hsrc, rfl⟩)⟩
                · rename_i hp2
                  split at hr
                  · subst hr
                    exact Or.inl ⟨rfl, Or.inr (Or.inr ⟨t, rfl, hrecv, hsrc, rfl⟩)⟩
                  · rename_i hw
                    right
                    right
                    refine ⟨t, pte, rfl, hrecv, hsrc, ?_, rfl, ⟨hp1, hp2⟩, ?_, ?_⟩
                    · intro h
                      rcases h with h | h
                      · exact hv1 h
                      · exact hv2 h
                    · intro h1 h2
                      exact hw ⟨h1, h2⟩
                    · split at hr
                      · rename_i hd
                        right
                        rcases page_insert_ret s t pte.frame srcva perm with h4 | h4
                        · right
                          refine ⟨hd, h4, ?_⟩
                          rw [hr]
                          simp [h4]
                        · left
                          refine ⟨hd, h4, ?_⟩
                          rw [hr]
                          simp [h4, E_NO_MEM]
                      · rename_i hd
                        left
                        exact ⟨hd, hr⟩
      · rename_i hsrc
        right
        left
        refine ⟨t, rfl, hrecv, ?_, hr⟩
        simpa using hsrc

theorem ipc_complete_fst (s : State) (t value perm : Nat) (ret : Int) :
    (ipc_complete s t value perm ret).1 = ret := rfl

theorem ipc_complete_envs (s : State) (t value perm : Nat) (ret : Int) :
    (ipc_complete s t value perm ret).2.envs
      = s.envs.set t { getEnv s t with
          env_ipc_recving := 0
          env_ipc_value := value
          env_ipc_from := (curEnv s).env_id
          env_ipc_perm := if ret ≠ 0 then perm else 0
          env_status := ENV_RUNNABLE } := rfl

theorem ipc_complete_frame (s : State) (t value perm : Nat) (ret : Int) :
    (ipc_complete s t value perm ret).2.curenv = s.curenv
      ∧ (ipc_complete s t value perm ret).2.mm_ops = s.mm_ops := ⟨rfl, rfl⟩

theorem ipc_complete_spec (s s1 : State) (t value perm : Nat) (ret : Int) (pd : PageDir)
    (ht : t < s.envs.length)
    (he : s1.envs = s.envs.set t { getEnv s t with env_pgdir := pd })
    (hc : s1.curenv = s.curenv) :
    getEnv (ipc_complete s1 t value perm ret).2 t
        = { getEnv s t with
              env_pgdir := pd
              env_ipc_recving := 0
              env_ipc_value := value
              env_ipc_from := (curEnv s).env_id
              env_ipc_perm := if ret ≠ 0 then perm else 0
              env_status := ENV_RUNNABLE }
    ∧ (∀ i, i ≠ t → getEnv (ipc_complete s1 t value perm ret).2 i = getEnv s i)
    ∧ (ipc_complete s1 t value perm ret).2.envs.length = s.envs.length := by
  have hl : t < s1.envs.length := by simp [he, ht]
  have h1 : getEnv s1 t = { getEnv s t with env_pgdir := pd } := by
    simp only [getEnv, he]
    exact envAt_set_eq _ _ _ ht
  have h2 : (curEnv s1).env_id = (curEnv s).env_id := by
    simp only [curEnv, getEnv, he, hc]
    by_cases hct : s.curenv = t
    · rw [hct, envAt_set_eq _ _ _ ht]
    · rw [envAt_set_ne _ _ _ _ hct]
  refine ⟨?_, ?_, ?_⟩
  · unfold ipc_complete
    simp only []
    rw [getEnv_setEnv_eq _ _ _ hl, h1, h2]
  · intro i hi
    unfold ipc_complete
    simp only []
    rw [getEnv_setEnv_ne _ _ _ _ hi]
    simp only [getEnv, he]
    exact envAt_set_ne _ _ _ _ hi
  · unfold ipc_complete
    simp [setEnv, he]

theorem recving_in_range (s : State) (t : Nat) (h : (getEnv s t).env_ipc_recving ≠ 0) :
    t < s.envs.length := by
  by_contra hc
  apply h
  rw [getEnv, envAt_of_length_le _ _ (by omega)]
  rfl

/-- Every successful `sys_ipc_try_send` ends in `ipc_complete`, applied to a state that differs
from the initial one at most in the target's page directory. -/
theorem sys_ipc_try_send_ok (s : State) (envid value srcva perm : Nat)
    (hok : 0 ≤ (sys_ipc_try_send s envid value srcva perm).1) :
    ∃ t s1 pd, envid2env s envid false = some t ∧ t < s.envs.length
      ∧ (getEnv s t).env_ipc_recving ≠ 0
      ∧ s1.envs = s.envs.set t { getEnv s t with env_pgdir := pd }
      ∧ s1.curenv = s.curenv
      ∧ (∀ k, k ≠ PGNUM srcva → fmGet pd.ptes k = fmGet (getEnv s t).env_pgdir.ptes k)
      ∧ (srcva = 0 → pd = (getEnv s t).env_pgdir)
      ∧ sys_ipc_try_send s envid value srcva perm
          = ipc_complete s1 t value perm (if srcva = 0 then 0 else 1) := by
  rcases sys_ipc_try_send_cases s envid value srcva perm _ rfl with h | h | h
  · obtain ⟨_, h⟩ := h
    rcases h with h | ⟨t, _, _, h⟩ | ⟨t, _, _, _, h⟩
    · rw [h.1] at hok
      simp [E_BAD_ENV] at hok
    · rw [h] at hok
      simp [E_IPC_NOT_RECV] at hok
    · rw [h] at hok
      simp [E_INVAL] at hok
  · obtain ⟨t, h1, h2, h3, h4⟩ := h
    refine ⟨t, s, (getEnv s t).env_pgdir, h1, recving_in_range s t h2, h2, ?_, rfl,
      fun _ _ => rfl, fun _ => rfl, ?_⟩
    · exact (set_envAt s.envs t).symm
    · rw [h4, if_pos h3]
  · obtain ⟨t, pte, h1, h2, h3, _, _, _, _, h4⟩ := h
    rcases h4 with ⟨_, h4⟩ | ⟨_, h5, h4⟩ | ⟨_, h5, h4⟩
    · refine ⟨t, s, (getEnv s t).env_pgdir, h1, recving_in_range s t h2, h2, ?_, rfl,
        fun _ _ => rfl, fun _ => rfl, ?_⟩
      · exact (set_envAt s.envs t).symm
      · rw [h4, if_neg h3]
    · rw [h4] at hok
      simp [E_NO_MEM] at hok
    · obtain ⟨pd, e1, e2, _, _, _, _, e7⟩ := page_insert_spec s t pte.frame srcva perm
      refine ⟨t, (page_insert s t pte.frame srcva perm).2, pd, h1, recving_in_range s t h2, h2,
        e1, e2, e7, fun h0 => absurd h0 h3, ?_⟩
      rw [h4, if_neg h3]

theorem envid2env_of_not_mayChange (s : State) (envid : Nat) (h : mayChange s envid = false) :
    envid2env s envid true = none := by
  unfold mayChange at h
  unfold envid2env
  by_cases h0 : envid = 0
  · simp [h0] at h
  · simp only [h0, if_false]
    cases hg : s.envs.get? (ENVX envid) with
    | none => rfl
    | some e =>
      rw [hg] at h
      simp only [] 
      simp [h0] at h
      split
      · rfl
      · rename_i h1
        simp only [not_or, not_not] at h1
        have h2 := h (by simpa [bne_iff_ne] using h1.1) h1.2
        rw [if_pos]
        refine ⟨trivial, ?_, ?_⟩
        · exact h2.1
        · exact h2.2

theorem envid2env_of_envExists (s : State) (envid : Nat) (h0 : envid ≠ 0)
    (h : envExists s envid = true) : envid2env s envid false = some (ENVX envid) := by
  unfold envExists at h
  unfold envid2env
  simp only [h0, if_false]
  cases hg : s.envs.get? (ENVX envid) with
  | none =>
    rw [hg] at h
    cases h
  | some e =>
    rw [hg] at h
    simp at h
    simp [h.1, h.2]

/-! ## Lemmas: what a handler may change -/

theorem mkenvid_ne (old idx : Nat) : mkenvid old idx ≠ old := by
  unfold mkenvid ENVX NENV
  simp only []
  split <;> omega

theorem mkenvid_lt (old idx : Nat) : mkenvid old idx < 2 ^ 31 := by
  unfold mkenvid ENVX NENV
  simp only []
  split <;> omega

theorem toInt32_nonneg_of_lt (x : Nat) (h : x < 2 ^ 31) : 0 ≤ toInt32 x := by
  unfold toInt32
  have : x % 2 ^ 32 = x := Nat.mod_eq_of_lt (by omega)
  rw [this, if_pos h]
  exact Int.ofNat_nonneg x

theorem getEnv_of_set (s t : State) (i : Nat) (e : Env) (h : t.envs = s.envs.set i e) (j : Nat) :
    getEnv t j = getEnv s j ∨ (j = i ∧ i < s.envs.length ∧ getEnv t j = e) := by
  by_cases hj : j = i
  · subst hj
    by_cases hl : j < s.envs.length
    · right
      refine ⟨rfl, hl, ?_⟩
      simp only [getEnv, h]
      exact envAt_set_eq _ _ _ hl
    · left
      simp only [getEnv, h]
      rw [List.set_eq_of_length_le (by omega)]
  · left
    simp only [getEnv, h]
    exact envAt_set_ne _ _ _ _ hj

theorem pgnum_ne_of_utop (va va1 : Nat) (h : ¬ (va ≥ UTOP ∨ va ≠ ROUNDDOWN va PGSIZE))
    (h1 : UTOP ≤ va1) : PGNUM va1 ≠ PGNUM va := by
  unfold PGNUM PGSIZE UTOP at *
  omega

theorem vaAccepted_iff (va : Nat) :
    ¬ (va ≥ UTOP ∨ va ≠ ROUNDDOWN va PGSIZE) ↔ (va < UTOP ∧ va % PGSIZE = 0) := by
  unfold ROUNDDOWN PGSIZE UTOP
  omega

theorem utopRespected_of_eq (s t : State) (he : t.envs = s.envs) (hm : t.mm_ops = s.mm_ops) :
    UtopRespected s t := by
  refine ⟨⟨[], by simp [hm], by simp⟩, ?_⟩
  intro i va _ _
  rw [getEnv_congr s t i he]

/-- One slot is overwritten and at most one validated memory-manager call is issued. -/
theorem utopRespected_of_set (s t : State) (i : Nat) (e : Env) (ops : List MMOp)
    (he : t.envs = s.envs.set i e) (hm : t.mm_ops = s.mm_ops ++ ops)
    (hops : ∀ op ∈ ops, op.va < UTOP ∧ op.va % PGSIZE = 0)
    (hk : e.env_id = (getEnv s i).env_id → ∀ va, UTOP ≤ va →
        page_lookup e.env_pgdir va = page_lookup (getEnv s i).env_pgdir va) :
    UtopRespected s t := by
  refine ⟨⟨ops, hm, hops⟩, ?_⟩
  intro j va hva hid
  rcases getEnv_of_set s t i e he j with h | ⟨h1, _, h3⟩
  · rw [h]
  · subst h1
    rw [h3] at hid ⊢
    exact hk hid va hva

theorem page_insert_respects (s s1 t : State) (i f va perm : Nat)
    (hva : ¬ (va ≥ UTOP ∨ va ≠ ROUNDDOWN va PGSIZE))
    (he : s1.envs = s.envs) (hm : s1.mm_ops = s.mm_ops)
    (hte : t.envs = (page_insert s1 i f va perm).2.envs)
    (htm : t.mm_ops = (page_insert s1 i f va perm).2.mm_ops) :
    UtopRespected s t ∧ ((page_insert s1 i f va perm).1 < 0 → t.envs = s.envs) := by
  obtain ⟨pd, e1, _, e3, _, _, e6, e7⟩ := page_insert_spec s1 i f va perm
  have hg : getEnv s1 i = getEnv s i := getEnv_congr _ _ _ he
  rw [hg, he] at e1
  rw [hg] at e6 e7
  constructor
  · apply utopRespected_of_set s t i _ [⟨true, i, va⟩] (hte.trans e1)
    · rw [htm, e3, hm]
    · intro op hop
      simp only [List.mem_singleton] at hop
      subst hop
      exact (vaAccepted_iff va).1 hva
    · intro _ va1 hva1
      exact e7 _ (pgnum_ne_of_utop va va1 hva hva1)
  · intro hneg
    have hne : (page_insert s1 i f va perm).1 ≠ 0 := by omega
    rw [hte, e1, e6 hne]
    exact set_envAt s.envs i

theorem sys_page_alloc_summary (s : State) (envid va perm : Nat) :
    UtopRespected s (sys_page_alloc s envid va perm).2
    ∧ ((sys_page_alloc s envid va perm).1 < 0 → (sys_page_alloc s envid va perm).2.envs = s.envs) := by
  unfold sys_page_alloc
  cases h1 : envid2env s envid true with
  | none => exact ⟨utopRespected_of_eq s s rfl rfl, fun _ => rfl⟩
  | some t =>
    dsimp only
    cases h2 : page_alloc s with
    | none => exact ⟨utopRespected_of_eq s s rfl rfl, fun _ => rfl⟩
    | some r =>
      obtain ⟨page, s1⟩ := r
      obtain ⟨a1, _, a3⟩ := page_alloc_frame s s1 page h2
      dsimp only
      split
      · exact ⟨utopRespected_of_eq s s1 a1 a3, fun _ => a1⟩
      · rename_i hva
        split
        · exact ⟨utopRespected_of_eq s s1 a1 a3, fun _ => a1⟩
        · split
          · exact ⟨utopRespected_of_eq s s1 a1 a3, fun _ => a1⟩
          · split
            · rename_i hneg
              have := page_insert_respects s (memset_page_zero s1 page)
                (page_free (page_insert (memset_page_zero s1 page) t page va perm).2 page)
                t page va perm hva a1 a3 rfl rfl
              exact ⟨this.1, fun _ => this.2 hneg⟩
            · have := page_insert_respects s (memset_page_zero s1 page)
                (page_insert (memset_page_zero s1 page) t page va perm).2
                t page va perm hva a1 a3 rfl rfl
              refine ⟨this.1, fun h => ?_⟩
              simp at h

theorem sys_page_map_summary (s : State) (srcenvid srcva dstenvid dstva perm : Nat) :
    UtopRespected s (sys_page_map s srcenvid srcva dstenvid dstva perm).2
    ∧ ((sys_page_map s srcenvid srcva dstenvid dstva perm).1 < 0 →
        (sys_page_map s srcenvid srcva dstenvid dstva perm).2.envs = s.envs) := by
  rcases sys_page_map_cases s srcenvid srcva dstenvid dstva perm with h | h
  · rw [h.1]
    exact ⟨utopRespected_of_eq s s rfl rfl, fun _ => rfl⟩
  · obtain ⟨src, dst, pte, _, _, _, hva, _, _, _, e1, e2⟩ := h
    have := page_insert_respects s s (page_insert s dst pte.frame dstva perm).2
      dst pte.frame dstva perm hva rfl rfl rfl rfl
    rw [e1, e2]
    exact this

theorem sys_page_unmap_summary (s : State) (envid va : Nat) :
    UtopRespected s (sys_page_unmap s envid va).2
    ∧ ((sys_page_unmap s envid va).1 < 0 → (sys_page_unmap s envid va).2.envs = s.envs) := by
  unfold sys_page_unmap
  cases h1 : envid2env s envid true with
  | none => exact ⟨utopRespected_of_eq s s rfl rfl, fun _ => rfl⟩
  | some t =>
    dsimp only
    split
    · exact ⟨utopRespected_of_eq s s rfl rfl, fun _ => rfl⟩
    · rename_i hva
      obtain ⟨pd, e1, _, e3, _, e5⟩ := page_remove_spec s t va
      refine ⟨?_, fun h => ?_⟩
      · apply utopRespected_of_set s _ t _ [⟨false, t, va⟩] e1 e3
        · intro op hop
          simp only [List.mem_singleton] at hop
          subst hop
          exact (vaAccepted_iff va).1 hva
        · intro _ va1 hva1
          exact e5 _ (pgnum_ne_of_utop va va1 hva hva1)
      · simp at h

theorem sys_ipc_try_send_summary (s : State) (envid value srcva perm : Nat) :
    UtopRespected s (sys_ipc_try_send s envid value srcva perm).2
    ∧ ((sys_ipc_try_send s envid value srcva perm).1 < 0 →
        (sys_ipc_try_send s envid value srcva perm).2.envs = s.envs) := by
  have hcomplete : ∀ t ret, UtopRespected s (ipc_complete s t value perm ret).2 := by
    intro t ret
    apply utopRespected_of_set s _ t _ [] (ipc_complete_envs s t value perm ret)
    · simp [ipc_complete, setEnv]
    · simp
    · intro _ va _
      rfl
  rcases sys_ipc_try_send_cases s envid value srcva perm _ rfl with h | h | h
  · rw [h.1]
    exact ⟨utopRespected_of_eq s s rfl rfl, fun _ => rfl⟩
  · obtain ⟨t, _, _, _, h⟩ := h
    rw [h]
    refine ⟨hcomplete t 0, fun h => ?_⟩
    simp [ipc_complete] at h
  · obtain ⟨t, pte, _, hrecv, _, hva, _, _, _, h⟩ := h
    rcases h with ⟨_, h⟩ | ⟨_, h5, h⟩ | ⟨_, h5, h⟩
    · rw [h]
      refine ⟨hcomplete t 1, fun h => ?_⟩
      simp [ipc_complete] at h
    · rw [h]
      have := page_insert_respects s s (page_insert s t pte.frame srcva perm).2
        t pte.frame srcva perm hva rfl rfl rfl rfl
      refine ⟨this.1, fun _ => this.2 ?_⟩
      rw [h5]
      simp [E_NO_MEM]
    · rw [h]
      refine ⟨?_, fun h => ?_⟩
      · obtain ⟨pd, e1, e2, e3, _, _, _, e7⟩ := page_insert_spec s t pte.frame srcva perm
        have e8 := ipc_complete_envs (page_insert s t pte.frame srcva perm).2 t value perm 1
        have hl : t < s.envs.length := recving_in_range s t hrecv
        have hg : getEnv (page_insert s t pte.frame srcva perm).2 t
            = { getEnv s t with env_pgdir := pd } := by
          simp only [getEnv, e1]
          exact envAt_set_eq _ _ _ hl
        rw [hg, e1, List.set_set] at e8
        apply utopRespected_of_set s _ t _ [⟨true, t, srcva⟩] e8
        · rw [(ipc_complete_frame _ t value perm 1).2, e3]
        · intro op hop
          simp only [List.mem_singleton] at hop
          subst hop
          exact (vaAccepted_iff srcva).1 hva
        · intro _ va1 hva1
          exact e7 _ (pgnum_ne_of_utop srcva va1 hva hva1)
      · simp [ipc_complete] at h

theorem foldl_page_decref_frame {α : Type} (g : α → Nat) (l : List α) (s : State) :
    (l.foldl (fun st kv => page_decref st (g kv)) s).envs = s.envs
    ∧ (l.foldl (fun st kv => page_decref st (g kv)) s).mm_ops = s.mm_ops := by
  induction l generalizing s with
  | nil => exact ⟨rfl, rfl⟩
  | cons a l ih =>
    simp only [List.foldl_cons]
    obtain ⟨h1, h2⟩ := ih (page_decref s (g a))
    exact ⟨h1.trans (page_decref_envs _ _), h2.trans (page_decref_mm_ops _ _)⟩

theorem env_free_spec (s : State) (i : Nat) :
    (env_free s i).envs = s.envs.set i
        { getEnv s i with env_pgdir := ⟨[], []⟩
                          env_status := ENV_FREE
                          env_id := mkenvid (getEnv s i).env_id i }
    ∧ (env_free s i).mm_ops = s.mm_ops := by
  unfold env_free
  simp only [setEnv]
  obtain ⟨h1, h2⟩ := foldl_page_decref_frame (fun kv : Nat × Nat => kv.2)
    (getEnv s i).env_pgdir.tables
    ((getEnv s i).env_pgdir.ptes.foldl (fun st kv => page_decref st kv.2.frame) s)
  obtain ⟨h3, h4⟩ := foldl_page_decref_frame (fun kv : Nat × Pte => kv.2.frame)
    (getEnv s i).env_pgdir.ptes s
  exact ⟨by rw [h1, h3], by rw [h2, h4]⟩

theorem env_free_respects (s : State) (i : Nat) : UtopRespected s (env_free s i) := by
  obtain ⟨h1, h2⟩ := env_free_spec s i
  apply utopRespected_of_set s _ i _ [] h1
  · simp [h2]
  · simp
  · intro hid
    exact absurd hid (mkenvid_ne _ _)

theorem env_destroy_summary (s : State) (i : Nat) :
    UtopRespected s (env_destroy s i).state
    ∧ (∀ v t, env_destroy s i = .ret v t → v = 0) := by
  unfold env_destroy
  split
  · exact ⟨env_free_respects s i, fun v t h => by cases h⟩
  · refine ⟨env_free_respects s i, fun v t h => ?_⟩
    cases h
    rfl

theorem sys_env_destroy_summary (s : State) (envid : Nat) :
    UtopRespected s (sys_env_destroy s envid).state
    ∧ (∀ v t, sys_env_destroy s envid = .ret v t → v < 0 → t.envs = s.envs) := by
  unfold sys_env_destroy
  cases h1 : envid2env s envid true with
  | none =>
    refine ⟨utopRespected_of_eq s s rfl rfl, fun v t h _ => ?_⟩
    cases h
    rfl
  | some e =>
    dsimp only
    obtain ⟨g1, _⟩ := env_destroy_summary s e
    cases h2 : env_destroy s e with
    | ret v1 s1 =>
      rw [h2] at g1
      refine ⟨g1, fun v t h hv => ?_⟩
      cases h
      simp at hv
    | noreturn s1 =>
      rw [h2] at g1
      exact ⟨g1, fun v t h _ => by cases h⟩
    | panic s1 =>
      rw [h2] at g1
      exact ⟨g1, fun v t h _ => by cases h⟩

theorem sys_cputs_summary (s : State) (sva len : Nat) :
    UtopRespected s (sys_cputs s sva len).state
    ∧ (∀ v t, sys_cputs s sva len = .ret v t → v = 0) := by
  unfold sys_cputs
  split
  · refine ⟨utopRespected_of_eq s _ rfl rfl, fun v t h => ?_⟩
    cases h
    rfl
  · exact env_destroy_summary s s.curenv

theorem sys_cgetc_summary (s : State) :
    UtopRespected s (sys_cgetc s).state
    ∧ (∀ v t, sys_cgetc s = .ret v t → t.envs = s.envs) := by
  unfold sys_cgetc
  split
  · refine ⟨utopRespected_of_eq s _ rfl rfl, fun v t h => ?_⟩
    cases h
    rfl
  · exact ⟨utopRespected_of_eq s _ rfl rfl, fun v t h => by cases h⟩

theorem env_alloc_spec (s s1 : State) (parent c : Nat) (h : env_alloc s parent = some (c, s1)) :
    ∃ child : Env, s1.envs = s.envs.set c child ∧ s1.mm_ops = s.mm_ops
      ∧ s1.curenv = s.curenv
      ∧ child.env_id = mkenvid (getEnv s c).env_id c
      ∧ child.env_parent_id = parent := by
  unfold env_alloc at h
  split at h
  · cases h
  · simp only [Option.some.injEq, Prod.mk.injEq] at h
    obtain ⟨h1, h2⟩ := h
    subst h1 h2
    exact ⟨_, rfl, rfl, rfl, rfl, rfl⟩

theorem sys_exofork_summary (s : State) :
    UtopRespected s (sys_exofork s).2
    ∧ ((sys_exofork s).1 < 0 → (sys_exofork s).2.envs = s.envs) := by
  unfold sys_exofork
  cases ha : env_alloc s (curEnv s).env_id with
  | none => exact ⟨utopRespected_of_eq s s rfl rfl, fun _ => rfl⟩
  | some r =>
    obtain ⟨c, s1⟩ := r
    obtain ⟨child, e1, e2, _, e4, _⟩ := env_alloc_spec s s1 _ c ha
    dsimp only
    by_cases hl : c < s.envs.length
    · have hg : getEnv s1 c = child := by
        simp only [getEnv, e1]
        exact envAt_set_eq _ _ _ hl
      rw [hg]
      constructor
      · have he : ∀ e : Env, (setEnv s1 c e).envs = s.envs.set c e := by
          intro e
          simp only [setEnv, e1, List.set_set]
        apply utopRespected_of_set s _ c _ [] (he _)
        · simp [setEnv, e2]
        · simp
        · intro hid
          dsimp only at hid
          rw [e4] at hid
          exact absurd hid (mkenvid_ne _ _)
      · intro hneg
        rw [e4] at hneg
        have := toInt32_nonneg_of_lt _ (mkenvid_lt (getEnv s c).env_id c)
        omega
    · have hs : ∀ e, s.envs.set c e = s.envs := fun e => List.set_eq_of_length_le (by omega)
      have he : ∀ e : Env, (setEnv s1 c e).envs = s.envs := by
        intro e
        simp only [setEnv, e1, List.set_set, hs]
      constructor
      · apply utopRespected_of_eq _ _ (he _)
        simp [setEnv, e2]
      · intro _
        exact he _

theorem sys_env_set_status_summary (s : State) (envid status : Nat) :
    UtopRespected s (sys_env_set_status s envid status).2
    ∧ ((sys_env_set_status s envid status).1 < 0 →
        (sys_env_set_status s envid status).2.envs = s.envs) := by
  unfold sys_env_set_status
  cases h1 : envid2env s envid true with
  | none => exact ⟨utopRespected_of_eq s s rfl rfl, fun _ => rfl⟩
  | some t =>
    dsimp only
    split
    · exact ⟨utopRespected_of_eq s s rfl rfl, fun _ => rfl⟩
    · refine ⟨?_, fun h => ?_⟩
      · apply utopRespected_of_set s _ t _ [] rfl
        · simp [setEnv]
        · simp
        · intro _ va _
          rfl
      · simp at h

theorem sys_env_set_pgfault_upcall_summary (s : State) (envid func : Nat) :
    UtopRespected s (sys_env_set_pgfault_upcall s envid func).2
    ∧ ((sys_env_set_pgfault_upcall s envid func).1 < 0 →
        (sys_env_set_pgfault_upcall s envid func).2.envs = s.envs) := by
  unfold sys_env_set_pgfault_upcall
  cases h1 : envid2env s envid true with
  | none => exact ⟨utopRespected_of_eq s s rfl rfl, fun _ => rfl⟩
  | some t =>
    dsimp only
    refine ⟨?_, fun h => ?_⟩
    · apply utopRespected_of_set s _ t _ [] rfl
      · simp [setEnv]
      · simp
      · intro _ va _
        rfl
    · simp at h

theorem sys_ipc_recv_summary (s : State) (dstva : Nat) :
    UtopRespected s (sys_ipc_recv s dstva).state
    ∧ (∀ v t, sys_ipc_recv s dstva = .ret v t → t.envs = s.envs) := by
  unfold sys_ipc_recv
  split
  · refine ⟨utopRespected_of_eq s s rfl rfl, fun v t h => ?_⟩
    cases h
    rfl
  · refine ⟨?_, fun v t h => by cases h⟩
    apply utopRespected_of_set s _ s.curenv _ [] rfl
    · simp [sched_yield, Outcome.state, setEnv]
    · simp
    · intro _ va _
      rfl

/-! ## Lemmas: resolution, frames and memory contents -/

theorem envid2env_lt (s : State) (envid t : Nat) (cp : Bool) (hcur : s.curenv < s.envs.length)
    (h : envid2env s envid cp = some t) : t < s.envs.length := by
  unfold envid2env at h
  by_cases h0 : envid = 0
  · simp only [h0, if_true, Option.some.injEq] at h
    omega
  · simp only [h0, if_false] at h
    cases hg : s.envs.get? (ENVX envid) with
    | none =>
      rw [hg] at h
      cases h
    | some e =>
      rw [hg] at h
      dsimp only at h
      split at h
      · cases h
      · split at h
        · cases h
        · simp only [Option.some.injEq] at h
          subst h
          have := List.get?_eq_some.1 hg
          exact this.1

theorem validPerm_accepted (perm : Nat) (h : validPerm perm) :
    ¬ (perm &&& PTE_U = 0 ∨ perm &&& PTE_P = 0) ∧ ¬ (permOtherBits perm ≠ 0) := by
  obtain ⟨h1, h2, h3⟩ := h
  refine ⟨fun h => h.elim h1 h2, ?_⟩
  unfold permOtherBits
  rw [← Nat.and_assoc, h3]
  simp

theorem page_decref_mem (s : State) (f : Nat) : (page_decref s f).mem = s.mem := by
  unfold page_decref page_free
  simp only []
  split <;> rfl

theorem unref_mapped_mem (s : State) (pd : PageDir) (va : Nat) :
    (unref_mapped s pd va).mem = s.mem := by
  unfold unref_mapped
  split
  · exact page_decref_mem _ _
  · rfl

theorem page_alloc_mem (s s1 : State) (f : Nat) (h : page_alloc s = some (f, s1)) :
    s1.mem = s.mem ∧ f :: s1.page_free_list = s.page_free_list := by
  unfold page_alloc at h
  split at h
  · cases h
  · rename_i f1 rest hf
    simp only [Option.some.injEq, Prod.mk.injEq] at h
    obtain ⟨h1, h2⟩ := h
    subst h1 h2
    exact ⟨rfl, hf.symm⟩

theorem pgdir_walk_mem (s s1 : State) (pd pd1 : PageDir) (va : Nat)
    (h : pgdir_walk s pd va = some (s1, pd1)) : s1.mem = s.mem := by
  unfold pgdir_walk at h
  split at h
  · simp only [Option.some.injEq, Prod.mk.injEq] at h
    rw [← h.1]
  · split at h
    · cases h
    · rename_i t s2 ha
      simp only [Option.some.injEq, Prod.mk.injEq] at h
      rw [← h.1]
      exact (page_alloc_mem _ _ _ ha).1

theorem page_insert_mem (s : State) (i f va perm : Nat) :
    (page_insert s i f va perm).2.mem = s.mem := by
  unfold page_insert
  dsimp only
  cases hw : pgdir_walk { s with mm_ops := s.mm_ops ++ [⟨true, i, va⟩] }
      (getEnv { s with mm_ops := s.mm_ops ++ [⟨true, i, va⟩] } i).env_pgdir va with
  | none => rfl
  | some r =>
    obtain ⟨s1, pd1⟩ := r
    have h1 := pgdir_walk_mem _ _ _ _ _ hw
    simp only [setEnv, unref_mapped_mem]
    exact h1

/-- `page_insert` succeeds when the page table exists already or a frame is free for it. -/
theorem page_insert_ok (s : State) (i f va perm : Nat)
    (h : (fmGet (getEnv s i).env_pgdir.tables (PDX va)).isSome = true ∨ s.page_free_list ≠ []) :
    (page_insert s i f va perm).1 = 0 := by
  have hw : ∃ r, pgdir_walk { s with mm_ops := s.mm_ops ++ [⟨true, i, va⟩] }
      (getEnv s i).env_pgdir va = some r := by
    unfold pgdir_walk
    cases ht : fmGet (getEnv s i).env_pgdir.tables (PDX va) with
    | some t => exact ⟨_, rfl⟩
    | none =>
      rw [ht] at h
      simp only [Option.isSome_none, Bool.false_eq_true, false_or] at h
      unfold page_alloc
      dsimp only
      cases hf : s.page_free_list with
      | nil => exact absurd hf h
      | cons a l => exact ⟨_, rfl⟩
  obtain ⟨r, hw⟩ := hw
  unfold page_insert
  dsimp only
  rw [show getEnv { s with mm_ops := s.mm_ops ++ [⟨true, i, va⟩] } i = getEnv s i from rfl, hw]

theorem fmGet_filter_none {α : Type} (m : List (Nat × α)) (p : Nat × α → Bool) (k : Nat)
    (h : ∀ v, p (k, v) = false) : fmGet (m.filter p) k = none := by
  induction m with
  | nil => rfl
  | cons kv m ih =>
    obtain ⟨a, v⟩ := kv
    by_cases hp : p (a, v) = true
    · rw [List.filter_cons_of_pos hp]
      have hak : a ≠ k := by
        intro hak
        subst hak
        rw [h v] at hp
        cases hp
      simp only [fmGet, hak, if_false]
      exact ih
    · rw [List.filter_cons_of_neg hp]
      exact ih

theorem memset_page_zero_reads (s : State) (frame off : Nat) (h : off < PGSIZE) :
    physByte (memset_page_zero s frame) (frame * PGSIZE + off) = 0 := by
  unfold physByte memset_page_zero
  dsimp only
  rw [fmGet_filter_none]
  · rfl
  · intro v
    have : (frame * PGSIZE + off) / PGSIZE = frame := by
      unfold PGSIZE at *
      omega
    simp [this]

/-- The successful path of `sys_page_alloc`: the first free frame is zeroed and inserted. -/
theorem sys_page_alloc_ok (s : State) (envid va perm task page : Nat) (rest : List Nat)
    (htask : envid2env s envid true = some task)
    (hva : va < UTOP) (hal : va % PGSIZE = 0) (hperm : validPerm perm)
    (hfree : s.page_free_list = page :: rest)
    (hins : (fmGet (getEnv s task).env_pgdir.tables (PDX va)).isSome = true ∨ rest ≠ []) :
    ∃ s2 : State, s2.envs = s.envs ∧ s2.mm_ops = s.mm_ops
      ∧ (∀ off, off < PGSIZE → physByte s2 (page * PGSIZE + off) = 0)
      ∧ (page_insert s2 task page va perm).1 = 0
      ∧ sys_page_alloc s envid va perm = (0, (page_insert s2 task page va perm).2) := by
  have hpa : page_alloc s
      = some (page, { s with page_free_list := rest, pp_ref := fmSet s.pp_ref page 0 }) := by
    unfold page_alloc
    rw [hfree]
  have hv : ¬ (va ≥ UTOP ∨ va ≠ ROUNDDOWN va PGSIZE) := (vaAccepted_iff va).2 ⟨hva, hal⟩
  obtain ⟨hp1, hp2⟩ := validPerm_accepted perm hperm
  have hok : (page_insert
      (memset_page_zero { s with page_free_list := rest, pp_ref := fmSet s.pp_ref page 0 } page)
      task page va perm).1 = 0 := by
    apply page_insert_ok
    rcases hins with h | h
    · left
      exact h
    · right
      exact h
  refine ⟨memset_page_zero { s with page_free_list := rest, pp_ref := fmSet s.pp_ref page 0 }
    page, rfl, rfl, fun off ho => memset_page_zero_reads _ page off ho, hok, ?_⟩
  unfold sys_page_alloc
  rw [htask]
  dsimp only
  rw [hpa]
  dsimp only
  rw [if_neg hv, if_neg hp1, if_neg hp2, if_neg (by omega)]

theorem toInt32_of_lt (x : Nat) (h : x < 2 ^ 31) : toInt32 x = (x : Int) := by
  unfold toInt32
  have : x % 2 ^ 32 = x := Nat.mod_eq_of_lt (by omega)
  rw [this, if_pos h]

theorem ENVX_mkenvid (old idx : Nat) (h : idx < NENV) : ENVX (mkenvid old idx) = idx := by
  unfold mkenvid ENVX NENV at *
  simp only []
  split <;> omega

theorem mkenvid_pos (old idx : Nat) : 0 < mkenvid old idx := by
  unfold mkenvid ENVX NENV
  simp only []
  split <;> omega

theorem getEnv_eq_of_set (s t : State) (i : Nat) (e : Env) (h : t.envs = s.envs.set i e)
    (hi : i < s.envs.length) : getEnv t i = e := by
  simp only [getEnv, h]
  exact envAt_set_eq _ _ _ hi

theorem getEnv_ne_of_set (s t : State) (i j : Nat) (e : Env) (h : t.envs = s.envs.set i e)
    (hj : j ≠ i) : getEnv t j = getEnv s j := by
  simp only [getEnv, h]
  exact envAt_set_ne _ _ _ _ hj

/-- The state `sys_exofork` produces when `env_alloc` hands out slot `c`. -/
theorem sys_exofork_ok (s : State) (c : Nat) (rest : List Nat)
    (hfree : s.env_free_list = c :: rest) (hc : c < s.envs.length) (hne : c ≠ s.curenv) :
    (sys_exofork s).1 = toInt32 (mkenvid (getEnv s c).env_id c)
    ∧ (sys_exofork s).2.envs = s.envs.set c
        { env_tf := { (curEnv s).env_tf with
                        tf_regs := { (curEnv s).env_tf.tf_regs with reg_eax := 0 } }
          env_id := mkenvid (getEnv s c).env_id c
          env_parent_id := (curEnv s).env_id
          env_status := ENV_NOT_RUNNABLE
          env_pgdir := ⟨[], []⟩
          env_pgfault_upcall := (curEnv s).env_pgfault_upcall
          env_ipc_recving := 0
          env_ipc_dstva := 0
          env_ipc_value := 0
          env_ipc_from := 0
          env_ipc_perm := 0 }
    ∧ (sys_exofork s).2.curenv = s.curenv := by
  have hcur : ∀ e : Env, envAt (s.envs.set c e) s.curenv = envAt s.envs s.curenv :=
    fun e => envAt_set_ne _ _ _ _ (fun h => hne h.symm)
  have hch : ∀ e : Env, envAt (s.envs.set c e) c = e := fun e => envAt_set_eq _ _ _ hc
  unfold sys_exofork env_alloc
  rw [hfree]
  dsimp only
  simp only [curEnv, getEnv, setEnv, hcur, hch, List.set_set]
  exact ⟨trivial, trivial, trivial⟩

/-! ## Lemmas: the page-fault upcall -/

theorem writeByte_frame (s : State) (e : Env) (va b : Nat) :
    (writeByte s e va b).envs = s.envs ∧ (writeByte s e va b).curenv = s.curenv
      ∧ (writeByte s e va b).mm_ops = s.mm_ops := by
  unfold writeByte
  split <;> exact ⟨rfl, rfl, rfl⟩

theorem copyout_frame (e : Env) (bs : List Nat) (s : State) (va : Nat) :
    (copyout s e va bs).envs = s.envs ∧ (copyout s e va bs).curenv = s.curenv
      ∧ (copyout s e va bs).mm_ops = s.mm_ops := by
  induction bs generalizing s va with
  | nil => exact ⟨rfl, rfl, rfl⟩
  | cons b bs ih =>
    obtain ⟨h1, h2, h3⟩ := ih (writeByte s e va b) (va + 1)
    obtain ⟨g1, g2, g3⟩ := writeByte_frame s e va b
    exact ⟨h1.trans g1, h2.trans g2, h3.trans g3⟩

theorem copyout_mem_congr (e : Env) (bs : List Nat) (s t : State) (va : Nat)
    (h : s.mem = t.mem) : (copyout s e va bs).mem = (copyout t e va bs).mem := by
  induction bs generalizing s t va with
  | nil => exact h
  | cons b bs ih =>
    apply ih
    unfold writeByte
    split
    · simp only [h]
    · exact h

theorem utf_place_eq (esp : Nat) (h : esp < 2 ^ 32) : utf_place esp = fault_record_addr esp := by
  unfold utf_place fault_record_addr sub32 sizeof_UTrapframe UXSTACKTOP UTOP PGSIZE
  split
  · omega
  · omega

/-- The delivery path of `page_fault_handler` for a trap from user mode. -/
theorem page_fault_handler_deliver (s : State) (fault_va : Nat)
    (huser : (curEnv s).env_tf.tf_cs &&& 3 ≠ 0)
    (hup : (curEnv s).env_pgfault_upcall ≠ 0)
    (hstk : user_mem_check (curEnv s) (UXSTACKTOP - 4) 4 (PTE_P ||| PTE_W ||| PTE_U) = true)
    (hcode : user_mem_check (curEnv s) (curEnv s).env_pgfault_upcall 4 (PTE_P ||| PTE_U) = true)
    (hfit : ¬ utf_place (curEnv s).env_tf.tf_esp < UXSTACKTOP - PGSIZE) :
    page_fault_handler s .env_tf fault_va
      = .env_run (tfStore
          (copyout
            (tfStore s .env_tf
              { (curEnv s).env_tf with tf_esp := utf_place (curEnv s).env_tf.tf_esp })
            (curEnv s) (utf_place (curEnv s).env_tf.tf_esp)
            (utf_bytes
              { utf_fault_va := fault_va
                utf_err := (curEnv s).env_tf.tf_err
                utf_regs := (curEnv s).env_tf.tf_regs
                utf_eip := (curEnv s).env_tf.tf_eip
                utf_eflags := (curEnv s).env_tf.tf_eflags
                utf_esp := (curEnv s).env_tf.tf_esp }))
          .env_tf
          { (curEnv s).env_tf with
              tf_esp := utf_place (curEnv s).env_tf.tf_esp
              tf_eip := (curEnv s).env_pgfault_upcall }) := by
  have h1 : ¬ (user_mem_check (curEnv s) (UXSTACKTOP - 4) 4 (PTE_P ||| PTE_W ||| PTE_U) = false) := by
    rw [hstk]
    simp
  have h2 : ¬ (user_mem_check (curEnv s) (curEnv s).env_pgfault_upcall 4 (PTE_P ||| PTE_U)
      = false) := by
    rw [hcode]
    simp
  unfold page_fault_handler
  simp only [tfRead]
  rw [if_neg huser, if_neg hup, if_neg h1, if_neg h2, if_neg hfit]

theorem tfStore_env_tf (s : State) (tf : Trapframe) (hcur : s.curenv < s.envs.length) :
    curEnv (tfStore s .env_tf tf) = { curEnv s with env_tf := tf }
    ∧ (tfStore s .env_tf tf).mem = s.mem
    ∧ (tfStore s .env_tf tf).curenv = s.curenv
    ∧ (tfStore s .env_tf tf).envs.length = s.envs.length := by
  unfold tfStore
  refine ⟨?_, rfl, rfl, ?_⟩
  · unfold curEnv
    rw [show (setEnv s s.curenv _).curenv = s.curenv from rfl]
    exact getEnv_setEnv_eq _ _ _ hcur
  · simp [setEnv]

/-! ## Lemmas: the fault record -/

theorem physByte_writeByte (s : State) (e : Env) (va b : Nat) (pte : Pte)
    (h : page_lookup e.env_pgdir va = some pte) (pa : Nat) :
    physByte (writeByte s e va b) pa
      = if pa = pte.frame * PGSIZE + va % PGSIZE then b else physByte s pa := by
  unfold writeByte physByte
  rw [h]
  simp only []
  rw [fmGet_fmSet]
  by_cases hp : pa = pte.frame * PGSIZE + va % PGSIZE
  · rw [if_pos hp, if_pos hp]
    rfl
  · rw [if_neg hp, if_neg hp]


theorem copyout_phys (e : Env) (pte : Pte) (bs : List Nat) (s : State) (va : Nat)
    (hpage : ∀ k, k < bs.length → page_lookup e.env_pgdir (va + k) = some pte)
    (hfit : va % PGSIZE + bs.length ≤ PGSIZE) :
    (∀ k, k < bs.length →
        physByte (copyout s e va bs) (pte.frame * PGSIZE + va % PGSIZE + k) = bs.getD k 0)
    ∧ (∀ pa, (∀ k, k < bs.length → pa ≠ pte.frame * PGSIZE + va % PGSIZE + k) →
        physByte (copyout s e va bs) pa = physByte s pa) := by
  induction bs generalizing s va with
  | nil =>
    refine ⟨fun k hk => ?_, fun pa _ => rfl⟩
    simp at hk
  | cons b bs ih =>
    have hlen : (b :: bs).length = bs.length + 1 := rfl
    rw [hlen] at hfit
    have h0 : page_lookup e.env_pgdir va = some pte := by
      have := hpage 0 (by rw [hlen]; omega)
      simpa using this
    have hmod : bs.length ≠ 0 → (va + 1) % PGSIZE = va % PGSIZE + 1 := by
      intro hne
      unfold PGSIZE at hfit ⊢
      omega
    have hpage1 : ∀ k, k < bs.length → page_lookup e.env_pgdir (va + 1 + k) = some pte := by
      intro k hk
      have := hpage (k + 1) (by rw [hlen]; omega)
      rw [show va + 1 + k = va + (k + 1) by omega]
      exact this
    by_cases hne : bs.length = 0
    · have hnil : bs = [] := List.length_eq_zero.mp hne
      subst hnil
      refine ⟨fun k hk => ?_, fun pa hpa => ?_⟩
      · have hk0 : k = 0 := by simp at hk; exact hk
        subst hk0
        show physByte (writeByte s e va b) _ = _
        rw [physByte_writeByte s e va b pte h0, if_pos (by omega)]
        rfl
      · show physByte (writeByte s e va b) _ = _
        rw [physByte_writeByte s e va b pte h0, if_neg]
        have := hpa 0 (by simp)
        omega
    · have hm := hmod hne
      have hfit1 : (va + 1) % PGSIZE + bs.length ≤ PGSIZE := by
        rw [hm]
        omega
      obtain ⟨ih1, ih2⟩ := ih (writeByte s e va b) (va + 1) hpage1 hfit1
      refine ⟨fun k hk => ?_, fun pa hpa => ?_⟩
      · show physByte (copyout (writeByte s e va b) e (va + 1) bs) _ = _
        cases k with
        | zero =>
          rw [ih2 _ (by intro j _; rw [hm]; omega)]
          rw [physByte_writeByte s e va b pte h0, if_pos (by omega)]
          rfl
        | succ j =>
          have := ih1 j (by rw [hlen] at hk; omega)
          rw [hm] at this
          rw [show pte.frame * PGSIZE + va % PGSIZE + (j + 1)
                = pte.frame * PGSIZE + (va % PGSIZE + 1) + j by omega, this]
          rfl
      · show physByte (copyout (writeByte s e va b) e (va + 1) bs) _ = _
        rw [ih2 pa (by
          intro j hj
          rw [hm]
          have := hpa (j + 1) (by rw [hlen]; omega)
          omega)]
        rw [physByte_writeByte s e va b pte h0, if_neg]
        have := hpa 0 (by rw [hlen]; omega)
        omega

theorem foldl_page_decref_mem {α : Type} (g : α → Nat) (l : List α) (s : State) :
    (l.foldl (fun st kv => page_decref st (g kv)) s).mem = s.mem := by
  induction l generalizing s with
  | nil => rfl
  | cons a l ih =>
    simp only [List.foldl_cons]
    rw [ih, page_decref_mem]

theorem env_free_mem (s : State) (i : Nat) : (env_free s i).mem = s.mem := by
  unfold env_free
  simp only [setEnv]
  rw [foldl_page_decref_mem (fun kv : Nat × Nat => kv.2),
    foldl_page_decref_mem (fun kv : Nat × Pte => kv.2.frame)]

theorem destroy_curenv_eq (s : State) : destroy_curenv s = .yielded (env_free s s.curenv) := by
  unfold destroy_curenv env_destroy
  rw [if_pos rfl]

theorem tfStore_curenv (s : State) (p : TfPtr) (tf : Trapframe) :
    (tfStore s p tf).curenv = s.curenv ∧ (tfStore s p tf).mem = s.mem := by
  unfold tfStore
  cases p <;> exact ⟨rfl, rfl⟩

theorem tfStore_length (s : State) (p : TfPtr) (tf : Trapframe) :
    (tfStore s p tf).envs.length = s.envs.length := by
  unfold tfStore
  cases p
  · simp [setEnv]
  · rfl

/-- What the exception-stack check of `page_fault_handler` establishes: the page below
`UXSTACKTOP` is mapped. -/
theorem user_mem_check_xstack (e : Env)
    (h : user_mem_check e (UXSTACKTOP - 4) 4 (PTE_P ||| PTE_W ||| PTE_U) = true) :
    ∃ pte, fmGet e.env_pgdir.ptes (PGNUM (UXSTACKTOP - PGSIZE)) = some pte
      ∧ pte.perm &&& (PTE_P ||| PTE_W ||| PTE_U) = PTE_P ||| PTE_W ||| PTE_U := by
  unfold user_mem_check at h
  have hr : (UXSTACKTOP - 4 + 4 + PGSIZE - 1) / PGSIZE - (UXSTACKTOP - 4) / PGSIZE = 1 := by decide
  rw [hr] at h
  have hk : (UXSTACKTOP - 4) / PGSIZE + 0 = PGNUM (UXSTACKTOP - PGSIZE) := by decide
  have hr1 : List.range 1 = [0] := rfl
  rw [hr1] at h
  simp only [List.all_cons, List.all_nil, Bool.and_true] at h
  rw [hk] at h
  cases hg : fmGet e.env_pgdir.ptes (PGNUM (UXSTACKTOP - PGSIZE)) with
  | none =>
    rw [hg] at h
    simp at h
  | some pte =>
    rw [hg] at h
    refine ⟨pte, rfl, ?_⟩
    have h2 : (PTE_P ||| PTE_W ||| PTE_U) ||| PTE_P ||| PTE_U = PTE_P ||| PTE_W ||| PTE_U := by
      decide
    simp only [h2] at h
    exact of_decide_eq_true (by simpa using h)

/-- Only the delivery path of `page_fault_handler` ends in `env_run`. -/
theorem page_fault_handler_env_run_inv (s t : State) (p : TfPtr) (fault_va : Nat)
    (h : page_fault_handler s p fault_va = .env_run t) :
    (tfRead s p).tf_cs &&& 3 ≠ 0
    ∧ (curEnv s).env_pgfault_upcall ≠ 0
    ∧ user_mem_check (curEnv s) (UXSTACKTOP - 4) 4 (PTE_P ||| PTE_W ||| PTE_U) = true
    ∧ user_mem_check (curEnv s) (curEnv s).env_pgfault_upcall 4 (PTE_P ||| PTE_U) = true
    ∧ ¬ utf_place (tfRead s p).tf_esp < UXSTACKTOP - PGSIZE := by
  unfold page_fault_handler at h
  simp only [] at h
  by_cases h1 : (tfRead s p).tf_cs &&& 3 = 0
  · rw [if_pos h1] at h
    cases h
  rw [if_neg h1] at h
  by_cases h2 : (curEnv s).env_pgfault_upcall = 0
  · rw [if_pos h2, destroy_curenv_eq] at h
    cases h
  rw [if_neg h2] at h
  by_cases h3 : user_mem_check (curEnv s) (UXSTACKTOP - 4) 4 (PTE_P ||| PTE_W ||| PTE_U) = false
  · rw [if_pos h3, destroy_curenv_eq] at h
    cases h
  rw [if_neg h3] at h
  by_cases h4 : user_mem_check (curEnv s) (curEnv s).env_pgfault_upcall 4 (PTE_P ||| PTE_U) = false
  · rw [if_pos h4, destroy_curenv_eq] at h
    cases h
  rw [if_neg h4] at h
  by_cases h5 : utf_place (tfRead s p).tf_esp < UXSTACKTOP - PGSIZE
  · rw [if_pos h5, destroy_curenv_eq] at h
    cases h
  exact ⟨h1, h2, by simpa using h3, by simpa using h4, h5⟩

/-- Outside the delivery path `page_fault_handler` panics (trap from kernel mode) or destroys
the running environment and leaves memory as it is. -/
theorem page_fault_handler_cases (s : State) (p : TfPtr) (fault_va : Nat) :
    ((tfRead s p).tf_cs &&& 3 = 0 ∧ page_fault_handler s p fault_va = .panic s)
    ∨ ((tfRead s p).tf_cs &&& 3 ≠ 0
        ∧ ((curEnv s).env_pgfault_upcall = 0
            ∨ user_mem_check (curEnv s) (UXSTACKTOP - 4) 4 (PTE_P ||| PTE_W ||| PTE_U) = false
            ∨ user_mem_check (curEnv s) (curEnv s).env_pgfault_upcall 4 (PTE_P ||| PTE_U) = false
            ∨ utf_place (tfRead s p).tf_esp < UXSTACKTOP - PGSIZE)
        ∧ ∃ s1, page_fault_handler s p fault_va = .yielded (env_free s1 s.curenv)
            ∧ s1.mem = s.mem ∧ s1.curenv = s.curenv ∧ s1.envs.length = s.envs.length)
    ∨ ((tfRead s p).tf_cs &&& 3 ≠ 0
        ∧ (curEnv s).env_pgfault_upcall ≠ 0
        ∧ user_mem_check (curEnv s) (UXSTACKTOP - 4) 4 (PTE_P ||| PTE_W ||| PTE_U) = true
        ∧ user_mem_check (curEnv s) (curEnv s).env_pgfault_upcall 4 (PTE_P ||| PTE_U) = true
        ∧ ¬ utf_place (tfRead s p).tf_esp < UXSTACKTOP - PGSIZE
        ∧ ∃ t, page_fault_handler s p fault_va = .env_run t) := by
  unfold page_fault_handler
  simp only []
  by_cases h1 : (tfRead s p).tf_cs &&& 3 = 0
  · rw [if_pos h1]
    exact Or.inl ⟨h1, rfl⟩
  rw [if_neg h1]
  by_cases h2 : (curEnv s).env_pgfault_upcall = 0
  · rw [if_pos h2, destroy_curenv_eq]
    exact Or.inr (Or.inl ⟨h1, Or.inl h2, s, rfl, rfl, rfl, rfl⟩)
  rw [if_neg h2]
  by_cases h3 : user_mem_check (curEnv s) (UXSTACKTOP - 4) 4 (PTE_P ||| PTE_W ||| PTE_U) = false
  · rw [if_pos h3, destroy_curenv_eq]
    exact Or.inr (Or.inl ⟨h1, Or.inr (Or.inl h3), s, rfl, rfl, rfl, rfl⟩)
  rw [if_neg h3]
  by_cases h4 : user_mem_check (curEnv s) (curEnv s).env_pgfault_upcall 4 (PTE_P ||| PTE_U) = false
  · rw [if_pos h4, destroy_curenv_eq]
    exact Or.inr (Or.inl ⟨h1, Or.inr (Or.inr (Or.inl h4)), s, rfl, rfl, rfl, rfl⟩)
  rw [if_neg h4]
  by_cases h5 : utf_place (tfRead s p).tf_esp < UXSTACKTOP - PGSIZE
  · rw [if_pos h5, destroy_curenv_eq]
    refine Or.inr (Or.inl ⟨h1, Or.inr (Or.inr (Or.inr h5)),
      tfStore s p { tfRead s p with tf_esp := utf_place (tfRead s p).tf_esp }, ?_,
      (tfStore_curenv _ _ _).2, (tfStore_curenv _ _ _).1, tfStore_length _ _ _⟩)
    rw [(tfStore_curenv _ _ _).1]
  rw [if_neg h5]
  exact Or.inr (Or.inr ⟨h1, h2, by simpa using h3, by simpa using h4, h5, _, rfl⟩)

theorem fault_record_addr_bounds (esp : Nat)
    (hfit : ¬ fault_record_addr esp < UXSTACKTOP - PGSIZE) :
    UXSTACKTOP - PGSIZE ≤ fault_record_addr esp
    ∧ fault_record_addr esp + sizeof_UTrapframe ≤ UXSTACKTOP
    ∧ fault_record_addr esp % PGSIZE + sizeof_UTrapframe ≤ PGSIZE
    ∧ ∀ k, k < sizeof_UTrapframe →
        PGNUM (fault_record_addr esp + k) = PGNUM (UXSTACKTOP - PGSIZE) := by
  unfold fault_record_addr sizeof_UTrapframe UXSTACKTOP UTOP PGSIZE PGNUM at *
  unfold PGSIZE at *
  split at hfit
  · rw [if_pos (by assumption)]
    refine ⟨by omega, by omega, by omega, fun k hk => by omega⟩
  · rw [if_neg (by assumption)]
    refine ⟨by omega, by omega, by omega, fun k hk => by omega⟩

/-- The state after a delivered fault: the saved frame is the trap-time frame with `esp` and
`eip` replaced, and the bytes of the record can be read back from the exception stack. -/
theorem page_fault_handler_record (s t : State) (fault_va : Nat)
    (hcur : s.curenv < s.envs.length)
    (hesp : (curEnv s).env_tf.tf_esp < 2 ^ 32)
    (h : page_fault_handler s .env_tf fault_va = .env_run t) :
    curEnv t = { curEnv s with
                  env_tf := { (curEnv s).env_tf with
                                tf_esp := fault_record_addr (curEnv s).env_tf.tf_esp
                                tf_eip := (curEnv s).env_pgfault_upcall } }
    ∧ ¬ fault_record_addr (curEnv s).env_tf.tf_esp < UXSTACKTOP - PGSIZE
    ∧ t.mem = (copyout s (curEnv s) (fault_record_addr (curEnv s).env_tf.tf_esp)
        (utf_bytes
          { utf_fault_va := fault_va
            utf_err := (curEnv s).env_tf.tf_err
            utf_regs := (curEnv s).env_tf.tf_regs
            utf_eip := (curEnv s).env_tf.tf_eip
            utf_eflags := (curEnv s).env_tf.tf_eflags
            utf_esp := (curEnv s).env_tf.tf_esp })).mem
    ∧ ∀ k, k < sizeof_UTrapframe →
        readByte t (curEnv t) (fault_record_addr (curEnv s).env_tf.tf_esp + k)
          = (utf_bytes
              { utf_fault_va := fault_va
                utf_err := (curEnv s).env_tf.tf_err
                utf_regs := (curEnv s).env_tf.tf_regs
                utf_eip := (curEnv s).env_tf.tf_eip
                utf_eflags := (curEnv s).env_tf.tf_eflags
                utf_esp := (curEnv s).env_tf.tf_esp }).getD k 0 := by
  obtain ⟨hu, hup, hstk, hcode, hf⟩ := page_fault_handler_env_run_inv s t .env_tf fault_va h
  have hE := utf_place_eq _ hesp
  have hd := page_fault_handler_deliver s fault_va hu hup hstk hcode hf
  simp only [tfRead] at hf
  rw [hE] at hd hf
  rw [hd] at h
  have ht := (TrapResult.env_run.inj h).symm
  obtain ⟨a1, a2, a3, a4⟩ := tfStore_env_tf s
    { (curEnv s).env_tf with tf_esp := fault_record_addr (curEnv s).env_tf.tf_esp } hcur
  obtain ⟨b1, b2, _⟩ := copyout_frame (curEnv s)
    (utf_bytes
      { utf_fault_va := fault_va
        utf_err := (curEnv s).env_tf.tf_err
        utf_regs := (curEnv s).env_tf.tf_regs
        utf_eip := (curEnv s).env_tf.tf_eip
        utf_eflags := (curEnv s).env_tf.tf_eflags
        utf_esp := (curEnv s).env_tf.tf_esp })
    (tfStore s .env_tf
      { (curEnv s).env_tf with tf_esp := fault_record_addr (curEnv s).env_tf.tf_esp })
    (fault_record_addr (curEnv s).env_tf.tf_esp)
  have hc1 : curEnv (copyout (tfStore s .env_tf
      { (curEnv s).env_tf with tf_esp := fault_record_addr (curEnv s).env_tf.tf_esp })
      (curEnv s) (fault_record_addr (curEnv s).env_tf.tf_esp)
      (utf_bytes
        { utf_fault_va := fault_va
          utf_err := (curEnv s).env_tf.tf_err
          utf_regs := (curEnv s).env_tf.tf_regs
          utf_eip := (curEnv s).env_tf.tf_eip
          utf_eflags := (curEnv s).env_tf.tf_eflags
          utf_esp := (curEnv s).env_tf.tf_esp }))
      = { curEnv s with env_tf :=
            { (curEnv s).env_tf with tf_esp := fault_record_addr (curEnv s).env_tf.tf_esp } } := by
    rw [curEnv_congr _ _ b1 b2]
    exact a1
  obtain ⟨c1, c2, _, _⟩ := tfStore_env_tf _
    { (curEnv s).env_tf with
        tf_esp := fault_record_addr (curEnv s).env_tf.tf_esp
        tf_eip := (curEnv s).env_pgfault_upcall } (by
      rw [b1, b2, a3, a4]
      exact hcur)
  rw [hc1] at c1
  rw [← ht] at c1 c2
  obtain ⟨pte, hpte, _⟩ := user_mem_check_xstack _ hstk
  obtain ⟨_, _, g3, g4⟩ := fault_record_addr_bounds _ hf
  refine ⟨c1, hf, c2.trans (copyout_mem_congr _ _ _ _ _ a2), fun k hk => ?_⟩
  have hlen : (utf_bytes
      { utf_fault_va := fault_va
        utf_err := (curEnv s).env_tf.tf_err
        utf_regs := (curEnv s).env_tf.tf_regs
        utf_eip := (curEnv s).env_tf.tf_eip
        utf_eflags := (curEnv s).env_tf.tf_eflags
        utf_esp := (curEnv s).env_tf.tf_esp }).length = sizeof_UTrapframe := rfl
  obtain ⟨r1, _⟩ := copyout_phys (curEnv s) pte
    (utf_bytes
      { utf_fault_va := fault_va
        utf_err := (curEnv s).env_tf.tf_err
        utf_regs := (curEnv s).env_tf.tf_regs
        utf_eip := (curEnv s).env_tf.tf_eip
        utf_eflags := (curEnv s).env_tf.tf_eflags
        utf_esp := (curEnv s).env_tf.tf_esp })
    (tfStore s .env_tf
      { (curEnv s).env_tf with tf_esp := fault_record_addr (curEnv s).env_tf.tf_esp })
    (fault_record_addr (curEnv s).env_tf.tf_esp)
    (by
      intro j hj
      rw [hlen] at hj
      unfold page_lookup
      rw [g4 j hj]
      exact hpte)
    (by rw [hlen]; exact g3)
  have hr := r1 k (by rw [hlen]; exact hk)
  rw [← hr]
  unfold readByte physByte
  rw [c1]
  simp only [page_lookup]
  rw [g4 k hk, hpte]
  simp only []
  rw [c2]
  have hm : (fault_record_addr (curEnv s).env_tf.tf_esp + k) % PGSIZE
      = fault_record_addr (curEnv s).env_tf.tf_esp % PGSIZE + k := by
    unfold PGSIZE sizeof_UTrapframe at *
    omega
  rw [hm, Nat.add_assoc]

theorem utf_bytes_eq (u : UTrapframe) : utf_bytes u =
    [u.utf_fault_va % 256, u.utf_fault_va / 256 % 256, u.utf_fault_va / 65536 % 256,
      u.utf_fault_va / 16777216 % 256,
     u.utf_err % 256, u.utf_err / 256 % 256, u.utf_err / 65536 % 256, u.utf_err / 16777216 % 256,
     u.utf_regs.reg_edi % 256, u.utf_regs.reg_edi / 256 % 256, u.utf_regs.reg_edi / 65536 % 256,
      u.utf_regs.reg_edi / 16777216 % 256,
     u.utf_regs.reg_esi % 256, u.utf_regs.reg_esi / 256 % 256, u.utf_regs.reg_esi / 65536 % 256,
      u.utf_regs.reg_esi / 16777216 % 256,
     u.utf_regs.reg_ebp % 256, u.utf_regs.reg_ebp / 256 % 256, u.utf_regs.reg_ebp / 65536 % 256,
      u.utf_regs.reg_ebp / 16777216 % 256,
     u.utf_regs.reg_oesp % 256, u.utf_regs.reg_oesp / 256 % 256,
      u.utf_regs.reg_oesp / 65536 % 256, u.utf_regs.reg_oesp / 16777216 % 256,
     u.utf_regs.reg_ebx % 256, u.utf_regs.reg_ebx / 256 % 256, u.utf_regs.reg_ebx / 65536 % 256,
      u.utf_regs.reg_ebx / 16777216 % 256,
     u.utf_regs.reg_edx % 256, u.utf_regs.reg_edx / 256 % 256, u.utf_regs.reg_edx / 65536 % 256,
      u.utf_regs.reg_edx / 16777216 % 256,
     u.utf_regs.reg_ecx % 256, u.utf_regs.reg_ecx / 256 % 256, u.utf_regs.reg_ecx / 65536 % 256,
      u.utf_regs.reg_ecx / 16777216 % 256,
     u.utf_regs.reg_eax % 256, u.utf_regs.reg_eax / 256 % 256, u.utf_regs.reg_eax / 65536 % 256,
      u.utf_regs.reg_eax / 16777216 % 256,
     u.utf_eip % 256, u.utf_eip / 256 % 256, u.utf_eip / 65536 % 256, u.utf_eip / 16777216 % 256,
     u.utf_eflags % 256, u.utf_eflags / 256 % 256, u.utf_eflags / 65536 % 256,
      u.utf_eflags / 16777216 % 256,
     u.utf_esp % 256, u.utf_esp / 256 % 256, u.utf_esp / 65536 % 256,
      u.utf_esp / 16777216 % 256] := by
  simp only [utf_bytes, regs_bytes, word_bytes, List.cons_append, List.nil_append,
    List.append_assoc]

theorem readWord_of_bytes (s : State) (e : Env) (va : Nat) (bs : List Nat) (c w : Nat)
    (hc3 : c + 3 < sizeof_UTrapframe) (hw32 : w < 2 ^ 32)
    (hb : ∀ k, k < sizeof_UTrapframe → readByte s e (va + k) = bs.getD k 0)
    (g0 : bs.getD c 0 = w % 256) (g1 : bs.getD (c + 1) 0 = w / 256 % 256)
    (g2 : bs.getD (c + 2) 0 = w / 65536 % 256) (g3 : bs.getD (c + 3) 0 = w / 16777216 % 256) :
    readWord s e (va + c) = w := by
  have h0 := hb c (by omega)
  have h1 := hb (c + 1) (by omega)
  have h2 := hb (c + 2) (by omega)
  have h3 := hb (c + 3) (by omega)
  rw [← Nat.add_assoc] at h1 h2 h3
  unfold readWord
  rw [h0, h1, h2, h3, g0, g1, g2, g3]
  omega

/-! ## Lemmas: user-level fork -/

theorem and_low12 (f p m : Nat) (hm : m < 4096) : (f * 4096 ||| p) &&& m = p &&& m := by
  apply Nat.eq_of_testBit_eq
  intro i
  simp only [Nat.testBit_and, Nat.testBit_or]
  by_cases hi : i < 12
  · have : (f * 4096).testBit i = false := by
      rw [show f * 4096 = 2 ^ 12 * f by omega, Nat.testBit_mul_pow_two]
      simp
      omega
    rw [this]
    simp
  · have : m.testBit i = false := by
      apply Nat.testBit_lt_two_pow
      calc m < 4096 := hm
        _ = 2 ^ 12 := by norm_num
        _ ≤ 2 ^ i := Nat.pow_le_pow_right (by norm_num) (by omega)
    rw [this]
    simp

theorem pteWord_and (p : Pte) (m : Nat) (hm : m < 4096) : pteWord p &&& m = p.perm &&& m :=
  and_low12 p.frame p.perm m hm

theorem vpt_of_some (s : State) (pn : Nat) (pte : Pte)
    (h : fmGet (curEnv s).env_pgdir.ptes pn = some pte) (m : Nat) (hm : m < 4096) :
    vpt s pn &&& m = pte.perm &&& m := by
  unfold vpt
  rw [h]
  exact pteWord_and pte m hm

theorem vpt_of_none (s : State) (pn : Nat)
    (h : fmGet (curEnv s).env_pgdir.ptes pn = none) : vpt s pn = 0 := by
  unfold vpt
  rw [h]

theorem vpd_present (s : State) (pdx : Nat) :
    vpd s pdx &&& PTE_P ≠ 0 ↔ ∃ t, fmGet (curEnv s).env_pgdir.tables pdx = some t := by
  unfold vpd
  cases h : fmGet (curEnv s).env_pgdir.tables pdx with
  | none => simp
  | some t =>
    simp only [Option.some.injEq, exists_eq', iff_true]
    have := and_low12 t (PTE_P ||| PTE_W ||| PTE_U) PTE_P (by decide)
    unfold PGSIZE
    rw [this]
    decide

theorem pgnum_page (pn : Nat) (h : pn < 2 ^ 20) :
    PGNUM (pn * PGSIZE % 2 ^ 32) = pn ∧ PDX (pn * PGSIZE % 2 ^ 32) = pn >>> 10
      ∧ pn * PGSIZE % 2 ^ 32 = pn * PGSIZE := by
  unfold PGNUM PDX PTSIZE PGSIZE
  rw [Nat.shiftRight_eq_div_pow]
  omega

theorem envid2env_set_congr (s t : State) (i : Nat) (e : Env)
    (he : t.envs = s.envs.set i e) (hc : t.curenv = s.curenv)
    (h1 : e.env_id = (getEnv s i).env_id) (h2 : e.env_status = (getEnv s i).env_status)
    (h3 : e.env_parent_id = (getEnv s i).env_parent_id) (envid : Nat) (cp : Bool) :
    envid2env t envid cp = envid2env s envid cp := by
  have hcur : (curEnv t).env_id = (curEnv s).env_id := by
    unfold curEnv
    rw [hc]
    rcases getEnv_of_set s t i _ he s.curenv with h | ⟨g1, _, g3⟩
    · rw [h]
    · rw [g3, g1, h1]
  unfold envid2env
  rw [hc, hcur, he]
  by_cases h0 : envid = 0
  · simp only [h0, if_true]
  · simp only [h0, if_false]
    by_cases hj : ENVX envid = i
    · by_cases hl : i < s.envs.length
      · have g1 : (s.envs.set i e).get? (ENVX envid) = some e := by
          rw [hj]
          simp [List.get?_eq_getElem?, hl]
        have g2 : s.envs.get? (ENVX envid) = some (getEnv s i) := by
          rw [hj]
          simp [List.get?_eq_getElem?, getEnv, envAt, List.getD_eq_getElem?_getD, hl]
        rw [g1, g2]
        simp only [h1, h2, h3]
      · have g1 : (s.envs.set i e) = s.envs := by
          apply List.set_eq_of_length_le
          omega
        rw [g1]
    · have g1 : (s.envs.set i e).get? (ENVX envid) = s.envs.get? (ENVX envid) := by
        simp [List.get?_eq_getElem?, List.getElem?_set_ne (fun h => hj h.symm)]
      rw [g1]

theorem envid2env_set_pgdir (s t : State) (i : Nat) (pd : PageDir)
    (he : t.envs = s.envs.set i { getEnv s i with env_pgdir := pd })
    (hc : t.curenv = s.curenv) (envid : Nat) (cp : Bool) :
    envid2env t envid cp = envid2env s envid cp :=
  envid2env_set_congr s t i _ he hc rfl rfl rfl envid cp

theorem pgdir_walk_of_table (s : State) (pd : PageDir) (va t0 : Nat)
    (h : fmGet pd.tables (PDX va) = some t0) : pgdir_walk s pd va = some (s, pd) := by
  unfold pgdir_walk
  rw [h]

/-- `page_insert` into an address space whose page table for `va` exists: it succeeds and only
the leaf entry changes. -/
theorem page_insert_of_table (s : State) (i f va perm t0 : Nat)
    (ht : fmGet (getEnv s i).env_pgdir.tables (PDX va) = some t0) :
    (page_insert s i f va perm).1 = 0
    ∧ (page_insert s i f va perm).2.envs
        = s.envs.set i { getEnv s i with
            env_pgdir := { (getEnv s i).env_pgdir with
              ptes := fmSet (getEnv s i).env_pgdir.ptes (PGNUM va) ⟨f, perm⟩ } }
    ∧ (page_insert s i f va perm).2.page_free_list.length ≥ s.page_free_list.length := by
  have hw := pgdir_walk_of_table { s with mm_ops := s.mm_ops ++ [⟨true, i, va⟩] }
    (getEnv s i).env_pgdir va t0 ht
  have key : ∃ s3 : State, s3.envs = s.envs
      ∧ s3.page_free_list.length ≥ s.page_free_list.length
      ∧ page_insert s i f va perm
        = (0, setEnv s3 i { getEnv s3 i with
              env_pgdir := { (getEnv s i).env_pgdir with
                ptes := fmSet (getEnv s i).env_pgdir.ptes (PGNUM va) ⟨f, perm⟩ } }) := by
    obtain ⟨u1, _, _⟩ := unref_mapped_frame
      { ({ s with mm_ops := s.mm_ops ++ [⟨true, i, va⟩] } : State) with
          pp_ref := fmSet s.pp_ref f (refGet s f + 1) } (getEnv s i).env_pgdir va
    refine ⟨unref_mapped
      { ({ s with mm_ops := s.mm_ops ++ [⟨true, i, va⟩] } : State) with
          pp_ref := fmSet s.pp_ref f (refGet s f + 1) } (getEnv s i).env_pgdir va, u1, ?_, ?_⟩
    · unfold unref_mapped
      split
      · unfold page_decref page_free
        simp only []
        split
        · simp
        · simp
      · simp
    · unfold page_insert
      simp only []
      rw [show getEnv { s with mm_ops := s.mm_ops ++ [⟨true, i, va⟩] } i = getEnv s i from rfl, hw]
      rfl
  obtain ⟨s3, e1, e2, hp⟩ := key
  rw [hp]
  refine ⟨rfl, ?_, ?_⟩
  · simp only [setEnv]
    rw [getEnv_congr _ _ _ e1, e1]
  · simp only [setEnv]
    exact e2

theorem onlyPgdirOf_of_set (s t : State) (i : Nat) (pd : PageDir)
    (he : t.envs = s.envs.set i { getEnv s i with env_pgdir := pd })
    (hc : t.curenv = s.curenv) (hi : i < s.envs.length) :
    OnlyPgdirOf s t i ∧ (getEnv t i).env_pgdir = pd := by
  have hg := getEnv_eq_of_set s t i _ he hi
  refine ⟨⟨hc, by rw [he]; simp, fun j hj => getEnv_ne_of_set s t i j _ he hj, ?_,
    fun envid cp => envid2env_set_pgdir s t i pd he hc envid cp⟩, by rw [hg]⟩
  rw [hg]

theorem onlyPgdirOf_refl (s : State) (i : Nat) : OnlyPgdirOf s s i :=
  ⟨rfl, rfl, fun _ _ => rfl, rfl, fun _ _ => rfl⟩

/-- A `sys_page_map` that does not fail: what it found and what it changed. -/
theorem sys_page_map_inv (s : State) (srcenvid srcva dstenvid dstva perm : Nat)
    (hcur : s.curenv < s.envs.length)
    (h : ¬ (sys_page_map s srcenvid srcva dstenvid dstva perm).1 < 0) :
    ∃ src dst pte,
      envid2env s srcenvid true = some src ∧ envid2env s dstenvid true = some dst
      ∧ dst < s.envs.length
      ∧ (srcva < UTOP ∧ srcva % PGSIZE = 0) ∧ (dstva < UTOP ∧ dstva % PGSIZE = 0)
      ∧ page_lookup (getEnv s src).env_pgdir srcva = some pte
      ∧ (perm &&& PTE_W ≠ 0 → pte.perm &&& PTE_W ≠ 0)
      ∧ (sys_page_map s srcenvid srcva dstenvid dstva perm).1 = 0
      ∧ OnlyPgdirOf s (sys_page_map s srcenvid srcva dstenvid dstva perm).2 dst
      ∧ (sys_page_map s srcenvid srcva dstenvid dstva perm).2.mem = s.mem
      ∧ fmGet (getEnv (sys_page_map s srcenvid srcva dstenvid dstva perm).2 dst).env_pgdir.ptes
          (PGNUM dstva) = some ⟨pte.frame, perm⟩
      ∧ (∀ k, k ≠ PGNUM dstva →
          fmGet (getEnv (sys_page_map s srcenvid srcva dstenvid dstva perm).2 dst).env_pgdir.ptes k
            = fmGet (getEnv s dst).env_pgdir.ptes k)
      ∧ (∀ t0, fmGet (getEnv s dst).env_pgdir.tables (PDX dstva) = some t0 →
          (getEnv (sys_page_map s srcenvid srcva dstenvid dstva perm).2 dst).env_pgdir.tables
            = (getEnv s dst).env_pgdir.tables) := by
  rcases sys_page_map_cases s srcenvid srcva dstenvid dstva perm with
    ⟨_, ⟨h1, _⟩ | ⟨h1, _⟩⟩ | ⟨src, dst, pte, h1, h2, h3, h4, h5, _, h7, h8, h9⟩
  · rw [h1] at h
    exact absurd (by decide) h
  · rw [h1] at h
    exact absurd (by decide) h
  · obtain ⟨pd, e1, e2, _, e4, e5, _, e7⟩ := page_insert_spec s dst pte.frame dstva perm
    have hdst := envid2env_lt s dstenvid dst true hcur h2
    have hz : (page_insert s dst pte.frame dstva perm).1 = 0 := by
      rcases e4 with e | e
      · exact e
      · rw [h9, e] at h
        exact absurd (by decide) h
    rw [← h8] at e1 e2
    obtain ⟨o1, o2⟩ := onlyPgdirOf_of_set s _ dst pd e1 e2 hdst
    refine ⟨src, dst, pte, h1, h2, hdst, (vaAccepted_iff srcva).1 h3, (vaAccepted_iff dstva).1 h4,
      h5, h7, by rw [h9, hz], o1, by rw [h8, page_insert_mem], ?_, ?_, ?_⟩
    · rw [o2]
      exact e5 hz
    · rw [o2]
      exact e7
    · intro t0 ht0
      obtain ⟨_, g2, _⟩ := page_insert_of_table s dst pte.frame dstva perm t0 ht0
      rw [← h8] at g2
      rw [getEnv_eq_of_set s _ dst _ g2 hdst]

theorem envid2env_zero (s : State) (cp : Bool) : envid2env s 0 cp = some s.curenv := by
  unfold envid2env
  rw [if_pos rfl]

/-- A `duppage` of a writable or copy-on-write page that returns. -/
theorem duppage_cow_ret (s t : State) (envid pn : Nat) (v : Int) (pte : Pte)
    (hcur : s.curenv < s.envs.length) (hpn : pn < 2 ^ 20)
    (hpte : fmGet (curEnv s).env_pgdir.ptes pn = some pte)
    (hw : vpt s pn &&& PTE_W ≠ 0 ∨ vpt s pn &&& PTE_COW ≠ 0)
    (h : duppage s envid pn = .ret v t) :
    v = 0 ∧ ∃ child, envid2env s envid true = some child ∧ child < s.envs.length
      ∧ t.curenv = s.curenv ∧ t.envs.length = s.envs.length
      ∧ fmGet (getEnv t child).env_pgdir.ptes pn = some ⟨pte.frame, PTE_U ||| PTE_P ||| PTE_COW⟩
      ∧ fmGet (curEnv t).env_pgdir.ptes pn = some ⟨pte.frame, PTE_U ||| PTE_P ||| PTE_COW⟩
      ∧ (∀ k, k ≠ pn → fmGet (curEnv t).env_pgdir.ptes k = fmGet (curEnv s).env_pgdir.ptes k)
      ∧ (∀ t0, fmGet (curEnv s).env_pgdir.tables (pn >>> 10) = some t0 →
          (curEnv t).env_pgdir.tables = (curEnv s).env_pgdir.tables)
      ∧ (∀ j, j ≠ child → j ≠ s.curenv → getEnv t j = getEnv s j)
      ∧ t.mem = s.mem := by
  obtain ⟨g1, g2, g3⟩ := pgnum_page pn hpn
  unfold duppage at h
  simp only [] at h
  rw [if_pos hw] at h
  obtain ⟨r1, hr1⟩ : ∃ r1, r1 = sys_page_map s 0 (pn * PGSIZE % 2 ^ 32) envid
      (pn * PGSIZE % 2 ^ 32) (PTE_U ||| PTE_P ||| PTE_COW) := ⟨_, rfl⟩
  rw [← hr1] at h
  by_cases h1 : r1.1 < 0
  · rw [if_pos h1] at h
    cases h
  rw [if_neg h1] at h
  obtain ⟨r2, hr2⟩ : ∃ r2, r2 = sys_page_map r1.2 envid (pn * PGSIZE % 2 ^ 32) 0
      (pn * PGSIZE % 2 ^ 32) (PTE_U ||| PTE_P ||| PTE_COW) := ⟨_, rfl⟩
  rw [← hr2] at h
  by_cases h2 : r2.1 < 0
  · rw [if_pos h2] at h
    cases h
  rw [if_neg h2] at h
  simp only [UserOutcome.ret.injEq] at h
  obtain ⟨hv, ht⟩ := h
  rw [hr1] at h1
  obtain ⟨src1, child, pte1, a1, a2, a3, _, _, a6, _, _, a9, a10, a11, a12, a13⟩ :=
    sys_page_map_inv s _ _ _ _ _ hcur h1
  rw [← hr1] at a9 a10 a11 a12 a13
  obtain ⟨b1, b2, b3, b4, b5⟩ := a9
  rw [envid2env_zero] at a1
  have hsrc1 : src1 = s.curenv := (Option.some.inj a1).symm
  subst hsrc1
  rw [g1] at a11 a12
  rw [g2] at a13
  have hp1 : pte1 = pte := by
    unfold page_lookup at a6
    rw [g1] at a6
    have : fmGet (getEnv s s.curenv).env_pgdir.ptes pn = some pte := hpte
    rw [this] at a6
    exact (Option.some.inj a6).symm
  subst hp1
  have hcur1 : r1.2.curenv < r1.2.envs.length := by
    rw [b1, b2]
    exact hcur
  rw [hr2] at h2
  obtain ⟨src2, dst2, pte2, c1, c2, c3, _, _, c6, _, _, c9, c10, c11, c12, c13⟩ :=
    sys_page_map_inv r1.2 _ _ _ _ _ hcur1 h2
  rw [← hr2, ht] at c9 c10 c11 c12 c13
  obtain ⟨d1, d2, d3, d4, d5⟩ := c9
  rw [b5, a2] at c1
  have hsrc2 : child = src2 := Option.some.inj c1
  subst hsrc2
  rw [envid2env_zero, b1] at c2
  have hdst2 : dst2 = s.curenv := (Option.some.inj c2).symm
  subst hdst2
  rw [g1] at c11 c12
  rw [g2] at c13
  have hp2 : pte2 = ⟨pte1.frame, PTE_U ||| PTE_P ||| PTE_COW⟩ := by
    unfold page_lookup at c6
    rw [g1, a11] at c6
    exact (Option.some.inj c6).symm
  subst hp2
  have hct : curEnv t = getEnv t s.curenv := by
    unfold curEnv
    rw [d1, b1]
  have hcs : curEnv s = getEnv s s.curenv := rfl
  have hmid : ∀ k, k ≠ pn → fmGet (getEnv r1.2 s.curenv).env_pgdir.ptes k
      = fmGet (getEnv s s.curenv).env_pgdir.ptes k := by
    intro k hk
    by_cases hcc : s.curenv = child
    · rw [hcc]
      exact a12 k hk
    · rw [b3 s.curenv hcc]
  have hmidt : ∀ t0, fmGet (getEnv s s.curenv).env_pgdir.tables (pn >>> 10) = some t0 →
      (getEnv r1.2 s.curenv).env_pgdir.tables = (getEnv s s.curenv).env_pgdir.tables := by
    intro t0 h0
    by_cases hcc : s.curenv = child
    · have := a13 t0 (by rw [← hcc]; exact h0)
      rw [hcc]
      exact this
    · rw [b3 s.curenv hcc]
  refine ⟨hv.symm, child, a2, a3, by rw [d1, b1], by rw [d2, b2], ?_, ?_, ?_, ?_, ?_, ?_⟩
  · by_cases hcc : child = s.curenv
    · rw [hcc]
      exact c11
    · rw [d3 child hcc]
      exact a11
  · rw [hct]
    exact c11
  · intro k hk
    rw [hct, hcs, c12 k hk]
    exact hmid k hk
  · intro t0 h0
    rw [hct, hcs]
    rw [hcs] at h0
    rw [c13 t0 (by rw [hmidt t0 h0]; exact h0)]
    exact hmidt t0 h0
  · intro j hj1 hj2
    rw [d3 j hj2, b3 j hj1]
  · rw [c10, a10]

/-- A `duppage` of a page whose entry has neither `PTE_W` nor `PTE_COW` (or that is not mapped
at all) asks `sys_page_map` for `PTE_W | PTE_P | PTE_U` and panics on the refusal. -/
theorem duppage_not_writable (s : State) (envid pn : Nat) (hpn : pn < 2 ^ 20)
    (hro : ∀ pte, fmGet (curEnv s).env_pgdir.ptes pn = some pte →
      pte.perm &&& PTE_W = 0 ∧ pte.perm &&& PTE_COW = 0) :
    duppage s envid pn = .panic s := by
  obtain ⟨g1, _, _⟩ := pgnum_page pn hpn
  have hv : ¬ (vpt s pn &&& PTE_W ≠ 0 ∨ vpt s pn &&& PTE_COW ≠ 0) := by
    cases hp : fmGet (curEnv s).env_pgdir.ptes pn with
    | none =>
      rw [vpt_of_none s pn hp]
      simp
    | some pte =>
      obtain ⟨h1, h2⟩ := hro pte hp
      rw [vpt_of_some s pn pte hp PTE_W (by decide), vpt_of_some s pn pte hp PTE_COW (by decide),
        h1, h2]
      simp
  unfold duppage
  simp only []
  rw [if_neg hv]
  rcases sys_page_map_cases s 0 (pn * PGSIZE % 2 ^ 32) envid (pn * PGSIZE % 2 ^ 32)
      (PTE_W ||| PTE_P ||| PTE_U) with
    ⟨h0, ⟨h1, _⟩ | ⟨h1, _⟩⟩ | ⟨src, dst, pte, a1, _, _, _, a5, _, a7, _, _⟩
  · rw [if_pos (by rw [h1]; decide), h0]
  · rw [if_pos (by rw [h1]; decide), h0]
  · rw [envid2env_zero] at a1
    have hsrc : src = s.curenv := (Option.some.inj a1).symm
    subst hsrc
    unfold page_lookup at a5
    rw [g1] at a5
    exact absurd (hro pte a5).1 (a7 (by decide))

theorem fmGet_filter_keep {α : Type} (m : List (Nat × α)) (p : Nat × α → Bool) (k : Nat)
    (h : ∀ v, p (k, v) = true) : fmGet (m.filter p) k = fmGet m k := by
  induction m with
  | nil => rfl
  | cons kv m ih =>
    obtain ⟨a, v⟩ := kv
    by_cases hp : p (a, v) = true
    · rw [List.filter_cons_of_pos hp]
      simp only [fmGet]
      rw [ih]
    · rw [List.filter_cons_of_neg hp]
      have hak : a ≠ k := by
        intro hak
        subst hak
        exact hp (h v)
      simp only [fmGet]
      rw [if_neg hak, ih]

theorem physByte_memset_page_zero (s : State) (frame pa : Nat) :
    physByte (memset_page_zero s frame) pa = if pa / PGSIZE = frame then 0 else physByte s pa := by
  unfold physByte memset_page_zero
  dsimp only
  by_cases h : pa / PGSIZE = frame
  · rw [if_pos h, fmGet_filter_none]
    · rfl
    · intro v
      simp [h]
  · rw [if_neg h, fmGet_filter_keep]
    intro v
    simp [h]

theorem negE_BAD_ENV : -E_BAD_ENV < 0 := by decide

theorem negE_INVAL : -E_INVAL < 0 := by decide

theorem negE_NO_MEM : -E_NO_MEM < 0 := by decide

/-- A `sys_page_alloc` that does not fail: the frame it took, where it put it, and what it did
to memory. -/
theorem sys_page_alloc_inv (s : State) (envid va perm : Nat)
    (hcur : s.curenv < s.envs.length)
    (h : ¬ (sys_page_alloc s envid va perm).1 < 0) :
    ∃ task page rest,
      envid2env s envid true = some task ∧ task < s.envs.length
      ∧ s.page_free_list = page :: rest
      ∧ (va < UTOP ∧ va % PGSIZE = 0)
      ∧ (sys_page_alloc s envid va perm).1 = 0
      ∧ OnlyPgdirOf s (sys_page_alloc s envid va perm).2 task
      ∧ fmGet (getEnv (sys_page_alloc s envid va perm).2 task).env_pgdir.ptes (PGNUM va)
          = some ⟨page, perm⟩
      ∧ (∀ k, k ≠ PGNUM va →
          fmGet (getEnv (sys_page_alloc s envid va perm).2 task).env_pgdir.ptes k
            = fmGet (getEnv s task).env_pgdir.ptes k)
      ∧ (∀ t0, fmGet (getEnv s task).env_pgdir.tables (PDX va) = some t0 →
          (getEnv (sys_page_alloc s envid va perm).2 task).env_pgdir.tables
            = (getEnv s task).env_pgdir.tables)
      ∧ (∀ pa, physByte (sys_page_alloc s envid va perm).2 pa
          = if pa / PGSIZE = page then 0 else physByte s pa) := by
  obtain ⟨r, hr⟩ : ∃ r, r = sys_page_alloc s envid va perm := ⟨_, rfl⟩
  rw [← hr] at h ⊢
  unfold sys_page_alloc at hr
  cases h1 : envid2env s envid true with
  | none =>
    rw [h1] at hr
    rw [hr] at h
    exact absurd negE_BAD_ENV h
  | some task =>
    rw [h1] at hr
    dsimp only at hr
    cases hf : s.page_free_list with
    | nil =>
      have hpa : page_alloc s = none := by
        unfold page_alloc
        rw [hf]
      rw [hpa] at hr
      rw [hr] at h
      exact absurd negE_NO_MEM h
    | cons page rest =>
      have hpa : page_alloc s
          = some (page, { s with page_free_list := rest, pp_ref := fmSet s.pp_ref page 0 }) := by
        unfold page_alloc
        rw [hf]
      rw [hpa] at hr
      dsimp only at hr
      by_cases c1 : va ≥ UTOP ∨ va ≠ ROUNDDOWN va PGSIZE
      · rw [if_pos c1] at hr
        rw [hr] at h
        exact absurd negE_INVAL h
      rw [if_neg c1] at hr
      by_cases c2 : perm &&& PTE_U = 0 ∨ perm &&& PTE_P = 0
      · rw [if_pos c2] at hr
        rw [hr] at h
        exact absurd negE_INVAL h
      rw [if_neg c2] at hr
      by_cases c3 : permOtherBits perm ≠ 0
      · rw [if_pos c3] at hr
        rw [hr] at h
        exact absurd negE_INVAL h
      rw [if_neg c3] at hr
      by_cases c4 : (page_insert (memset_page_zero
          { s with page_free_list := rest, pp_ref := fmSet s.pp_ref page 0 } page)
          task page va perm).1 < 0
      · rw [if_pos c4] at hr
        rw [hr] at h
        exact absurd negE_NO_MEM h
      rw [if_neg c4] at hr
      have htask := envid2env_lt s envid task true hcur h1
      obtain ⟨pd, e1, e2, _, e4, e5, _, e7⟩ := page_insert_spec (memset_page_zero
          { s with page_free_list := rest, pp_ref := fmSet s.pp_ref page 0 } page)
          task page va perm
      have hz : (page_insert (memset_page_zero
          { s with page_free_list := rest, pp_ref := fmSet s.pp_ref page 0 } page)
          task page va perm).1 = 0 := by
        rcases e4 with e | e
        · exact e
        · rw [e] at c4
          exact absurd negE_NO_MEM c4
      have hm := page_insert_mem (memset_page_zero
          { s with page_free_list := rest, pp_ref := fmSet s.pp_ref page 0 } page)
          task page va perm
      have e1' : r.2.envs = s.envs.set task { getEnv s task with env_pgdir := pd } := by
        rw [hr]
        exact e1
      have e2' : r.2.curenv = s.curenv := by
        rw [hr]
        exact e2
      obtain ⟨o1, o2⟩ := onlyPgdirOf_of_set s r.2 task pd e1' e2' htask
      refine ⟨task, page, rest, rfl, htask, rfl, (vaAccepted_iff va).1 c1, by rw [hr], o1,
        ?_, ?_, ?_, ?_⟩
      · rw [o2]
        exact e5 hz
      · rw [o2]
        exact e7
      · intro t0 ht0
        obtain ⟨_, g2, _⟩ := page_insert_of_table (memset_page_zero
          { s with page_free_list := rest, pp_ref := fmSet s.pp_ref page 0 } page)
          task page va perm t0 ht0
        have g2' : r.2.envs = s.envs.set task { getEnv s task with
            env_pgdir := { (getEnv s task).env_pgdir with
              ptes := fmSet (getEnv s task).env_pgdir.ptes (PGNUM va) ⟨page, perm⟩ } } := by
          rw [hr]
          exact g2
        rw [getEnv_eq_of_set s _ task _ g2' htask]
      · intro pa
        have : physByte r.2 pa = physByte (memset_page_zero
            { s with page_free_list := rest, pp_ref := fmSet s.pp_ref page 0 } page) pa := by
          unfold physByte
          rw [hr]
          dsimp only
          rw [hm]
        rw [this, physByte_memset_page_zero]
        rfl

/-- A `duppage` that returns, called on a page the scan of `fork` found present, leaves the
caller's page directory and the presence of its leaf entries as they were. -/
theorem duppage_present_inv (s t : State) (envid pn : Nat) (v : Int)
    (hcur : s.curenv < s.envs.length) (hpn : pn < 2 ^ 20)
    (hpres : vpd s (pn >>> 10) &&& PTE_P ≠ 0 ∧ vpt s pn &&& PTE_P ≠ 0)
    (h : duppage s envid pn = .ret v t) :
    t.curenv = s.curenv ∧ t.envs.length = s.envs.length
    ∧ (∀ k, vpd t k = vpd s k)
    ∧ (∀ k, vpt t k &&& PTE_P ≠ 0 ↔ vpt s k &&& PTE_P ≠ 0) := by
  obtain ⟨t0, ht0⟩ := (vpd_present s (pn >>> 10)).1 hpres.1
  cases hp : fmGet (curEnv s).env_pgdir.ptes pn with
  | none =>
    have := hpres.2
    rw [vpt_of_none s pn hp] at this
    exact absurd rfl this
  | some pte =>
    by_cases hw : vpt s pn &&& PTE_W ≠ 0 ∨ vpt s pn &&& PTE_COW ≠ 0
    · obtain ⟨_, child, _, _, a3, a4, _, a6, a7, a8, _⟩ :=
        duppage_cow_ret s t envid pn v pte hcur hpn hp hw h
      refine ⟨a3, a4, fun k => ?_, fun k => ?_⟩
      · unfold vpd
        rw [a8 t0 ht0]
      · by_cases hk : k = pn
        · subst hk
          rw [vpt_of_some t k _ a6 PTE_P (by decide)]
          have hb : (PTE_U ||| PTE_P ||| PTE_COW) &&& PTE_P ≠ 0 := by decide
          exact ⟨fun _ => hpres.2, fun _ => hb⟩
        · unfold vpt
          rw [a7 k hk]
    · have hpn' := duppage_not_writable s envid pn hpn (fun p hp2 => by
        rw [hp] at hp2
        cases hp2
        rw [vpt_of_some s pn pte hp PTE_W (by decide),
          vpt_of_some s pn pte hp PTE_COW (by decide)] at hw
        constructor
        · by_contra hc
          exact hw (Or.inl hc)
        · by_contra hc
          exact hw (Or.inr hc))
      rw [hpn'] at h
      cases h

/-- The page scan of `fork`: the calls of `duppage` it adds are distinct page numbers below the
starting point, each present (directory entry and leaf entry) in the address space the scan
started from; a scan that finishes has called `duppage` for every such page. -/
theorem fork_scan_spec (envid : Nat) (n : Nat) :
    ∀ (s : State) (calls : List Nat) (o : UserOutcome) (calls1 : List Nat),
      s.curenv < s.envs.length → n ≤ 2 ^ 20 →
      fork_scan envid n s calls = (o, calls1) →
      ∃ new, calls1 = calls ++ new ∧ new.Nodup
        ∧ (∀ pn, pn ∈ new → pn < n ∧ vpd s (pn >>> 10) &&& PTE_P ≠ 0 ∧ vpt s pn &&& PTE_P ≠ 0)
        ∧ (∀ v t, o = .ret v t →
            (∀ pn, pn < n → vpd s (pn >>> 10) &&& PTE_P ≠ 0 → vpt s pn &&& PTE_P ≠ 0 → pn ∈ new)
            ∧ t.curenv = s.curenv ∧ t.envs.length = s.envs.length) := by
  induction n with
  | zero =>
    intro s calls o calls1 _ _ h
    unfold fork_scan at h
    simp only [Prod.mk.injEq] at h
    obtain ⟨h1, h2⟩ := h
    subst h1 h2
    refine ⟨[], by simp, List.nodup_nil, fun pn hpn => by simp at hpn, fun v t hvt => ?_⟩
    simp only [UserOutcome.ret.injEq] at hvt
    obtain ⟨_, hts⟩ := hvt
    subst hts
    exact ⟨fun pn hpn => absurd hpn (by omega), rfl, rfl⟩
  | succ n ih =>
    intro s calls o calls1 hcur hn h
    unfold fork_scan at h
    by_cases hp : vpd s (n >>> 10) &&& PTE_P ≠ 0 ∧ vpt s n &&& PTE_P ≠ 0
    · rw [if_pos hp] at h
      cases hd : duppage s envid n with
      | ret v1 s1 =>
        rw [hd] at h
        simp only [] at h
        obtain ⟨b1, b2, b3, b4⟩ := duppage_present_inv s s1 envid n v1 hcur (by omega) hp hd
        obtain ⟨new, c1, c2, c3, c4⟩ := ih s1 (calls ++ [n]) o calls1
          (by rw [b1, b2]; exact hcur) (by omega) h
        refine ⟨n :: new, by rw [c1]; simp, ?_, ?_, ?_⟩
        · rw [List.nodup_cons]
          refine ⟨fun hmem => ?_, c2⟩
          have := (c3 n hmem).1
          omega
        · intro pn hpn
          rw [List.mem_cons] at hpn
          rcases hpn with hpn | hpn
          · subst hpn
            exact ⟨by omega, hp⟩
          · obtain ⟨d1, d2, d3⟩ := c3 pn hpn
            rw [b3] at d2
            exact ⟨by omega, d2, (b4 pn).1 d3⟩
        · intro v t hvt
          obtain ⟨e1, e2, e3⟩ := c4 v t hvt
          refine ⟨fun pn hpn h1 h2 => ?_, by rw [e2, b1], by rw [e3, b2]⟩
          rw [List.mem_cons]
          by_cases hpn2 : pn = n
          · exact Or.inl hpn2
          · right
            apply e1 pn (by omega)
            · rw [b3]
              exact h1
            · exact (b4 pn).2 h2
      | panic s1 =>
        rw [hd] at h
        simp only [Prod.mk.injEq] at h
        obtain ⟨h1, h2⟩ := h
        subst h1 h2
        refine ⟨[n], rfl, List.nodup_singleton n, fun pn hpn => ?_, fun v t hvt => by cases hvt⟩
        rw [List.mem_singleton] at hpn
        subst hpn
        exact ⟨by omega, hp⟩
      | fault s1 =>
        rw [hd] at h
        simp only [Prod.mk.injEq] at h
        obtain ⟨h1, h2⟩ := h
        subst h1 h2
        refine ⟨[n], rfl, List.nodup_singleton n, fun pn hpn => ?_, fun v t hvt => by cases hvt⟩
        rw [List.mem_singleton] at hpn
        subst hpn
        exact ⟨by omega, hp⟩
    · rw [if_neg hp] at h
      obtain ⟨new, c1, c2, c3, c4⟩ := ih s calls o calls1 hcur (by omega) h
      refine ⟨new, c1, c2, fun pn hpn => ?_, fun v t hvt => ?_⟩
      · obtain ⟨d1, d2⟩ := c3 pn hpn
        exact ⟨by omega, d2⟩
      · obtain ⟨e1, e2⟩ := c4 v t hvt
        refine ⟨fun pn hpn h1 h2 => ?_, e2⟩
        by_cases hpn2 : pn = n
        · subst hpn2
          exact absurd ⟨h1, h2⟩ hp
        · exact e1 pn (by omega) h1 h2

/-- A `sys_env_set_pgfault_upcall` that does not fail changes nothing but the upcall of the
environment named. -/
theorem sys_env_set_pgfault_upcall_inv (s : State) (envid func : Nat)
    (h : ¬ (sys_env_set_pgfault_upcall s envid func).1 < 0) :
    (sys_env_set_pgfault_upcall s envid func).2.curenv = s.curenv
    ∧ (sys_env_set_pgfault_upcall s envid func).2.envs.length = s.envs.length
    ∧ (∀ j, (getEnv (sys_env_set_pgfault_upcall s envid func).2 j).env_pgdir
          = (getEnv s j).env_pgdir
        ∧ (getEnv (sys_env_set_pgfault_upcall s envid func).2 j).env_status
          = (getEnv s j).env_status)
    ∧ (∀ id cp, envid2env (sys_env_set_pgfault_upcall s envid func).2 id cp = envid2env s id cp)
    ∧ (sys_env_set_pgfault_upcall s envid func).2.mem = s.mem := by
  unfold sys_env_set_pgfault_upcall at h ⊢
  cases h1 : envid2env s envid true with
  | none =>
    rw [h1] at h
    exact absurd negE_BAD_ENV h
  | some task =>
    dsimp only
    have he : (setEnv s task { getEnv s task with env_pgfault_upcall := func }).envs
        = s.envs.set task { getEnv s task with env_pgfault_upcall := func } := rfl
    refine ⟨rfl, by simp [setEnv], fun j => ?_,
      fun id cp => envid2env_set_congr s _ task _ he rfl rfl rfl rfl id cp, rfl⟩
    rcases getEnv_of_set s _ task _ he j with g | ⟨g1, _, g3⟩
    · rw [g]
      exact ⟨rfl, rfl⟩
    · rw [g3, g1]
      exact ⟨rfl, rfl⟩

/-- A `sys_env_set_status` that does not fail changes nothing but the status of the environment
named. -/
theorem sys_env_set_status_inv (s : State) (envid status : Nat)
    (hcur : s.curenv < s.envs.length)
    (h : ¬ (sys_env_set_status s envid status).1 < 0) :
    ∃ task, envid2env s envid true = some task
      ∧ (sys_env_set_status s envid status).2.curenv = s.curenv
      ∧ (∀ j, (getEnv (sys_env_set_status s envid status).2 j).env_pgdir = (getEnv s j).env_pgdir)
      ∧ (getEnv (sys_env_set_status s envid status).2 task).env_status = status
      ∧ (sys_env_set_status s envid status).2.mem = s.mem := by
  unfold sys_env_set_status at h ⊢
  cases h1 : envid2env s envid true with
  | none =>
    rw [h1] at h
    exact absurd negE_BAD_ENV h
  | some task =>
    rw [h1] at h
    dsimp only at h ⊢
    by_cases c : status ≠ ENV_FREE ∧ status ≠ ENV_RUNNABLE ∧ status ≠ ENV_NOT_RUNNABLE
    · rw [if_pos c] at h
      exact absurd negE_INVAL h
    rw [if_neg c]
    have htask := envid2env_lt s envid task true hcur h1
    have he : (setEnv s task { getEnv s task with env_status := status }).envs
        = s.envs.set task { getEnv s task with env_status := status } := rfl
    refine ⟨task, rfl, rfl, fun j => ?_, ?_, rfl⟩
    · rcases getEnv_of_set s _ task _ he j with g | ⟨g1, _, g3⟩
      · rw [g]
      · rw [g3, g1]
    · rw [getEnv_eq_of_set s _ task _ he htask]

theorem fork_scan_skip (envid : Nat) (s : State) (calls : List Nat) (m : Nat) :
    ∀ n, m ≤ n →
      (∀ pn, m ≤ pn → pn < n → ¬ (vpd s (pn >>> 10) &&& PTE_P ≠ 0 ∧ vpt s pn &&& PTE_P ≠ 0)) →
      fork_scan envid n s calls = fork_scan envid m s calls := by
  intro n
  induction n with
  | zero =>
    intro hm _
    have : m = 0 := by omega
    rw [this]
  | succ n ih =>
    intro hm hab
    by_cases hmn : m = n + 1
    · rw [hmn]
    · rw [← ih (by omega) (fun pn h1 h2 => hab pn h1 (by omega))]
      conv => lhs; unfold fork_scan
      rw [if_neg (hab n (by omega) (by omega))]

theorem fork_scan_step (envid : Nat) (s s1 : State) (calls : List Nat) (n : Nat) (v : Int)
    (hp : vpd s (n >>> 10) &&& PTE_P ≠ 0 ∧ vpt s n &&& PTE_P ≠ 0)
    (hd : duppage s envid n = .ret v s1) :
    fork_scan envid (n + 1) s calls = fork_scan envid n s1 (calls ++ [n]) := by
  conv => lhs; unfold fork_scan
  rw [if_pos hp, hd]

/-- The parent branch of `fork` after a scan that finished, when its three system calls
succeed. -/
theorem fork_parent_of_scan (s : State) (envid upcall : Nat) (v0 : Int) (s1 : State)
    (calls : List Nat)
    (hscan : fork_scan envid (UTOP / PGSIZE - 1) s [] = (.ret v0 s1, calls))
    (c1 : ¬ (sys_page_alloc s1 envid (UXSTACKTOP - PGSIZE) (PTE_W ||| PTE_U ||| PTE_P)).1 < 0)
    (c2 : ¬ (sys_env_set_pgfault_upcall (sys_page_alloc s1 envid (UXSTACKTOP - PGSIZE)
        (PTE_W ||| PTE_U ||| PTE_P)).2 envid upcall).1 < 0)
    (c3 : ¬ (sys_env_set_status (sys_env_set_pgfault_upcall (sys_page_alloc s1 envid
        (UXSTACKTOP - PGSIZE) (PTE_W ||| PTE_U ||| PTE_P)).2 envid upcall).2 envid
        ENV_RUNNABLE).1 < 0) :
    fork_parent s envid upcall
      = (.ret (toInt32 envid) (sys_env_set_status (sys_env_set_pgfault_upcall (sys_page_alloc s1
          envid (UXSTACKTOP - PGSIZE) (PTE_W ||| PTE_U ||| PTE_P)).2 envid upcall).2 envid
          ENV_RUNNABLE).2, calls) := by
  unfold fork_parent
  rw [hscan]
  simp only []
  rw [if_neg c1, if_neg c2, if_neg c3]

/-! ## Lemmas: the copy-on-write handler -/

theorem page_remove_mem (s : State) (i va : Nat) : (page_remove s i va).mem = s.mem := by
  unfold page_remove
  simp only [setEnv]
  rw [unref_mapped_mem]

/-- A `sys_page_unmap` that does not fail. -/
theorem sys_page_unmap_inv (s : State) (envid va : Nat)
    (hcur : s.curenv < s.envs.length)
    (h : ¬ (sys_page_unmap s envid va).1 < 0) :
    ∃ task, envid2env s envid true = some task ∧ task < s.envs.length
      ∧ (va < UTOP ∧ va % PGSIZE = 0)
      ∧ (sys_page_unmap s envid va).1 = 0
      ∧ OnlyPgdirOf s (sys_page_unmap s envid va).2 task
      ∧ fmGet (getEnv (sys_page_unmap s envid va).2 task).env_pgdir.ptes (PGNUM va) = none
      ∧ (∀ k, k ≠ PGNUM va →
          fmGet (getEnv (sys_page_unmap s envid va).2 task).env_pgdir.ptes k
            = fmGet (getEnv s task).env_pgdir.ptes k)
      ∧ (sys_page_unmap s envid va).2.mem = s.mem := by
  unfold sys_page_unmap at h ⊢
  cases h1 : envid2env s envid true with
  | none =>
    rw [h1] at h
    exact absurd negE_BAD_ENV h
  | some task =>
    rw [h1] at h
    dsimp only at h ⊢
    by_cases c : va ≥ UTOP ∨ va ≠ ROUNDDOWN va PGSIZE
    · rw [if_pos c] at h
      exact absurd negE_INVAL h
    rw [if_neg c]
    have htask := envid2env_lt s envid task true hcur h1
    obtain ⟨pd, e1, e2, _, e4, e5⟩ := page_remove_spec s task va
    obtain ⟨o1, o2⟩ := onlyPgdirOf_of_set s _ task pd e1 e2 htask
    refine ⟨task, rfl, htask, (vaAccepted_iff va).1 c, rfl, o1, ?_, ?_, page_remove_mem s task va⟩
    · show fmGet (getEnv (page_remove s task va) task).env_pgdir.ptes (PGNUM va) = none
      rw [o2]
      exact e4
    · intro k hk
      show fmGet (getEnv (page_remove s task va) task).env_pgdir.ptes k = _
      rw [o2]
      exact e5 k hk

theorem memmove_inv (s s2 : State) (dst src n : Nat) (h : memmove s dst src n = some s2) :
    s2 = { s with mem := (copyout s (curEnv s) dst
      ((List.range n).map fun k => readByte s (curEnv s) (src + k))).mem } := by
  unfold memmove at h
  split at h
  · exact (Option.some.inj h).symm
  · cases h

theorem getD_map_range (f : Nat → Nat) (n k : Nat) (h : k < n) :
    ((List.range n).map f).getD k 0 = f k := by
  simp [List.getD_eq_getElem?_getD, h]

theorem rounddown_page (a k : Nat) (hk : k < PGSIZE) :
    PGNUM (ROUNDDOWN a PGSIZE + k) = PGNUM a ∧ (ROUNDDOWN a PGSIZE + k) % PGSIZE = k
      ∧ PGNUM (ROUNDDOWN a PGSIZE) = PGNUM a := by
  unfold PGNUM ROUNDDOWN PGSIZE at *
  omega

theorem pftemp_page (k : Nat) (hk : k < PGSIZE) :
    PGNUM (PFTEMP + k) = PGNUM PFTEMP ∧ PFTEMP % PGSIZE = 0 := by
  unfold PGNUM PFTEMP UTEMP PTSIZE PGSIZE at *
  omega

/-- A `pgfault` that returns, for a fault outside the page at `PFTEMP`: the faulting page is
mapped to the frame that headed the free list, writable, with the bytes of the frame mapped
before; `PFTEMP` is unmapped; nothing else changed. -/
theorem pgfault_ret (s t : State) (utf : UTrapframe) (v : Int) (old : Pte)
    (hcur : s.curenv < s.envs.length)
    (hold : fmGet (curEnv s).env_pgdir.ptes (PGNUM utf.utf_fault_va) = some old)
    (hne : PGNUM utf.utf_fault_va ≠ PGNUM PFTEMP)
    (h : pgfault s utf = .ret v t) :
    v = 0 ∧ ∃ new rest, s.page_free_list = new :: rest
      ∧ t.curenv = s.curenv
      ∧ fmGet (curEnv t).env_pgdir.ptes (PGNUM utf.utf_fault_va)
          = some ⟨new, PTE_U ||| PTE_W ||| PTE_P⟩
      ∧ fmGet (curEnv t).env_pgdir.ptes (PGNUM PFTEMP) = none
      ∧ (∀ k, k ≠ PGNUM utf.utf_fault_va → k ≠ PGNUM PFTEMP →
          fmGet (curEnv t).env_pgdir.ptes k = fmGet (curEnv s).env_pgdir.ptes k)
      ∧ (∀ j, j ≠ s.curenv → getEnv t j = getEnv s j)
      ∧ (new ≠ old.frame → ∀ off, off < PGSIZE →
          physByte t (new * PGSIZE + off) = physByte s (old.frame * PGSIZE + off))
      ∧ (∀ pa, pa / PGSIZE ≠ new → physByte t pa = physByte s pa) := by
  unfold pgfault at h
  simp only [] at h
  by_cases c0 : ¬ (utf.utf_err &&& FEC_WR ≠ 0 ∧ vpt s (PGNUM utf.utf_fault_va) &&& PTE_COW ≠ 0)
  · rw [if_pos c0] at h
    cases h
  rw [if_neg c0] at h
  obtain ⟨r1, hr1⟩ : ∃ r1, r1 = sys_page_alloc s 0 PFTEMP (PTE_U ||| PTE_W ||| PTE_P) := ⟨_, rfl⟩
  rw [← hr1] at h
  by_cases c1 : r1.1 < 0
  · rw [if_pos c1] at h
    cases h
  rw [if_neg c1] at h
  cases hmm : memmove r1.2 PFTEMP (ROUNDDOWN utf.utf_fault_va PGSIZE) PGSIZE with
  | none =>
    rw [hmm] at h
    cases h
  | some s2 =>
    rw [hmm] at h
    simp only [] at h
    obtain ⟨r2, hr2⟩ : ∃ r2, r2 = sys_page_map s2 0 PFTEMP 0 (ROUNDDOWN utf.utf_fault_va PGSIZE)
        (PTE_U ||| PTE_W ||| PTE_P) := ⟨_, rfl⟩
    rw [← hr2] at h
    by_cases c2 : r2.1 < 0
    · rw [if_pos c2] at h
      cases h
    rw [if_neg c2] at h
    obtain ⟨r3, hr3⟩ : ∃ r3, r3 = sys_page_unmap r2.2 0 PFTEMP := ⟨_, rfl⟩
    rw [← hr3] at h
    by_cases c3 : r3.1 < 0
    · rw [if_pos c3] at h
      cases h
    rw [if_neg c3] at h
    simp only [UserOutcome.ret.injEq] at h
    obtain ⟨hv, ht⟩ := h
    -- the allocation
    rw [hr1] at c1
    obtain ⟨task, new, rest, p1, _, p3, _, _, p6, p7, p8, _, p10⟩ :=
      sys_page_alloc_inv s 0 PFTEMP _ hcur c1
    rw [← hr1] at p6 p7 p8 p10
    rw [envid2env_zero] at p1
    have htask : task = s.curenv := (Option.some.inj p1).symm
    subst htask
    obtain ⟨q1, q2, q3, _, _⟩ := p6
    have hce1 : curEnv r1.2 = getEnv r1.2 s.curenv := by
      unfold curEnv
      rw [q1]
    -- the copy
    have hs2 := memmove_inv _ _ _ _ _ hmm
    have f1 : s2.envs = r1.2.envs := by rw [hs2]
    have f2 : s2.curenv = r1.2.curenv := by rw [hs2]
    have f3 : ∀ pa, physByte s2 pa = physByte (copyout r1.2 (curEnv r1.2) PFTEMP
        ((List.range PGSIZE).map fun k =>
          readByte r1.2 (curEnv r1.2) (ROUNDDOWN utf.utf_fault_va PGSIZE + k))) pa := by
      intro pa
      rw [hs2]
      unfold physByte
      dsimp only
    have hlen : ((List.range PGSIZE).map fun k =>
        readByte r1.2 (curEnv r1.2) (ROUNDDOWN utf.utf_fault_va PGSIZE + k)).length = PGSIZE := by
      simp
    obtain ⟨m1, m2⟩ := copyout_phys (curEnv r1.2) ⟨new, PTE_U ||| PTE_W ||| PTE_P⟩
      ((List.range PGSIZE).map fun k =>
        readByte r1.2 (curEnv r1.2) (ROUNDDOWN utf.utf_fault_va PGSIZE + k)) r1.2 PFTEMP
      (by
        intro k hk
        rw [hlen] at hk
        unfold page_lookup
        rw [(pftemp_page k hk).1, hce1]
        exact p7)
      (by
        rw [hlen, (pftemp_page 0 (by decide)).2]
        omega)
    rw [hlen, (pftemp_page 0 (by decide)).2, Nat.add_zero] at m1 m2
    dsimp only at m1 m2
    have hg2 : ∀ j, getEnv s2 j = getEnv r1.2 j := fun j => getEnv_congr _ _ j f1
    have hcur2 : s2.curenv < s2.envs.length := by
      rw [f2, f1, q1, q2]
      exact hcur
    -- the remapping
    rw [hr2] at c2
    obtain ⟨src, dst, pte, a1, a2, _, _, _, a6, _, _, a9, a10, a11, a12, _⟩ :=
      sys_page_map_inv s2 0 PFTEMP 0 _ _ hcur2 c2
    rw [← hr2] at a9 a10 a11 a12
    rw [envid2env_zero, f2, q1] at a1 a2
    have hsrc : src = s.curenv := (Option.some.inj a1).symm
    have hdst : dst = s.curenv := (Option.some.inj a2).symm
    subst hsrc
    subst hdst
    obtain ⟨b1, b2, b3, _, _⟩ := a9
    have hpte : pte = ⟨new, PTE_U ||| PTE_W ||| PTE_P⟩ := by
      unfold page_lookup at a6
      rw [hg2, p7] at a6
      exact (Option.some.inj a6).symm
    subst hpte
    rw [(rounddown_page utf.utf_fault_va 0 (by decide)).2.2] at a11 a12
    have hcur3 : r2.2.curenv < r2.2.envs.length := by
      rw [b1, b2]
      exact hcur2
    -- the unmapping
    rw [hr3] at c3
    obtain ⟨task3, u1, _, _, _, u5, u6, u7, u8⟩ := sys_page_unmap_inv r2.2 0 PFTEMP hcur3 c3
    rw [← hr3, ht] at u5 u6 u7 u8
    rw [envid2env_zero, b1, f2, q1] at u1
    have ht3 : task3 = s.curenv := (Option.some.inj u1).symm
    subst ht3
    obtain ⟨d1, d2, d3, _, _⟩ := u5
    have hct : curEnv t = getEnv t s.curenv := by
      unfold curEnv
      rw [d1, b1, f2, q1]
    have hcs : curEnv s = getEnv s s.curenv := rfl
    have hmem : ∀ pa, physByte t pa = physByte s2 pa := by
      intro pa
      unfold physByte
      rw [u8, a10]
    refine ⟨hv.symm, new, rest, p3, by rw [d1, b1, f2, q1], ?_, ?_, ?_, ?_, ?_, ?_⟩
    · rw [hct, u7 _ hne]
      exact a11
    · rw [hct]
      exact u6
    · intro k hk1 hk2
      rw [hct, hcs, u7 k hk2, a12 k hk1, hg2, p8 k hk2]
    · intro j hj
      rw [d3 j hj, b3 j hj, hg2, q3 j hj]
    · intro hnew off hoff
      rw [hmem, f3, m1 off hoff, getD_map_range _ _ _ hoff]
      unfold readByte page_lookup
      obtain ⟨e1, e2, _⟩ := rounddown_page utf.utf_fault_va off hoff
      rw [e1, e2, hce1, p8 _ hne]
      rw [hcs] at hold
      rw [hold]
      simp only []
      have hp := p10 (old.frame * PGSIZE + off)
      rw [if_neg (by
        unfold PGSIZE at hoff ⊢
        omega)] at hp
      exact hp
    · intro pa hpa
      rw [hmem, f3, m2 pa (by
        intro k hk
        unfold PGSIZE at hk hpa ⊢
        omega), p10, if_neg hpa]

/-! ## Lemmas: user-level spawn -/

theorem user_mem_check_first_unmapped (e : Env) (va len perm : Nat) (hlen : 0 < len)
    (h : fmGet e.env_pgdir.ptes (va / PGSIZE) = none) : user_mem_check e va len perm = false := by
  rw [Bool.eq_false_iff]
  intro hall
  unfold user_mem_check at hall
  rw [List.all_eq_true] at hall
  have h0 := hall 0 (List.mem_range.2 (by
    unfold PGSIZE
    omega))
  rw [Nat.add_zero, h] at h0
  cases h0

/-! ## Lemmas: the argument page of `init_stack` -/

theorem user_mem_check_utemp (e : Env) (va len f : Nat) (hlen : 0 < len)
    (hva : UTEMP ≤ va) (hend : va + len ≤ UTEMP + PGSIZE)
    (hP : fmGet e.env_pgdir.ptes (PGNUM UTEMP) = some ⟨f, PTE_P ||| PTE_U ||| PTE_W⟩) :
    user_mem_check e va len (PTE_P ||| PTE_U ||| PTE_W) = true := by
  unfold user_mem_check
  have hc : (va + len + PGSIZE - 1) / PGSIZE - va / PGSIZE = 1 := by
    unfold UTEMP PTSIZE PGSIZE at *
    omega
  have hk : va / PGSIZE + 0 = PGNUM UTEMP := by
    unfold PGNUM UTEMP PTSIZE PGSIZE at *
    omega
  rw [hc, show List.range 1 = [0] from rfl]
  simp only [List.all_cons, List.all_nil, Bool.and_true]
  rw [hk, hP]
  dsimp only
  decide

/-- A store inside the page mapped at `UTEMP` goes through and changes the bytes stored, and no
other byte of the page. -/
theorem user_store_page (s : State) (va : Nat) (bs : List Nat) (f : Nat)
    (hP : fmGet (curEnv s).env_pgdir.ptes (PGNUM UTEMP) = some ⟨f, PTE_P ||| PTE_U ||| PTE_W⟩)
    (hva : UTEMP ≤ va) (hend : va + bs.length ≤ UTEMP + PGSIZE) :
    ∃ s2, user_store s va bs = some s2 ∧ s2.envs = s.envs ∧ s2.curenv = s.curenv
      ∧ ∀ a, UTEMP ≤ a → a < UTEMP + PGSIZE →
          pageByte s2 f a
            = if va ≤ a ∧ a < va + bs.length then bs.getD (a - va) 0 else pageByte s f a := by
  by_cases h0 : bs.length = 0
  · refine ⟨s, ?_, rfl, rfl, fun a _ _ => ?_⟩
    · unfold user_store
      rw [if_pos h0]
    · rw [if_neg (by omega)]
  · refine ⟨{ s with mem := (copyout s (curEnv s) va bs).mem }, ?_, rfl, rfl, fun a ha1 ha2 => ?_⟩
    · unfold user_store
      rw [if_neg h0, if_pos (user_mem_check_utemp _ va bs.length f (by omega) hva hend hP)]
    · have hmod : ∀ x, UTEMP ≤ x → x < UTEMP + PGSIZE → x % PGSIZE = x - UTEMP := by
        intro x h1 h2
        unfold UTEMP PTSIZE PGSIZE at *
        omega
      obtain ⟨m1, m2⟩ := copyout_phys (curEnv s) ⟨f, PTE_P ||| PTE_U ||| PTE_W⟩ bs s va
        (by
          intro k hk
          unfold page_lookup
          have : PGNUM (va + k) = PGNUM UTEMP := by
            unfold PGNUM UTEMP PTSIZE PGSIZE at *
            omega
          rw [this]
          exact hP)
        (by
          rw [hmod va hva (by omega)]
          omega)
      dsimp only at m1 m2
      rw [hmod va hva (by omega)] at m1 m2
      have hpb : ∀ pa, physByte { s with mem := (copyout s (curEnv s) va bs).mem } pa
          = physByte (copyout s (curEnv s) va bs) pa := fun pa => rfl
      unfold pageByte
      rw [hpb]
      by_cases hin : va ≤ a ∧ a < va + bs.length
      · rw [if_pos hin]
        have e : f * PGSIZE + (a - UTEMP) = f * PGSIZE + (va - UTEMP) + (a - va) := by omega
        rw [e]
        exact m1 (a - va) (by omega)
      · rw [if_neg hin]
        apply m2
        intro k hk
        omega

theorem string_size_foldl (argv : List (List Nat)) (acc : Nat)
    (h : acc + argv_bytes argv < 2 ^ 32) :
    argv.foldl (fun acc str => add32 acc (add32 str.length 1)) acc = acc + argv_bytes argv := by
  induction argv generalizing acc with
  | nil => simp [argv_bytes]
  | cons str rest ih =>
    have hb : argv_bytes (str :: rest) = str.length + 1 + argv_bytes rest := by
      simp [argv_bytes]
    rw [hb] at h ⊢
    simp only [List.foldl_cons]
    have h1 : add32 acc (add32 str.length 1) = acc + (str.length + 1) := by
      unfold add32
      omega
    rw [h1, ih _ (by omega)]
    omega

theorem string_size_eq (argv : List (List Nat)) (h : argv_bytes argv < 2 ^ 32) :
    string_size argv = argv_bytes argv := by
  unfold string_size
  rw [string_size_foldl argv 0 (by omega)]
  omega

theorem argv_bytes_cons (str : List Nat) (rest : List (List Nat)) :
    argv_bytes (str :: rest) = str.length + 1 + argv_bytes rest := by
  simp [argv_bytes]

/-- The copy loop of `init_stack`, run on a page mapped at `UTEMP`, when the pointer array
`[ap, ap + 4n)` lies below the strings `[ss, ss + bytes)` and both lie in the page: every store
goes through, the rest of the page is untouched, and for each argument the array holds the
child-side address of a NUL-terminated copy. -/
theorem copy_loop_page (f : Nat) (strs : List (List Nat)) :
    ∀ (ss ap : Nat) (s : State) (tail : List (Nat × List Nat)),
      fmGet (curEnv s).env_pgdir.ptes (PGNUM UTEMP) = some ⟨f, PTE_P ||| PTE_U ||| PTE_W⟩ →
      UTEMP ≤ ap → ap + 4 * strs.length ≤ ss → ss + argv_bytes strs ≤ UTEMP + PGSIZE →
      ∃ s2, perform_stores s (copy_loop_stores strs ss ap ++ tail) = perform_stores s2 tail
        ∧ s2.envs = s.envs ∧ s2.curenv = s.curenv
        ∧ (∀ a, UTEMP ≤ a → a < UTEMP + PGSIZE → ¬ (ap ≤ a ∧ a < ap + 4 * strs.length) →
            ¬ (ss ≤ a ∧ a < ss + argv_bytes strs) → pageByte s2 f a = pageByte s f a)
        ∧ (∀ i str, strs.get? i = some str →
            ∃ a, ss ≤ a ∧ a + str.length + 1 ≤ ss + argv_bytes strs
              ∧ (∀ k, k < 4 →
                  pageByte s2 f (ap + 4 * i + k) = (word_bytes (UTEMP2USTACK a)).getD k 0)
              ∧ (∀ j, j < str.length → pageByte s2 f (a + j) = str.getD j 0)
              ∧ pageByte s2 f (a + str.length) = 0) := by
  induction strs with
  | nil =>
    intro ss ap s tail _ _ _ _
    refine ⟨s, rfl, rfl, rfl, fun _ _ _ _ _ => rfl, fun i str hi => ?_⟩
    simp at hi
  | cons str rest ih =>
    intro ss ap s tail hP hap hord hend
    have hb := argv_bytes_cons str rest
    have hl : (str :: rest).length = rest.length + 1 := rfl
    rw [hb] at hend
    rw [hl] at hord
    have htop : UTEMP + PGSIZE < 2 ^ 32 := by decide
    obtain ⟨sa, ua, ea1, ea2, pa⟩ := user_store_page s ss str f hP (by omega) (by omega)
    have hPa : fmGet (curEnv sa).env_pgdir.ptes (PGNUM UTEMP)
        = some ⟨f, PTE_P ||| PTE_U ||| PTE_W⟩ := by
      rw [curEnv_congr s sa ea1 ea2]
      exact hP
    obtain ⟨sb, ub, eb1, eb2, pb⟩ := user_store_page sa (ss + str.length) [0] f hPa (by omega)
      (by
        show ss + str.length + 1 ≤ UTEMP + PGSIZE
        omega)
    have hPb : fmGet (curEnv sb).env_pgdir.ptes (PGNUM UTEMP)
        = some ⟨f, PTE_P ||| PTE_U ||| PTE_W⟩ := by
      rw [curEnv_congr sa sb eb1 eb2]
      exact hPa
    obtain ⟨sc, uc, ec1, ec2, pc⟩ := user_store_page sb ap (word_bytes (UTEMP2USTACK ss)) f hPb hap
      (by
        show ap + 4 ≤ UTEMP + PGSIZE
        omega)
    have hPc : fmGet (curEnv sc).env_pgdir.ptes (PGNUM UTEMP)
        = some ⟨f, PTE_P ||| PTE_U ||| PTE_W⟩ := by
      rw [curEnv_congr sb sc ec1 ec2]
      exact hPb
    have hlen0 : ([0] : List Nat).length = 1 := rfl
    have hlen4 : (word_bytes (UTEMP2USTACK ss)).length = 4 := rfl
    rw [hlen0] at pb
    rw [hlen4] at pc
    obtain ⟨s2, q1, q2, q3, q4, q5⟩ := ih (ss + str.length + 1) (ap + 4) sc tail hPc (by omega)
      (by omega) (by omega)
    have e1 : add32 ss str.length = ss + str.length := by
      unfold add32
      omega
    have e2 : add32 ss (add32 str.length 1) = ss + str.length + 1 := by
      unfold add32
      omega
    have e3 : add32 ap 4 = ap + 4 := by
      unfold add32
      omega
    refine ⟨s2, ?_, by rw [q2, ec1, eb1, ea1], by rw [q3, ec2, eb2, ea2], ?_, ?_⟩
    · rw [← q1]
      simp only [copy_loop_stores, List.cons_append, perform_stores, e1, e2, e3, ua, ub, uc]
      rfl
    · intro a h1 h2 h3 h4
      rw [hl] at h3
      rw [hb] at h4
      rw [q4 a h1 h2 (by omega) (by omega), pc a h1 h2, if_neg (by omega), pb a h1 h2,
        if_neg (by omega), pa a h1 h2, if_neg (by omega)]
    · intro i str1 hi
      cases i with
      | zero =>
        simp only [List.get?_cons_zero, Option.some.injEq] at hi
        subst hi
        refine ⟨ss, Nat.le_refl _, by rw [hb]; omega, fun k hk => ?_, fun j hj => ?_, ?_⟩
        · rw [q4 _ (by omega) (by omega) (by omega) (by omega), pc _ (by omega) (by omega),
            if_pos (by omega), show ap + 4 * 0 + k - ap = k by omega]
        · rw [q4 _ (by omega) (by omega) (by omega) (by omega), pc _ (by omega) (by omega),
            if_neg (by omega), pb _ (by omega) (by omega), if_neg (by omega),
            pa _ (by omega) (by omega), if_pos (by omega), show ss + j - ss = j by omega]
        · rw [q4 _ (by omega) (by omega) (by omega) (by omega), pc _ (by omega) (by omega),
            if_neg (by omega), pb _ (by omega) (by omega), if_pos (by omega)]
          have : ss + str.length - (ss + str.length) = 0 := by omega
          rw [this]
          rfl
      | succ i =>
        simp only [List.get?_cons_succ] at hi
        obtain ⟨a, a1, a2, a3, a4, a5⟩ := q5 i str1 hi
        refine ⟨a, by omega, by rw [hb]; omega, fun k hk => ?_, a4, a5⟩
        have := a3 k hk
        rw [show ap + 4 * (i + 1) + k = ap + 4 + 4 * i + k by omega]
        exact this

/-- The layout `init_stack` computes for arguments that fit: no 32-bit operation wraps. -/
theorem init_stack_layout (argv : List (List Nat)) (hfit : argv_fits argv) :
    ∃ ss as, string_store0 argv = ss ∧ argv_store0 argv = as
      ∧ ss + argv_bytes argv = UTEMP + PGSIZE
      ∧ UTEMP + 8 ≤ as ∧ as % 4 = 0 ∧ as + 4 * (argv.length + 1) ≤ ss
      ∧ sub32 as 8 = as - 8 ∧ sub32 as 4 = as - 4
      ∧ add32 as (4 * argv.length % 2 ^ 32) = as + 4 * argv.length
      ∧ argv.length < 2 ^ 32 := by
  obtain ⟨h1, h2⟩ := hfit
  have hs := string_size_eq argv (by
    unfold PGSIZE at h1
    omega)
  refine ⟨UTEMP + PGSIZE - argv_bytes argv,
    ROUNDDOWN (UTEMP + PGSIZE - argv_bytes argv) 4 - 4 * (argv.length + 1), ?_, ?_, ?_, ?_, ?_, ?_,
    ?_, ?_, ?_, ?_⟩
  · unfold string_store0 sub32 add32
    rw [hs]
    unfold UTEMP PTSIZE PGSIZE at *
    omega
  · unfold argv_store0 string_store0 sub32 add32
    rw [hs]
    unfold ROUNDDOWN UTEMP PTSIZE PGSIZE at *
    omega
  all_goals
    simp only [sub32, add32, ROUNDDOWN, UTEMP, PTSIZE, PGSIZE] at *
    omega

/-- All the stores of `init_stack`, for arguments that fit, on a page mapped at `UTEMP`: they go
through, and the page holds `argc`, the child-side address of the pointer array, the array with
its terminating null pointer, and the NUL-terminated strings. -/
theorem init_stack_stores_page (f : Nat) (argv : List (List Nat)) (s : State)
    (hfit : argv_fits argv)
    (hP : fmGet (curEnv s).env_pgdir.ptes (PGNUM UTEMP) = some ⟨f, PTE_P ||| PTE_U ||| PTE_W⟩) :
    ∃ s2, perform_stores s (init_stack_stores argv) = (s2, true)
      ∧ s2.envs = s.envs ∧ s2.curenv = s.curenv
      ∧ (∀ k, k < 4 →
          pageByte s2 f (argv_store0 argv - 8 + k) = (word_bytes argv.length).getD k 0)
      ∧ (∀ k, k < 4 → pageByte s2 f (argv_store0 argv - 4 + k)
          = (word_bytes (UTEMP2USTACK (argv_store0 argv))).getD k 0)
      ∧ (∀ k, k < 4 →
          pageByte s2 f (argv_store0 argv + 4 * argv.length + k) = (word_bytes 0).getD k 0)
      ∧ (∀ i str, argv.get? i = some str →
          ∃ a, argv_store0 argv + 4 * (argv.length + 1) ≤ a ∧ a + str.length + 1 ≤ UTEMP + PGSIZE
            ∧ (∀ k, k < 4 → pageByte s2 f (argv_store0 argv + 4 * i + k)
                = (word_bytes (UTEMP2USTACK a)).getD k 0)
            ∧ (∀ j, j < str.length → pageByte s2 f (a + j) = str.getD j 0)
            ∧ pageByte s2 f (a + str.length) = 0) := by
  obtain ⟨ss, as, l1, l2, l3, l4, l5, l6, l7, l8, l9, l10⟩ := init_stack_layout argv hfit
  unfold init_stack_stores
  rw [l1, l2, l7, l8, l9]
  obtain ⟨s1, q1, q2, q3, q4, q5⟩ := copy_loop_page f argv ss as s
    [(as + 4 * argv.length, word_bytes 0), (as - 4, word_bytes (UTEMP2USTACK as)),
      (as - 8, word_bytes argv.length)] hP (by omega) (by omega) (by omega)
  have hP1 : fmGet (curEnv s1).env_pgdir.ptes (PGNUM UTEMP)
      = some ⟨f, PTE_P ||| PTE_U ||| PTE_W⟩ := by
    rw [curEnv_congr s s1 q2 q3]
    exact hP
  obtain ⟨s3, u3, e31, e32, p3⟩ := user_store_page s1 (as + 4 * argv.length) (word_bytes 0) f hP1
    (by omega) (by
      show as + 4 * argv.length + 4 ≤ UTEMP + PGSIZE
      omega)
  have hP3 : fmGet (curEnv s3).env_pgdir.ptes (PGNUM UTEMP)
      = some ⟨f, PTE_P ||| PTE_U ||| PTE_W⟩ := by
    rw [curEnv_congr s1 s3 e31 e32]
    exact hP1
  obtain ⟨s4, u4, e41, e42, p4⟩ := user_store_page s3 (as - 4) (word_bytes (UTEMP2USTACK as)) f hP3
    (by omega) (by
      show as - 4 + 4 ≤ UTEMP + PGSIZE
      omega)
  have hP4 : fmGet (curEnv s4).env_pgdir.ptes (PGNUM UTEMP)
      = some ⟨f, PTE_P ||| PTE_U ||| PTE_W⟩ := by
    rw [curEnv_congr s3 s4 e41 e42]
    exact hP3
  obtain ⟨s5, u5, e51, e52, p5⟩ := user_store_page s4 (as - 8) (word_bytes argv.length) f hP4
    (by omega) (by
      show as - 8 + 4 ≤ UTEMP + PGSIZE
      omega)
  have hl0 : (word_bytes 0).length = 4 := rfl
  have hl1 : (word_bytes (UTEMP2USTACK as)).length = 4 := rfl
  have hl2 : (word_bytes argv.length).length = 4 := rfl
  rw [hl0] at p3
  rw [hl1] at p4
  rw [hl2] at p5
  refine ⟨s5, ?_, by rw [e51, e41, e31, q2], by rw [e52, e42, e32, q3], fun k hk => ?_,
    fun k hk => ?_, fun k hk => ?_, fun i str hi => ?_⟩
  · rw [q1]
    simp only [perform_stores, u3, u4, u5]
  · rw [p5 _ (by omega) (by omega), if_pos (by omega),
      show as - 8 + k - (as - 8) = k by omega]
  · rw [p5 _ (by omega) (by omega), if_neg (by omega), p4 _ (by omega) (by omega),
      if_pos (by omega), show as - 4 + k - (as - 4) = k by omega]
  · rw [p5 _ (by omega) (by omega), if_neg (by omega), p4 _ (by omega) (by omega),
      if_neg (by omega), p3 _ (by omega) (by omega), if_pos (by omega),
      show as + 4 * argv.length + k - (as + 4 * argv.length) = k by omega]
  · obtain ⟨a, a1, a2, a3, a4, a5⟩ := q5 i str hi
    have hi2 : i < argv.length := by
      have := List.get?_eq_some.1 hi
      exact this.1
    refine ⟨a, by omega, by omega, fun k hk => ?_, fun j hj => ?_, ?_⟩
    · rw [p5 _ (by omega) (by omega), if_neg (by omega), p4 _ (by omega) (by omega),
        if_neg (by omega), p3 _ (by omega) (by omega), if_neg (by omega)]
      exact a3 k hk
    · rw [p5 _ (by omega) (by omega), if_neg (by omega), p4 _ (by omega) (by omega),
        if_neg (by omega), p3 _ (by omega) (by omega), if_neg (by omega)]
      exact a4 j hj
    · rw [p5 _ (by omega) (by omega), if_neg (by omega), p4 _ (by omega) (by omega),
        if_neg (by omega), p3 _ (by omega) (by omega), if_neg (by omega)]
      exact a5

theorem envid2env_congr (s t : State) (he : t.envs = s.envs) (hc : t.curenv = s.curenv)
    (envid : Nat) (cp : Bool) : envid2env t envid cp = envid2env s envid cp := by
  unfold envid2env
  rw [he, hc, curEnv_congr s t he hc]

theorem utemp2ustack_eq (a : Nat) (h1 : UTEMP ≤ a) (h2 : a ≤ UTEMP + PGSIZE) :
    UTEMP2USTACK a = a + 0xEE7FD000 := by
  unfold UTEMP2USTACK sub32 add32 USTACKTOP UTOP UTEMP PTSIZE PGSIZE at *
  omega

/-- Reading the child's stack page: the byte at the child-side address of `a` is the byte of
the page built at `UTEMP`. -/
theorem child_stack_read (t s2 : State) (e : Env) (f perm a : Nat)
    (hmap : fmGet e.env_pgdir.ptes (PGNUM (USTACKTOP - PGSIZE)) = some ⟨f, perm⟩)
    (hmem : t.mem = s2.mem) (h1 : UTEMP ≤ a) (h2 : a < UTEMP + PGSIZE) :
    readByte t e (a + 0xEE7FD000) = pageByte s2 f a := by
  have hp : PGNUM (a + 0xEE7FD000) = PGNUM (USTACKTOP - PGSIZE) := by
    unfold PGNUM USTACKTOP UTOP UTEMP PTSIZE PGSIZE at *
    omega
  have hm : (a + 0xEE7FD000) % PGSIZE = a - UTEMP := by
    unfold UTEMP PTSIZE PGSIZE at *
    omega
  unfold readByte page_lookup pageByte physByte
  rw [hp, hmap]
  dsimp only
  rw [hm, hmem]

theorem readWord_of_word (s : State) (e : Env) (va w : Nat) (hw : w < 2 ^ 32)
    (hb : ∀ k, k < 4 → readByte s e (va + k) = (word_bytes w).getD k 0) :
    readWord s e va = w := by
  have h0 := hb 0 (by omega)
  rw [Nat.add_zero] at h0
  unfold readWord
  rw [h0, hb 1 (by omega), hb 2 (by omega), hb 3 (by omega)]
  show w % 256 + 256 * (w / 256 % 256) + 65536 * (w / 65536 % 256)
    + 16777216 * (w / 16777216 % 256) = w
  omega

/-- A store that goes through ends at or below `UTOP`, and changes memory only. -/
theorem user_store_bound (s s2 : State) (va : Nat) (bs : List Nat)
    (hI : UserWritableBelowUTOP (curEnv s)) (h : user_store s va bs = some s2) :
    (bs.length = 0 ∨ va + bs.length ≤ UTOP) ∧ s2.envs = s.envs ∧ s2.curenv = s.curenv := by
  unfold user_store at h
  by_cases h0 : bs.length = 0
  · rw [if_pos h0] at h
    cases h
    exact ⟨Or.inl h0, rfl, rfl⟩
  · rw [if_neg h0] at h
    by_cases hc : user_mem_check (curEnv s) va bs.length (PTE_P ||| PTE_U ||| PTE_W) = true
    · rw [if_pos hc] at h
      cases h
      refine ⟨Or.inr ?_, rfl, rfl⟩
      unfold user_mem_check at hc
      rw [List.all_eq_true] at hc
      have hl := hc ((va + bs.length - 1) / PGSIZE - va / PGSIZE) (List.mem_range.2 (by
        unfold PGSIZE
        omega))
      have hk : va / PGSIZE + ((va + bs.length - 1) / PGSIZE - va / PGSIZE)
          = (va + bs.length - 1) / PGSIZE := by
        unfold PGSIZE
        omega
      rw [hk] at hl
      cases hg : fmGet (curEnv s).env_pgdir.ptes ((va + bs.length - 1) / PGSIZE) with
      | none =>
        rw [hg] at hl
        cases hl
      | some pte =>
        rw [hg] at hl
        dsimp only at hl
        have hm : (PTE_P ||| PTE_U ||| PTE_W) ||| PTE_P ||| PTE_U = PTE_P ||| PTE_U ||| PTE_W := by
          decide
        rw [hm] at hl
        have hb := hI _ pte hg (beq_iff_eq.1 hl)
        unfold UTOP PGSIZE at *
        omega
    · rw [if_neg hc] at h
      cases h

/-- When every store of a sequence goes through, each of them ends at or below `UTOP`. -/
theorem perform_stores_bound (l : List (Nat × List Nat)) :
    ∀ (s s2 : State), UserWritableBelowUTOP (curEnv s) → perform_stores s l = (s2, true) →
      ∀ va bs, (va, bs) ∈ l → bs.length = 0 ∨ va + bs.length ≤ UTOP := by
  induction l with
  | nil =>
    intro s s2 _ _ va bs hm
    cases hm
  | cons p rest ih =>
    intro s s2 hI h va bs hm
    obtain ⟨va0, bs0⟩ := p
    unfold perform_stores at h
    cases hu : user_store s va0 bs0 with
    | none =>
      rw [hu] at h
      cases h
    | some s1 =>
      rw [hu] at h
      dsimp only at h
      obtain ⟨b1, b2, b3⟩ := user_store_bound s s1 va0 bs0 hI hu
      rcases List.mem_cons.1 hm with e | e
      · cases e
        exact b1
      · have hI1 : UserWritableBelowUTOP (curEnv s1) := by
          rw [curEnv_congr s s1 b2 b3]
          exact hI
        exact ih s1 s2 hI1 h va bs e

theorem string_size_foldl_mod (argv : List (List Nat)) (acc : Nat) (hacc : acc < 2 ^ 32) :
    argv.foldl (fun acc str => add32 acc (add32 str.length 1)) acc
      = (acc + argv_bytes argv) % 2 ^ 32 := by
  induction argv generalizing acc with
  | nil =>
    have : argv_bytes [] = 0 := rfl
    rw [this]
    simp only [List.foldl_nil]
    omega
  | cons str rest ih =>
    rw [argv_bytes_cons]
    simp only [List.foldl_cons]
    rw [ih _ (by unfold add32; omega)]
    unfold add32
    omega

theorem string_size_mod (argv : List (List Nat)) :
    string_size argv = argv_bytes argv % 2 ^ 32 := by
  unfold string_size
  rw [string_size_foldl_mod argv 0 (by omega), Nat.zero_add]

theorem argv_length_le_bytes (argv : List (List Nat)) : argv.length ≤ argv_bytes argv := by
  induction argv with
  | nil => exact Nat.le_refl _
  | cons str rest ih =>
    rw [argv_bytes_cons, List.length_cons]
    omega

/-- When every store of the copy loop ends at or below `UTOP`, the string pointer never wraps:
the strings lie one after the other from `ss` on. -/
theorem copy_loop_no_wrap (strs : List (List Nat)) :
    ∀ (ss ap : Nat), ss < 2 ^ 32 →
      (∀ va bs, (va, bs) ∈ copy_loop_stores strs ss ap → bs.length = 0 ∨ va + bs.length ≤ UTOP) →
      ss + argv_bytes strs < 2 ^ 32 := by
  induction strs with
  | nil =>
    intro ss ap hss _
    exact hss
  | cons str rest ih =>
    intro ss ap hss hb
    rw [argv_bytes_cons]
    have h1 := hb ss str (by
      unfold copy_loop_stores
      exact List.mem_cons_self _ _)
    have h2 := hb (add32 ss str.length) [0] (by
      unfold copy_loop_stores
      exact List.mem_cons_of_mem _ (List.mem_cons_self _ _))
    have hl : ([0] : List Nat).length = 1 := rfl
    rw [hl] at h2
    have hU : UTOP = 0xeec00000 := rfl
    have e : add32 ss (add32 str.length 1) = ss + str.length + 1 := by
      unfold add32 at h2 ⊢
      omega
    have h3 := ih (add32 ss (add32 str.length 1)) (add32 ap 4) (by unfold add32; omega)
      (fun va bs hm => hb va bs (by
        unfold copy_loop_stores
        exact List.mem_cons_of_mem _ (List.mem_cons_of_mem _ (List.mem_cons_of_mem _ hm))))
    rw [e] at h3
    omega

/-- The arguments of a run of `init_stack` that passed the size check and whose stores all went
through fit in one page. -/
theorem init_stack_stores_fit (s s2 : State) (argv : List (List Nat))
    (hI : UserWritableBelowUTOP (curEnv s))
    (hchk : ¬ (sub32 (argv_store0 argv) 8 < UTEMP))
    (h : perform_stores s (init_stack_stores argv) = (s2, true)) : argv_fits argv := by
  have hb := perform_stores_bound _ s s2 hI h
  have hss : string_store0 argv < 2 ^ 32 := by
    unfold string_store0 sub32
    omega
  have hnw := copy_loop_no_wrap argv (string_store0 argv) (argv_store0 argv) hss
    (fun va bs hm => hb va bs (by
      unfold init_stack_stores
      exact List.mem_append_left _ hm))
  have hs := string_size_mod argv
  have hlen := argv_length_le_bytes argv
  have m1 := hb (sub32 (argv_store0 argv) 4) (word_bytes (UTEMP2USTACK (argv_store0 argv))) (by
    unfold init_stack_stores
    apply List.mem_append_right
    simp)
  have hl1 : (word_bytes (UTEMP2USTACK (argv_store0 argv))).length = 4 := rfl
  rw [hl1] at m1
  have m2 := hb (sub32 (argv_store0 argv) 8) (word_bytes argv.length) (by
    unfold init_stack_stores
    apply List.mem_append_right
    simp)
  have hl2 : (word_bytes argv.length).length = 4 := rfl
  rw [hl2] at m2
  unfold argv_fits
  unfold argv_store0 at hchk m1 m2
  unfold string_store0 at hchk m1 m2 hnw
  rw [hs] at hchk m1 m2 hnw
  simp only [sub32, add32, ROUNDDOWN, UTEMP, PTSIZE, PGSIZE, UTOP] at *
  omega

/-- Decoding the page built by `init_stack` through the child-side addresses: a state `t` in
which the bytes at the child's stack page are those of the page built at `UTEMP`. -/
theorem init_stack_page_decode (f : Nat) (argv : List (List Nat)) (s2 t : State) (e : Env)
    (esp : Nat) (hfit : argv_fits argv)
    (hesp : UTEMP2USTACK (sub32 (argv_store0 argv) 8) = esp)
    (rd : ∀ a, UTEMP ≤ a → a < UTEMP + PGSIZE →
      readByte t e (a + 0xEE7FD000) = pageByte s2 f a)
    (f1 : ∀ k, k < 4 →
      pageByte s2 f (argv_store0 argv - 8 + k) = (word_bytes argv.length).getD k 0)
    (f2 : ∀ k, k < 4 → pageByte s2 f (argv_store0 argv - 4 + k)
      = (word_bytes (UTEMP2USTACK (argv_store0 argv))).getD k 0)
    (f3 : ∀ k, k < 4 →
      pageByte s2 f (argv_store0 argv + 4 * argv.length + k) = (word_bytes 0).getD k 0)
    (f4 : ∀ i str, argv.get? i = some str →
      ∃ a, argv_store0 argv + 4 * (argv.length + 1) ≤ a ∧ a + str.length + 1 ≤ UTEMP + PGSIZE
        ∧ (∀ k, k < 4 → pageByte s2 f (argv_store0 argv + 4 * i + k)
            = (word_bytes (UTEMP2USTACK a)).getD k 0)
        ∧ (∀ j, j < str.length → pageByte s2 f (a + j) = str.getD j 0)
        ∧ pageByte s2 f (a + str.length) = 0) :
    esp % 4 = 0 ∧ USTACKTOP - PGSIZE ≤ esp ∧ esp < USTACKTOP
    ∧ readWord t e esp = argv.length
    ∧ readWord t e (esp + 4) = esp + 8
    ∧ (∀ i str, argv.get? i = some str →
        USTACKTOP - PGSIZE ≤ readWord t e (esp + 8 + 4 * i)
        ∧ readWord t e (esp + 8 + 4 * i) + str.length < USTACKTOP
        ∧ (∀ j, j < str.length →
            readByte t e (readWord t e (esp + 8 + 4 * i) + j) = str.getD j 0)
        ∧ readByte t e (readWord t e (esp + 8 + 4 * i) + str.length) = 0)
    ∧ readWord t e (esp + 8 + 4 * argv.length) = 0 := by
  obtain ⟨ss, as, _, l2, l3, l4, l5, l6, l7, _, _, l10⟩ := init_stack_layout argv hfit
  clear hfit
  rw [l2] at f1 f2 f3 f4
  have hU : UTEMP = 0x400000 := by decide
  have hPG : PGSIZE = 4096 := rfl
  have hTop : USTACKTOP = 0x401000 + 0xEE7FD000 := by decide
  rw [l2, l7, utemp2ustack_eq _ (by omega) (by omega)] at hesp
  rw [utemp2ustack_eq as (by omega) (by omega)] at f2
  clear l2 l7
  rw [hU, hPG] at rd l3 f4
  rw [hU] at l4
  rw [hTop, hPG]
  clear hTop
  have hw0 : readWord t e esp = argv.length := by
    apply readWord_of_word _ _ _ _ l10
    intro k hk
    rw [← hesp, show as - 8 + 0xEE7FD000 + k = (as - 8 + k) + 0xEE7FD000 by omega,
      rd _ (by omega) (by omega)]
    exact f1 k hk
  have hw1 : readWord t e (esp + 4) = esp + 8 := by
    have he : esp + 8 = as + 0xEE7FD000 := by omega
    rw [he]
    apply readWord_of_word _ _ _ _ (by omega)
    intro k hk
    rw [← hesp, show as - 8 + 0xEE7FD000 + 4 + k = (as - 4 + k) + 0xEE7FD000 by omega,
      rd _ (by omega) (by omega)]
    exact f2 k hk
  have hw2 : readWord t e (esp + 8 + 4 * argv.length) = 0 := by
    apply readWord_of_word _ _ _ _ (by omega)
    intro k hk
    rw [← hesp, show as - 8 + 0xEE7FD000 + 8 + 4 * argv.length + k
        = (as + 4 * argv.length + k) + 0xEE7FD000 by omega, rd _ (by omega) (by omega)]
    exact f3 k hk
  refine ⟨by omega, by omega, by omega, hw0, hw1, fun i str hi => ?_, hw2⟩
  obtain ⟨a, g1, g2, g3, g4, g5⟩ := f4 i str hi
  have hi2 : i < argv.length := (List.get?_eq_some.1 hi).1
  rw [utemp2ustack_eq a (by omega) (by omega)] at g3
  have hw : readWord t e (esp + 8 + 4 * i) = a + 0xEE7FD000 := by
    apply readWord_of_word _ _ _ _ (by omega)
    intro k hk
    rw [← hesp, show as - 8 + 0xEE7FD000 + 8 + 4 * i + k
        = (as + 4 * i + k) + 0xEE7FD000 by omega, rd _ (by omega) (by omega)]
    exact g3 k hk
  rw [hw]
  refine ⟨by omega, by omega, fun j hj => ?_, ?_⟩
  · rw [show a + 0xEE7FD000 + j = (a + j) + 0xEE7FD000 by omega, rd _ (by omega) (by omega)]
    exact g4 j hj
  · rw [show a + 0xEE7FD000 + str.length = (a + str.length) + 0xEE7FD000 by omega,
      rd _ (by omega) (by omega)]
    exact g5

/-! ## Lemmas: trap dispatch -/

theorem env_destroy_no_panic (s t : State) (i : Nat) : env_destroy s i ≠ .panic t := by
  unfold env_destroy
  split <;> exact fun h => by cases h

/-- No system call reaches `panic`: the dispatcher has no case for `sys_env_set_trapframe`. -/
theorem syscall_no_panic (s t : State) (syscallno a1 a2 a3 a4 a5 : Nat) :
    syscall s syscallno a1 a2 a3 a4 a5 ≠ .panic t := by
  intro h
  unfold syscall at h
  by_cases h0 : syscallno = SYS_cputs
  · rw [if_pos h0] at h
    unfold sys_cputs at h
    by_cases hc : user_mem_check (curEnv s) a1 a2 0 = true
    · rw [if_pos hc] at h
      cases h
    · rw [if_neg hc] at h
      cases hd : env_destroy s s.curenv with
      | ret v s1 =>
        rw [hd] at h
        cases h
      | noreturn s1 =>
        rw [hd] at h
        cases h
      | panic s1 => exact env_destroy_no_panic _ _ _ hd
  rw [if_neg h0] at h
  by_cases h1 : syscallno = SYS_cgetc
  · rw [if_pos h1] at h
    unfold sys_cgetc at h
    split at h <;> cases h
  rw [if_neg h1] at h
  by_cases h2 : syscallno = SYS_getenvid
  · rw [if_pos h2] at h
    cases h
  rw [if_neg h2] at h
  by_cases h3 : syscallno = SYS_env_destroy
  · rw [if_pos h3] at h
    unfold sys_env_destroy at h
    cases he : envid2env s a1 true with
    | none =>
      rw [he] at h
      cases h
    | some e =>
      rw [he] at h
      dsimp only at h
      cases hd : env_destroy s e with
      | ret v s1 =>
        rw [hd] at h
        cases h
      | noreturn s1 =>
        rw [hd] at h
        cases h
      | panic s1 => exact env_destroy_no_panic _ _ _ hd
  rw [if_neg h3] at h
  by_cases h4 : syscallno = SYS_page_alloc
  · rw [if_pos h4] at h
    cases h
  rw [if_neg h4] at h
  by_cases h5 : syscallno = SYS_page_map
  · rw [if_pos h5] at h
    cases h
  rw [if_neg h5] at h
  by_cases h6 : syscallno = SYS_page_unmap
  · rw [if_pos h6] at h
    cases h
  rw [if_neg h6] at h
  by_cases h7 : syscallno = SYS_exofork
  · rw [if_pos h7] at h
    cases h
  rw [if_neg h7] at h
  by_cases h8 : syscallno = SYS_env_set_status
  · rw [if_pos h8] at h
    cases h
  rw [if_neg h8] at h
  by_cases h9 : syscallno = SYS_env_set_pgfault_upcall
  · rw [if_pos h9] at h
    cases h
  rw [if_neg h9] at h
  by_cases h10 : syscallno = SYS_yield
  · rw [if_pos h10] at h
    cases h
  rw [if_neg h10] at h
  by_cases h11 : syscallno = SYS_phy_page
  · rw [if_pos h11] at h
    cases h
  rw [if_neg h11] at h
  by_cases h12 : syscallno = SYS_ipc_try_send
  · rw [if_pos h12] at h
    cases h
  rw [if_neg h12] at h
  by_cases h13 : syscallno = SYS_ipc_recv
  · rw [if_pos h13] at h
    unfold sys_ipc_recv at h
    split at h <;> cases h
  rw [if_neg h13] at h
  cases h

/-- A frame that arrived from user mode does not carry the kernel's code selector. -/
theorem user_cs_ne_kernel (cs : Nat) (h : cs &&& 3 = 3) : cs ≠ GD_KT := by
  intro hc
  rw [hc] at h
  exact absurd h (by decide)

/-! ## Lemmas: the page scan of `spawn` -/

/-- A call of `duppage` that returns leaves the parent's directory and its other leaf entries
as they were. -/
theorem duppage_ret_inv (s t : State) (envid pn : Nat) (v : Int)
    (hcur : s.curenv < s.envs.length) (hpn : pn < 2 ^ 20)
    (hpres : vpd s (pn >>> 10) &&& PTE_P ≠ 0 ∧ vpt s pn &&& PTE_P ≠ 0)
    (h : duppage s envid pn = .ret v t) :
    t.curenv = s.curenv ∧ t.envs.length = s.envs.length
    ∧ (∀ k, vpd t k = vpd s k)
    ∧ (∀ k, k ≠ pn → fmGet (curEnv t).env_pgdir.ptes k = fmGet (curEnv s).env_pgdir.ptes k) := by
  obtain ⟨t0, ht0⟩ := (vpd_present s (pn >>> 10)).1 hpres.1
  cases hp : fmGet (curEnv s).env_pgdir.ptes pn with
  | none =>
    have := hpres.2
    rw [vpt_of_none s pn hp] at this
    exact absurd rfl this
  | some pte =>
    by_cases hw : vpt s pn &&& PTE_W ≠ 0 ∨ vpt s pn &&& PTE_COW ≠ 0
    · obtain ⟨_, child, _, _, a3, a4, _, _, a7, a8, _⟩ :=
        duppage_cow_ret s t envid pn v pte hcur hpn hp hw h
      refine ⟨a3, a4, fun k => ?_, a7⟩
      unfold vpd
      rw [a8 t0 ht0]
    · have hpn' := duppage_not_writable s envid pn hpn (fun p hp2 => by
        rw [hp] at hp2
        cases hp2
        rw [vpt_of_some s pn pte hp PTE_W (by decide),
          vpt_of_some s pn pte hp PTE_COW (by decide)] at hw
        constructor
        · by_contra hc
          exact hw (Or.inl hc)
        · by_contra hc
          exact hw (Or.inr hc))
      rw [hpn'] at h
      cases h

/-- The library function `duppage` makes no memory access of its own that could trap. -/
theorem duppage_no_fault (s t : State) (envid pn : Nat) : duppage s envid pn ≠ .fault t := by
  intro h
  unfold duppage at h
  dsimp only at h
  split at h
  · split at h
    · cases h
    · split at h <;> cases h
  · split at h <;> cases h

theorem fork_scan_panic_step (envid : Nat) (s t : State) (calls : List Nat) (n : Nat)
    (hp : vpd s (n >>> 10) &&& PTE_P ≠ 0 ∧ vpt s n &&& PTE_P ≠ 0)
    (hd : duppage s envid n = .panic t) :
    fork_scan envid (n + 1) s calls = (.panic t, calls ++ [n]) := by
  conv => lhs; unfold fork_scan
  rw [if_pos hp, hd]

theorem fork_parent_of_panic (s t : State) (envid upcall : Nat) (calls : List Nat)
    (hscan : fork_scan envid (UTOP / PGSIZE - 1) s [] = (.panic t, calls)) :
    fork_parent s envid upcall = (.panic t, calls) := by
  unfold fork_parent
  rw [hscan]

/-- A present page with neither `PTE_W` nor `PTE_COW` below the starting point ends the scan of
`fork` in `panic`, at that page or at a page above it; no page below it is passed to
`duppage`. -/
theorem fork_scan_read_only (envid pn : Nat) (pte : Pte)
    (hp : pte.perm &&& PTE_P ≠ 0) (hw : pte.perm &&& PTE_W = 0)
    (hcow : pte.perm &&& PTE_COW = 0) (n : Nat) :
    ∀ (s : State) (calls : List Nat), s.curenv < s.envs.length → pn < n → n ≤ 2 ^ 20 →
      vpd s (pn >>> 10) &&& PTE_P ≠ 0 → fmGet (curEnv s).env_pgdir.ptes pn = some pte →
      ∃ t new, fork_scan envid n s calls = (.panic t, calls ++ new)
        ∧ ∀ k, k ∈ new → pn ≤ k := by
  induction n with
  | zero =>
    intro s calls _ h
    omega
  | succ m ih =>
    intro s calls hcur hlt hle hdir hpte
    by_cases hm : m = pn
    · subst hm
      have hpres : vpd s (m >>> 10) &&& PTE_P ≠ 0 ∧ vpt s m &&& PTE_P ≠ 0 := by
        refine ⟨hdir, ?_⟩
        rw [vpt_of_some s m pte hpte PTE_P (by decide)]
        exact hp
      have hd := duppage_not_writable s envid m (by omega) (fun p hp2 => by
        rw [hpte] at hp2
        cases hp2
        exact ⟨hw, hcow⟩)
      refine ⟨s, [m], fork_scan_panic_step envid s s calls m hpres hd, fun k hk => ?_⟩
      simp only [List.mem_singleton] at hk
      omega
    · by_cases hpres : vpd s (m >>> 10) &&& PTE_P ≠ 0 ∧ vpt s m &&& PTE_P ≠ 0
      · cases hd : duppage s envid m with
        | ret v s1 =>
          obtain ⟨b1, b2, b3, b4⟩ := duppage_ret_inv s s1 envid m v hcur (by omega) hpres hd
          obtain ⟨t, new, c1, c2⟩ := ih s1 (calls ++ [m]) (by rw [b1, b2]; exact hcur)
            (by omega) (by omega) (by rw [b3]; exact hdir)
            (by rw [b4 pn (fun h => hm h.symm)]; exact hpte)
          refine ⟨t, m :: new, ?_, fun k hk => ?_⟩
          · rw [fork_scan_step envid s s1 calls m v hpres hd, c1]
            simp
          · rw [List.mem_cons] at hk
            rcases hk with hk | hk
            · omega
            · exact c2 k hk
        | panic s1 =>
          refine ⟨s1, [m], fork_scan_panic_step envid s s1 calls m hpres hd, fun k hk => ?_⟩
          simp only [List.mem_singleton] at hk
          omega
        | fault s1 => exact absurd hd (duppage_no_fault s s1 envid m)
      · obtain ⟨t, new, c1, c2⟩ := ih s calls hcur (by omega) (by omega) hdir hpte
        refine ⟨t, new, ?_, c2⟩
        conv => lhs; unfold fork_scan
        rw [if_neg hpres]
        exact c1

/-! ## Claims -/

/-- C1 as stated fails on the return code: with `perm` containing `PTE_W` and a read-only source
entry, `sys_page_map` answers `-E_BAD_ENV` when the destination id does not resolve, and
`sys_ipc_try_send` answers `-E_BAD_ENV` for an unknown target and `-E_IPC_NOT_RECV` for a target
that is not receiving; none of these is `-E_INVAL`. -/
theorem C1_earlier_check_decides_the_code :
    page_lookup (curEnv (sampleState 5 0x900000 0x1000)).env_pgdir 0x800000 = some ⟨7, 5⟩
    ∧ 7 &&& PTE_W ≠ 0
    ∧ 5 &&& PTE_W = 0
    ∧ sys_page_map (sampleState 5 0x900000 0x1000) 0 0x800000 0x2005 0x900000 7
        = (-E_BAD_ENV, sampleState 5 0x900000 0x1000)
    ∧ sys_ipc_try_send (sampleState 5 0x900000 0x1000) 0x2005 42 0x800000 7
        = (-E_BAD_ENV, sampleState 5 0x900000 0x1000)
    ∧ sys_ipc_try_send (sampleState 5 0x900000 0x1000) 0 42 0x800000 7
        = (-E_IPC_NOT_RECV, sampleState 5 0x900000 0x1000)
    ∧ -E_BAD_ENV ≠ -E_INVAL
    ∧ -E_IPC_NOT_RECV ≠ -E_INVAL := by
  decide

/-- C1 amended (no write escalation).  Let `perm` contain `PTE_W`.  If the source entry of a
`sys_page_map` call lacks `PTE_W`, the call fails and leaves the kernel state untouched, and its
result is `-E_INVAL` as soon as both environment ids resolve; the same holds for a
`sys_ipc_try_send` with a non-null `srcva` (result `-E_INVAL` as soon as the target resolves and
is receiving, whatever destination the receiver recorded).  Consequently a call that succeeds
found `PTE_W` in the source entry. -/
theorem C1_no_write_escalation (s : State) (perm : Nat) (hW : perm &&& PTE_W ≠ 0) :
    (∀ srcenvid srcva dstenvid dstva src pte,
        envid2env s srcenvid true = some src →
        page_lookup (getEnv s src).env_pgdir srcva = some pte →
        pte.perm &&& PTE_W = 0 →
        (sys_page_map s srcenvid srcva dstenvid dstva perm).2 = s
        ∧ (sys_page_map s srcenvid srcva dstenvid dstva perm).1 < 0
        ∧ (envid2env s dstenvid true ≠ none →
            (sys_page_map s srcenvid srcva dstenvid dstva perm).1 = -E_INVAL))
    ∧ (∀ envid value srcva pte,
        srcva ≠ 0 →
        page_lookup (curEnv s).env_pgdir srcva = some pte →
        pte.perm &&& PTE_W = 0 →
        (sys_ipc_try_send s envid value srcva perm).2 = s
        ∧ (sys_ipc_try_send s envid value srcva perm).1 < 0
        ∧ (∀ t, envid2env s envid false = some t → (getEnv s t).env_ipc_recving ≠ 0 →
            (sys_ipc_try_send s envid value srcva perm).1 = -E_INVAL))
    ∧ (∀ srcenvid srcva dstenvid dstva,
        0 ≤ (sys_page_map s srcenvid srcva dstenvid dstva perm).1 →
        ∃ src pte, envid2env s srcenvid true = some src
          ∧ page_lookup (getEnv s src).env_pgdir srcva = some pte
          ∧ pte.perm &&& PTE_W ≠ 0)
    ∧ (∀ envid value srcva,
        srcva ≠ 0 →
        0 ≤ (sys_ipc_try_send s envid value srcva perm).1 →
        ∃ pte, page_lookup (curEnv s).env_pgdir srcva = some pte ∧ pte.perm &&& PTE_W ≠ 0) := by
  refine ⟨?_, ?_, ?_, ?_⟩
  · intro srcenvid srcva dstenvid dstva src pte h1 h2 h3
    rcases sys_page_map_cases s srcenvid srcva dstenvid dstva perm with h | h
    · obtain ⟨hs, h | h⟩ := h
      · refine ⟨hs, by simp [h.1, E_BAD_ENV], ?_⟩
        intro hd
        rcases h.2 with h4 | h4
        · rw [h1] at h4
          cases h4
        · exact absurd h4 hd
      · exact ⟨hs, by simp [h.1, E_INVAL], fun _ => h.1⟩
    · obtain ⟨src1, dst, pte1, e1, _, _, _, e2, _, hw, _⟩ := h
      rw [h1] at e1
      cases e1
      rw [h2] at e2
      cases e2
      exact absurd h3 (hw hW)
  · intro envid value srcva pte hsrc h2 h3
    rcases sys_ipc_try_send_cases s envid value srcva perm _ rfl with h | h | h
    · obtain ⟨hs, h⟩ := h
      refine ⟨hs, ?_, ?_⟩
      · rcases h with h | ⟨t, _, _, h⟩ | ⟨t, _, _, _, h⟩
        · simp [h.1, E_BAD_ENV]
        · simp [h, E_IPC_NOT_RECV]
        · simp [h, E_INVAL]
      · intro t ht hrecv
        rcases h with h | ⟨t1, e1, e2, _⟩ | ⟨t1, _, _, _, h⟩
        · rw [ht] at h
          cases h.2
        · rw [ht] at e1
          cases e1
          exact absurd e2 hrecv
        · exact h
    · obtain ⟨t, _, _, h0, _⟩ := h
      exact absurd h0 hsrc
    · obtain ⟨t, pte1, _, _, _, _, e2, _, hw, _⟩ := h
      rw [h2] at e2
      cases e2
      exact absurd h3 (hw hW)
  · intro srcenvid srcva dstenvid dstva hok
    rcases sys_page_map_cases s srcenvid srcva dstenvid dstva perm with h | h
    · obtain ⟨_, h | h⟩ := h
      · rw [h.1] at hok
        simp [E_BAD_ENV] at hok
      · rw [h.1] at hok
        simp [E_INVAL] at hok
    · obtain ⟨src, dst, pte, e1, _, _, _, e2, _, hw, _⟩ := h
      exact ⟨src, pte, e1, e2, hw hW⟩
  · intro envid value srcva hsrc hok
    rcases sys_ipc_try_send_cases s envid value srcva perm _ rfl with h | h | h
    · obtain ⟨_, h⟩ := h
      rcases h with h | ⟨t, _, _, h⟩ | ⟨t, _, _, _, h⟩
      · rw [h.1] at hok
        simp [E_BAD_ENV] at hok
      · rw [h] at hok
        simp [E_IPC_NOT_RECV] at hok
      · rw [h] at hok
        simp [E_INVAL] at hok
    · obtain ⟨t, _, _, h0, _⟩ := h
      exact absurd h0 hsrc
    · obtain ⟨t, pte, _, _, _, _, e2, _, hw, _⟩ := h
      exact ⟨pte, e2, hw hW⟩

/-- Witness for C1: in the sample state the sender maps 0x00800000 read-only; asking for
`PTE_W` is refused with `-E_INVAL` by `sys_page_map`, and by `sys_ipc_try_send` both when the
receiver asked for that page and when it asked for a page elsewhere. -/
theorem C1_no_write_escalation_witness :
    sys_page_map (sampleState 5 0x800000 0x1000) 0 0x800000 0x1001 0x900000 7
        = (-E_INVAL, sampleState 5 0x800000 0x1000)
    ∧ sys_ipc_try_send (sampleState 5 0x800000 0x1000) 0x1001 42 0x800000 7
        = (-E_INVAL, sampleState 5 0x800000 0x1000)
    ∧ sys_ipc_try_send (sampleState 5 0x900000 0x1000) 0x1001 42 0x800000 7
        = (-E_INVAL, sampleState 5 0x900000 0x1000) := by
  have hA := (C1_no_write_escalation (sampleState 5 0x800000 0x1000) 7 (by decide)).1
    0 0x800000 0x1001 0x900000 0 ⟨7, 5⟩ (by decide) (by decide) (by decide)
  have hB := (C1_no_write_escalation (sampleState 5 0x800000 0x1000) 7 (by decide)).2.1
    0x1001 42 0x800000 ⟨7, 5⟩ (by decide) (by decide) (by decide)
  have hC := (C1_no_write_escalation (sampleState 5 0x900000 0x1000) 7 (by decide)).2.1
    0x1001 42 0x800000 ⟨7, 5⟩ (by decide) (by decide) (by decide)
  refine ⟨Prod.ext ?_ hA.1, Prod.ext ?_ hB.1, Prod.ext ?_ hC.1⟩
  · exact hA.2.2 (by decide)
  · exact hB.2.2 1 (by decide) (by decide)
  · exact hC.2.2 1 (by decide) (by decide)

/-- C2 (permission validation), the code at the failing input `perm = 0x1000 | PTE_P | PTE_U`:
the three handlers test only the low 12 bits (`& 0xfff`), so each of them accepts this value and
installs a mapping whose permission word carries the stray bit. -/
theorem C2_perm_bit_above_low12_accepted :
    (sys_page_alloc (sampleState 7 0x800000 0x1000) 0 0xA00000 0x1005).1 = 0
    ∧ page_lookup
        (getEnv (sys_page_alloc (sampleState 7 0x800000 0x1000) 0 0xA00000 0x1005).2 0).env_pgdir
        0xA00000 = some ⟨9, 0x1005⟩
    ∧ (sys_page_map (sampleState 7 0x800000 0x1000) 0 0x800000 0x1001 0x900000 0x1005).1 = 0
    ∧ page_lookup
        (getEnv (sys_page_map (sampleState 7 0x800000 0x1000) 0 0x800000 0x1001 0x900000
          0x1005).2 1).env_pgdir
        0x900000 = some ⟨7, 0x1005⟩
    ∧ (sys_ipc_try_send (sampleState 7 0x800000 0x1000) 0x1001 42 0x800000 0x1005).1 = 1
    ∧ page_lookup
        (getEnv (sys_ipc_try_send (sampleState 7 0x800000 0x1000) 0x1001 42 0x800000
          0x1005).2 1).env_pgdir
        0x800000 = some ⟨7, 0x1005⟩ := by
  decide

theorem syscall_summary (s : State) (syscallno a1 a2 a3 a4 a5 : Nat) :
    UtopRespected s (syscall s syscallno a1 a2 a3 a4 a5).state
    ∧ (∀ v t, syscall s syscallno a1 a2 a3 a4 a5 = .ret v t → v < 0 → t.envs = s.envs) := by
  have lift : ∀ r : Int × State,
      (UtopRespected s r.2 ∧ (r.1 < 0 → r.2.envs = s.envs)) →
      (UtopRespected s (returns r).state
        ∧ (∀ v t, returns r = .ret v t → v < 0 → t.envs = s.envs)) := by
    intro r h
    refine ⟨h.1, fun v t hr hv => ?_⟩
    cases hr
    exact h.2 hv
  have same : ∀ v : Int,
      (UtopRespected s (Outcome.ret v s).state
        ∧ (∀ v1 t, Outcome.ret v s = .ret v1 t → v1 < 0 → t.envs = s.envs)) := by
    intro v
    refine ⟨utopRespected_of_eq s s rfl rfl, fun v1 t hr _ => ?_⟩
    cases hr
    rfl
  have key : ∀ o : Outcome, o = syscall s syscallno a1 a2 a3 a4 a5 →
      (UtopRespected s o.state ∧ (∀ v t, o = .ret v t → v < 0 → t.envs = s.envs)) := by
    intro o ho
    unfold syscall at ho
    by_cases h0 : syscallno = SYS_cputs
    · rw [if_pos h0] at ho
      obtain ⟨g1, g2⟩ := sys_cputs_summary s a1 a2
      cases h : sys_cputs s a1 a2 with
      | ret v1 s1 =>
        rw [h] at g1 ho
        subst ho
        refine ⟨g1, fun v t hr hv => ?_⟩
        cases hr
        simp at hv
      | noreturn s1 =>
        rw [h] at g1 ho
        subst ho
        exact ⟨g1, fun v t hr _ => by cases hr⟩
      | panic s1 =>
        rw [h] at g1 ho
        subst ho
        exact ⟨g1, fun v t hr _ => by cases hr⟩
    rw [if_neg h0] at ho
    by_cases h1 : syscallno = SYS_cgetc
    · rw [if_pos h1] at ho
      subst ho
      obtain ⟨g1, g2⟩ := sys_cgetc_summary s
      exact ⟨g1, fun v t hr _ => g2 v t hr⟩
    rw [if_neg h1] at ho
    by_cases h2 : syscallno = SYS_getenvid
    · rw [if_pos h2] at ho
      subst ho
      exact same _
    rw [if_neg h2] at ho
    by_cases h3 : syscallno = SYS_env_destroy
    · rw [if_pos h3] at ho
      subst ho
      exact sys_env_destroy_summary s a1
    rw [if_neg h3] at ho
    by_cases h4 : syscallno = SYS_page_alloc
    · rw [if_pos h4] at ho
      subst ho
      exact lift _ (sys_page_alloc_summary s a1 a2 a3)
    rw [if_neg h4] at ho
    by_cases h5 : syscallno = SYS_page_map
    · rw [if_pos h5] at ho
      subst ho
      exact lift _ (sys_page_map_summary s a1 a2 a3 a4 a5)
    rw [if_neg h5] at ho
    by_cases h6 : syscallno = SYS_page_unmap
    · rw [if_pos h6] at ho
      subst ho
      exact lift _ (sys_page_unmap_summary s a1 a2)
    rw [if_neg h6] at ho
    by_cases h7 : syscallno = SYS_exofork
    · rw [if_pos h7] at ho
      subst ho
      exact lift _ (sys_exofork_summary s)
    rw [if_neg h7] at ho
    by_cases h8 : syscallno = SYS_env_set_status
    · rw [if_pos h8] at ho
      subst ho
      exact lift _ (sys_env_set_status_summary s a1 a2)
    rw [if_neg h8] at ho
    by_cases h9 : syscallno = SYS_env_set_pgfault_upcall
    · rw [if_pos h9] at ho
      subst ho
      exact lift _ (sys_env_set_pgfault_upcall_summary s a1 a2)
    rw [if_neg h9] at ho
    by_cases h10 : syscallno = SYS_yield
    · rw [if_pos h10] at ho
      subst ho
      exact ⟨utopRespected_of_eq s s rfl rfl, fun v t hr _ => by cases hr⟩
    rw [if_neg h10] at ho
    by_cases h11 : syscallno = SYS_phy_page
    · rw [if_pos h11] at ho
      subst ho
      exact same _
    rw [if_neg h11] at ho
    by_cases h12 : syscallno = SYS_ipc_try_send
    · rw [if_pos h12] at ho
      subst ho
      exact lift _ (sys_ipc_try_send_summary s a1 a2 a3 a4)
    rw [if_neg h12] at ho
    by_cases h13 : syscallno = SYS_ipc_recv
    · rw [if_pos h13] at ho
      subst ho
      obtain ⟨g1, g2⟩ := sys_ipc_recv_summary s a1
      exact ⟨g1, fun v t hr _ => g2 v t hr⟩
    rw [if_neg h13] at ho
    subst ho
    exact same _
  exact key _ rfl

/-- C3 (UTOP invariant).  For every system-call number and argument tuple, each call of
`page_insert` or `page_remove` that `syscall` issues is at a page-aligned virtual address
strictly below `UTOP`; and every environment that is the same before and after the call (same id
in the same slot) has, at every address `≥ UTOP`, the mapping it had before. -/
theorem C3_utop_invariant (s : State) (syscallno a1 a2 a3 a4 a5 : Nat) :
    (∃ ops, (syscall s syscallno a1 a2 a3 a4 a5).state.mm_ops = s.mm_ops ++ ops
        ∧ ∀ op ∈ ops, op.va < UTOP ∧ op.va % PGSIZE = 0)
    ∧ (∀ i va, UTOP ≤ va →
        (getEnv (syscall s syscallno a1 a2 a3 a4 a5).state i).env_id = (getEnv s i).env_id →
        page_lookup (getEnv (syscall s syscallno a1 a2 a3 a4 a5).state i).env_pgdir va
          = page_lookup (getEnv s i).env_pgdir va) :=
  (syscall_summary s syscallno a1 a2 a3 a4 a5).1

/-- Witness for C3: the sample sender maps its page a second time at 0x00A00000 through the
`sys_page_map` system call; the one `page_insert` call is below `UTOP`, and the kernel page the
sender sees at `UTOP` is still mapped afterwards. -/
theorem C3_utop_invariant_witness :
    (∃ ops, (syscall (sampleState 7 0x900000 0) SYS_page_map 0 0x800000 0 0xA00000 7).state.mm_ops
          = (sampleState 7 0x900000 0).mm_ops ++ ops
        ∧ ∀ op ∈ ops, op.va < UTOP ∧ op.va % PGSIZE = 0)
    ∧ (syscall (sampleState 7 0x900000 0) SYS_page_map 0 0x800000 0 0xA00000 7).state.mm_ops
        = [⟨true, 0, 0xA00000⟩]
    ∧ UTOP ≤ UTOP
    ∧ (getEnv (syscall (sampleState 7 0x900000 0) SYS_page_map 0 0x800000 0 0xA00000 7).state
          0).env_id = (getEnv (sampleState 7 0x900000 0) 0).env_id
    ∧ page_lookup
        (getEnv (syscall (sampleState 7 0x900000 0) SYS_page_map 0 0x800000 0 0xA00000 7).state
          0).env_pgdir UTOP
        = page_lookup (getEnv (sampleState 7 0x900000 0) 0).env_pgdir UTOP
    ∧ page_lookup (getEnv (sampleState 7 0x900000 0) 0).env_pgdir UTOP = some ⟨3, 5⟩ :=
  ⟨(C3_utop_invariant (sampleState 7 0x900000 0) SYS_page_map 0 0x800000 0 0xA00000 7).1,
   by decide, by decide, by decide,
   (C3_utop_invariant (sampleState 7 0x900000 0) SYS_page_map 0 0x800000 0 0xA00000 7).2 0 UTOP
     (by decide) (by decide),
   by decide⟩

/-- C4 (capability rule).  If `envid` names an environment the caller may not change (it does
not exist, or it is neither the caller nor a child of the caller), then `sys_env_destroy`,
`sys_env_set_status`, `sys_env_set_pgfault_upcall`, `sys_page_alloc`, `sys_page_map` (with
`envid` as source or as destination), `sys_page_unmap` and `sys_phy_page` return `-E_BAD_ENV`
whatever the other arguments are, and the kernel state is unchanged.  `sys_ipc_try_send` does not
apply the permission check: when the environment exists, the send is never answered with
`-E_BAD_ENV`, and it succeeds when the environment is receiving. -/
theorem C4_capability_rule (s : State) (envid : Nat) (hden : mayChange s envid = false) :
    sys_env_destroy s envid = .ret (-E_BAD_ENV) s
    ∧ (∀ status, sys_env_set_status s envid status = (-E_BAD_ENV, s))
    ∧ (∀ func, sys_env_set_pgfault_upcall s envid func = (-E_BAD_ENV, s))
    ∧ (∀ va perm, sys_page_alloc s envid va perm = (-E_BAD_ENV, s))
    ∧ (∀ srcva other dstva perm,
        sys_page_map s envid srcva other dstva perm = (-E_BAD_ENV, s)
        ∧ sys_page_map s other srcva envid dstva perm = (-E_BAD_ENV, s))
    ∧ (∀ va, sys_page_unmap s envid va = (-E_BAD_ENV, s))
    ∧ (∀ va, sys_phy_page s envid va = -E_BAD_ENV)
    ∧ (envExists s envid = true → ∀ value srcva perm,
        (sys_ipc_try_send s envid value srcva perm).1 ≠ -E_BAD_ENV
        ∧ ((getEnv s (ENVX envid)).env_ipc_recving ≠ 0 →
            (sys_ipc_try_send s envid value 0 perm).1 = 0)) := by
  have h := envid2env_of_not_mayChange s envid hden
  refine ⟨?_, ?_, ?_, ?_, ?_, ?_, ?_, ?_⟩
  · simp [sys_env_destroy, h]
  · intro status
    simp [sys_env_set_status, h]
  · intro func
    simp [sys_env_set_pgfault_upcall, h]
  · intro va perm
    simp [sys_page_alloc, h]
  · intro srcva other dstva perm
    constructor
    · simp [sys_page_map, h]
    · unfold sys_page_map
      rw [h]
      cases envid2env s other true <;> rfl
  · intro va
    simp [sys_page_unmap, h]
  · intro va
    simp [sys_phy_page, h]
  · intro hex value srcva perm
    have h0 : envid ≠ 0 := by
      intro h0
      simp [mayChange, h0] at hden
    have ht := envid2env_of_envExists s envid h0 hex
    constructor
    · rcases sys_ipc_try_send_cases s envid value srcva perm _ rfl with h | h | h
      · obtain ⟨_, h⟩ := h
        rcases h with h | ⟨t, _, _, h⟩ | ⟨t, _, _, _, h⟩
        · rw [ht] at h
          cases h.2
        · rw [h]
          simp [E_IPC_NOT_RECV, E_BAD_ENV]
        · rw [h]
          simp [E_INVAL, E_BAD_ENV]
      · obtain ⟨t, _, _, _, h⟩ := h
        rw [h]
        simp [ipc_complete, E_BAD_ENV]
      · obtain ⟨t, pte, _, _, _, _, _, _, _, h⟩ := h
        rcases h with ⟨_, h⟩ | ⟨_, _, h⟩ | ⟨_, _, h⟩
        · rw [h]
          simp [ipc_complete, E_BAD_ENV]
        · rw [h]
          simp [E_NO_MEM, E_BAD_ENV]
        · rw [h]
          simp [ipc_complete, E_BAD_ENV]
    · intro hr
      unfold sys_ipc_try_send
      rw [ht]
      simp [hr, ipc_complete]

/-- Witness for C4: in the sample state whose receiver 0x1001 is not a child of the running
sender, the sender may not unmap a page of the receiver, but its send goes through. -/
theorem C4_capability_rule_witness :
    mayChange (sampleState 7 0x900000 0) 0x1001 = false
    ∧ envExists (sampleState 7 0x900000 0) 0x1001 = true
    ∧ sys_page_unmap (sampleState 7 0x900000 0) 0x1001 0x800000
        = (-E_BAD_ENV, sampleState 7 0x900000 0)
    ∧ (sys_ipc_try_send (sampleState 7 0x900000 0) 0x1001 42 0 0).1 = 0 :=
  ⟨by decide, by decide,
   (C4_capability_rule (sampleState 7 0x900000 0) 0x1001 (by decide)).2.2.2.2.2.1 0x800000,
   ((C4_capability_rule (sampleState 7 0x900000 0) 0x1001 (by decide)).2.2.2.2.2.2.2
      (by decide) 42 0 0).2 (by decide)⟩

/-- C5 (atomicity on error).  For every system-call number and all arguments, if `syscall`
returns a negative value then the environment table (every field of every environment: mappings,
status, saved trap frame, upcall, IPC fields) is identical to the one before the call.  In
particular a failing `sys_ipc_try_send` leaves every environment, hence the receiver's
`env_ipc_recving` and the sender's address space, unchanged. -/
theorem C5_atomicity_on_error (s : State) (syscallno a1 a2 a3 a4 a5 : Nat) :
    (∀ v t, syscall s syscallno a1 a2 a3 a4 a5 = .ret v t → v < 0 → t.envs = s.envs)
    ∧ (∀ envid value srcva perm, (sys_ipc_try_send s envid value srcva perm).1 < 0 →
        (sys_ipc_try_send s envid value srcva perm).2.envs = s.envs
        ∧ (∀ i, (getEnv (sys_ipc_try_send s envid value srcva perm).2 i).env_ipc_recving
              = (getEnv s i).env_ipc_recving)
        ∧ (curEnv (sys_ipc_try_send s envid value srcva perm).2).env_pgdir
              = (curEnv s).env_pgdir) := by
  refine ⟨(syscall_summary s syscallno a1 a2 a3 a4 a5).2, ?_⟩
  intro envid value srcva perm hneg
  have he := (sys_ipc_try_send_summary s envid value srcva perm).2 hneg
  have hc : (sys_ipc_try_send s envid value srcva perm).2.curenv = s.curenv := by
    rcases sys_ipc_try_send_cases s envid value srcva perm _ rfl with h | h | h
    · rw [h.1]
    · obtain ⟨t, _, _, _, h⟩ := h
      rw [h]
      rfl
    · obtain ⟨t, pte, _, _, _, _, _, _, _, h⟩ := h
      rcases h with ⟨_, h⟩ | ⟨_, _, h⟩ | ⟨_, _, h⟩
      · rw [h]
        rfl
      · rw [h]
        obtain ⟨pd, _, e2, _⟩ := page_insert_spec s t pte.frame srcva perm
        exact e2
      · rw [h]
        obtain ⟨pd, _, e2, _⟩ := page_insert_spec s t pte.frame srcva perm
        exact e2
  refine ⟨he, fun i => ?_, ?_⟩
  · rw [getEnv_congr s _ i he]
  · rw [curEnv_congr s _ he hc]

/-- Witness for C5: a `sys_page_map` system call that asks for write access to a read-only page
returns `-E_INVAL`, and a send when no frame is left for the receiver's page table returns
`-E_NO_MEM`; the environment table is as before in both cases. -/
theorem C5_atomicity_on_error_witness :
    syscall (sampleState 5 0x900000 0x1000) SYS_page_map 0 0x800000 0x1001 0x900000 7
        = .ret (-E_INVAL) (sampleState 5 0x900000 0x1000)
    ∧ (-E_INVAL) < 0
    ∧ (sampleState 5 0x900000 0x1000).envs = (sampleState 5 0x900000 0x1000).envs
    ∧ (sys_ipc_try_send { sampleState 7 0x800000 0 with page_free_list := [] }
          0x1001 42 0x800000 7).1 = -E_NO_MEM
    ∧ (sys_ipc_try_send { sampleState 7 0x800000 0 with page_free_list := [] }
          0x1001 42 0x800000 7).2.envs = (sampleState 7 0x800000 0).envs :=
  ⟨by decide, by decide,
   (C5_atomicity_on_error (sampleState 5 0x900000 0x1000) SYS_page_map 0 0x800000 0x1001
      0x900000 7).1 (-E_INVAL) (sampleState 5 0x900000 0x1000) (by decide) (by decide),
   by decide,
   ((C5_atomicity_on_error { sampleState 7 0x800000 0 with page_free_list := [] } 0 0 0 0 0
      0).2 0x1001 42 0x800000 7 (by decide)).1⟩

/-- C6 (IPC page delivery), the code at the failing input `srcva = 0x00800000`,
`dstva = 0x00900000`: the send succeeds with return value 1, yet the receiver has no mapping at
its `dstva` afterwards (nor at `srcva`); `page_insert` was not called at all. -/
theorem C6_page_not_delivered_when_dstva_differs :
    (sys_ipc_try_send (sampleState 7 0x900000 0x1000) 0x1001 42 0x800000 7).1 = 1
    ∧ (getEnv (sampleState 7 0x900000 0x1000) 1).env_ipc_dstva = 0x900000
    ∧ page_lookup (curEnv (sampleState 7 0x900000 0x1000)).env_pgdir 0x800000 = some ⟨7, 7⟩
    ∧ page_lookup
        (getEnv (sys_ipc_try_send (sampleState 7 0x900000 0x1000) 0x1001 42 0x800000 7).2
          1).env_pgdir 0x900000 = none
    ∧ page_lookup
        (getEnv (sys_ipc_try_send (sampleState 7 0x900000 0x1000) 0x1001 42 0x800000 7).2
          1).env_pgdir 0x800000 = none := by
  decide

/-- C7 (IPC transfer indicator), the code at two failing inputs: with `dstva ≠ srcva`, and with
a receiver that wants no page (`dstva ≥ UTOP`), a send with a non-null `srcva` returns 1 and sets
`env_ipc_perm = perm` although no mapping was inserted (no `page_insert` call, receiver's page
directory unchanged). -/
theorem C7_transfer_reported_without_mapping :
    (sys_ipc_try_send (sampleState 7 0x900000 0x1000) 0x1001 42 0x800000 7).1 = 1
    ∧ (getEnv (sys_ipc_try_send (sampleState 7 0x900000 0x1000) 0x1001 42 0x800000 7).2
          1).env_ipc_perm = 7
    ∧ (sys_ipc_try_send (sampleState 7 0x900000 0x1000) 0x1001 42 0x800000 7).2.mm_ops = []
    ∧ (getEnv (sys_ipc_try_send (sampleState 7 0x900000 0x1000) 0x1001 42 0x800000 7).2
          1).env_pgdir = (getEnv (sampleState 7 0x900000 0x1000) 1).env_pgdir
    ∧ (sys_ipc_try_send (sampleState 7 UTOP 0x1000) 0x1001 42 0x800000 7).1 = 1
    ∧ (getEnv (sys_ipc_try_send (sampleState 7 UTOP 0x1000) 0x1001 42 0x800000 7).2
          1).env_ipc_perm = 7
    ∧ (sys_ipc_try_send (sampleState 7 UTOP 0x1000) 0x1001 42 0x800000 7).2.mm_ops = []
    ∧ (getEnv (sys_ipc_try_send (sampleState 7 UTOP 0x1000) 0x1001 42 0x800000 7).2
          1).env_pgdir = (getEnv (sampleState 7 UTOP 0x1000) 1).env_pgdir := by
  decide

/-- C8 (rendezvous).  For a target that `envid` resolves to, a value-only send (`srcva = 0`)
returns 0 exactly when the target's `env_ipc_recving` flag is set, and returns
`-E_IPC_NOT_RECV` (changing nothing) when the flag is clear.  After a successful send, a second
send to the same target, whatever its arguments, returns `-E_IPC_NOT_RECV`. -/
theorem C8_rendezvous (s : State) (envid value perm t : Nat)
    (ht : envid2env s envid false = some t) :
    ((sys_ipc_try_send s envid value 0 perm).1 = 0 ↔ (getEnv s t).env_ipc_recving ≠ 0)
    ∧ ((getEnv s t).env_ipc_recving = 0 →
        sys_ipc_try_send s envid value 0 perm = (-E_IPC_NOT_RECV, s))
    ∧ ((getEnv s t).env_ipc_recving ≠ 0 → ∀ value2 srcva2 perm2,
        (sys_ipc_try_send (sys_ipc_try_send s envid value 0 perm).2 envid value2 srcva2 perm2).1
          = -E_IPC_NOT_RECV) := by
  have hfirst : (getEnv s t).env_ipc_recving ≠ 0 →
      sys_ipc_try_send s envid value 0 perm = ipc_complete s t value perm 0 := by
    intro hr
    unfold sys_ipc_try_send
    rw [ht]
    simp [hr]
  have hclear : (getEnv s t).env_ipc_recving = 0 →
      sys_ipc_try_send s envid value 0 perm = (-E_IPC_NOT_RECV, s) := by
    intro hr
    unfold sys_ipc_try_send
    rw [ht]
    simp [hr]
  refine ⟨?_, hclear, ?_⟩
  · constructor
    · intro h0 hr
      rw [hclear hr] at h0
      simp [E_IPC_NOT_RECV] at h0
    · intro hr
      rw [hfirst hr]
      rfl
  · intro hr value2 srcva2 perm2
    have hlt := recving_in_range s t hr
    obtain ⟨g1, g2, g3⟩ := ipc_complete_spec s s t value perm 0 (getEnv s t).env_pgdir hlt
      (set_envAt s.envs t).symm rfl
    rw [hfirst hr]
    have hcur : (ipc_complete s t value perm 0).2.curenv = s.curenv := rfl
    have ht2 : envid2env (ipc_complete s t value perm 0).2 envid false = some t := by
      unfold envid2env at ht ⊢
      by_cases h0 : envid = 0
      · simp only [h0, if_true] at ht ⊢
        rw [hcur]
        exact ht
      · simp only [h0, if_false] at ht ⊢
        cases hg : s.envs.get? (ENVX envid) with
        | none =>
          rw [hg] at ht
          cases ht
        | some e =>
          rw [hg] at ht
          simp only [] at ht
          split at ht
          · cases ht
          · rename_i hne
            simp only [Bool.false_eq_true, false_and, if_false, Option.some.injEq] at ht
            have he : envAt s.envs t = e := by
              rw [← ht]
              exact envAt_eq_of_get? _ _ _ hg
            have hget : (ipc_complete s t value perm 0).2.envs.get? (ENVX envid)
                = some (getEnv (ipc_complete s t value perm 0).2 t) := by
              rw [ht]
              have hl : t < (ipc_complete s t value perm 0).2.envs.length := by
                rw [g3]
                exact hlt
              simp [getEnv, envAt, List.getD_eq_getElem?_getD, List.get?_eq_getElem?,
                List.getElem?_eq_getElem hl]
            rw [hget, g1]
            simp only [ENV_RUNNABLE, ENV_FREE, getEnv, he] at hne ⊢
            simp only [not_or, not_not] at hne
            simp [hne.2, ht]
    have hz : (getEnv (ipc_complete s t value perm 0).2 t).env_ipc_recving = 0 := by
      rw [g1]
    unfold sys_ipc_try_send
    rw [ht2]
    dsimp only
    rw [if_pos hz]

/-- Witness for C8: the sample receiver is waiting, so the value-only send of 42 returns 0 and a
second send returns `-E_IPC_NOT_RECV`. -/
theorem C8_rendezvous_witness :
    envid2env (sampleState 7 0x900000 0) 0x1001 false = some 1
    ∧ (sys_ipc_try_send (sampleState 7 0x900000 0) 0x1001 42 0 0).1 = 0
    ∧ (sys_ipc_try_send (sys_ipc_try_send (sampleState 7 0x900000 0) 0x1001 42 0 0).2
          0x1001 43 0 0).1 = -E_IPC_NOT_RECV :=
  ⟨by decide,
   (C8_rendezvous (sampleState 7 0x900000 0) 0x1001 42 0 1 (by decide)).1.2 (by decide),
   (C8_rendezvous (sampleState 7 0x900000 0) 0x1001 42 0 1 (by decide)).2.2 (by decide) 43 0 0⟩

/-- C9 (IPC completion).  After a successful `sys_ipc_try_send` the target has
`env_ipc_recving = 0`, `env_ipc_from` = the caller's id, `env_ipc_value = value` and status
RUNNABLE; every other environment is unchanged, and so are the target's saved trap frame, id,
parent id, upcall, `env_ipc_dstva` and every mapping outside the page of `srcva`.  When the
receiver's system call resumes with its saved `eax` (0, as `sys_ipc_recv` left it), the library
`ipc_recv` returns `env_ipc_value` and stores `env_ipc_from` and `env_ipc_perm`; for a value-only
send the stored permission is 0. -/
theorem C9_ipc_completion (s : State) (envid value srcva perm : Nat)
    (hok : 0 ≤ (sys_ipc_try_send s envid value srcva perm).1) :
    ∃ t, envid2env s envid false = some t ∧ t < s.envs.length
      ∧ (getEnv (sys_ipc_try_send s envid value srcva perm).2 t).env_ipc_recving = 0
      ∧ (getEnv (sys_ipc_try_send s envid value srcva perm).2 t).env_ipc_from
          = (curEnv s).env_id
      ∧ (getEnv (sys_ipc_try_send s envid value srcva perm).2 t).env_ipc_value = value
      ∧ (getEnv (sys_ipc_try_send s envid value srcva perm).2 t).env_status = ENV_RUNNABLE
      ∧ (∀ i, i ≠ t → getEnv (sys_ipc_try_send s envid value srcva perm).2 i = getEnv s i)
      ∧ (sys_ipc_try_send s envid value srcva perm).2.envs.length = s.envs.length
      ∧ (getEnv (sys_ipc_try_send s envid value srcva perm).2 t).env_tf = (getEnv s t).env_tf
      ∧ (getEnv (sys_ipc_try_send s envid value srcva perm).2 t).env_id = (getEnv s t).env_id
      ∧ (getEnv (sys_ipc_try_send s envid value srcva perm).2 t).env_parent_id
          = (getEnv s t).env_parent_id
      ∧ (getEnv (sys_ipc_try_send s envid value srcva perm).2 t).env_pgfault_upcall
          = (getEnv s t).env_pgfault_upcall
      ∧ (getEnv (sys_ipc_try_send s envid value srcva perm).2 t).env_ipc_dstva
          = (getEnv s t).env_ipc_dstva
      ∧ (∀ va, PGNUM va ≠ PGNUM srcva →
          page_lookup (getEnv (sys_ipc_try_send s envid value srcva perm).2 t).env_pgdir va
            = page_lookup (getEnv s t).env_pgdir va)
      ∧ (srcva = 0 →
          (getEnv (sys_ipc_try_send s envid value srcva perm).2 t).env_pgdir
              = (getEnv s t).env_pgdir
          ∧ (getEnv (sys_ipc_try_send s envid value srcva perm).2 t).env_ipc_perm = 0)
      ∧ ((getEnv s t).env_tf.tf_regs.reg_eax = 0 → ∀ from_env_store perm_store,
          ipc_recv_finish
              (toInt32 (getEnv (sys_ipc_try_send s envid value srcva perm).2
                t).env_tf.tf_regs.reg_eax)
              (getEnv (sys_ipc_try_send s envid value srcva perm).2 t)
              from_env_store perm_store
            = { value := toInt32 value
                from_env := if from_env_store then some (curEnv s).env_id else none
                perm := if perm_store then
                    some (getEnv (sys_ipc_try_send s envid value srcva perm).2 t).env_ipc_perm
                  else none }) := by
  obtain ⟨t, s1, pd, h1, h2, _, h4, h5, h6, h7, h8⟩ := sys_ipc_try_send_ok s envid value srcva perm hok
  obtain ⟨g1, g2, g3⟩ := ipc_complete_spec s s1 t value perm (if srcva = 0 then 0 else 1) pd h2 h4 h5
  rw [h8]
  refine ⟨t, h1, h2, ?_, ?_, ?_, ?_, g2, g3, ?_, ?_, ?_, ?_, ?_, ?_, ?_, ?_⟩
  · rw [g1]
  · rw [g1]
  · rw [g1]
  · rw [g1]
  · rw [g1]
  · rw [g1]
  · rw [g1]
  · rw [g1]
  · rw [g1]
  · intro va hva
    rw [g1]
    exact h6 _ hva
  · intro h0
    rw [g1]
    exact ⟨h7 h0, by simp [h0]⟩
  · intro heax f p
    rw [g1]
    simp [ipc_recv_finish, heax, toInt32]

/-- Witness for C9: the value-only send of 42 to the sample receiver (which waits with saved
`eax = 0`) succeeds, and `ipc_recv` then returns 42, the sender's id 0x1000 and permission 0. -/
theorem C9_ipc_completion_witness :
    0 ≤ (sys_ipc_try_send (sampleState 7 0x900000 0) 0x1001 42 0 0).1
    ∧ ∃ t, envid2env (sampleState 7 0x900000 0) 0x1001 false = some t
      ∧ (getEnv (sys_ipc_try_send (sampleState 7 0x900000 0) 0x1001 42 0 0).2 t).env_status
          = ENV_RUNNABLE
      ∧ ipc_recv_finish
            (toInt32 (getEnv (sys_ipc_try_send (sampleState 7 0x900000 0) 0x1001 42 0 0).2
              t).env_tf.tf_regs.reg_eax)
            (getEnv (sys_ipc_try_send (sampleState 7 0x900000 0) 0x1001 42 0 0).2 t) true true
          = { value := 42, from_env := some 0x1000, perm := some 0 } := by
  refine ⟨by decide, ?_⟩
  obtain ⟨t, h1, _, _, _, _, h6, _, _, _, _, _, _, _, _, h15, h16⟩ :=
    C9_ipc_completion (sampleState 7 0x900000 0) 0x1001 42 0 0 (by decide)
  have ht : t = 1 := by
    have : envid2env (sampleState 7 0x900000 0) 0x1001 false = some 1 := by decide
    rw [this] at h1
    exact (Option.some.inj h1).symm
  subst ht
  refine ⟨1, h1, h6, ?_⟩
  rw [h16 (by decide) true true, (h15 rfl).2]
  decide

/-- C10 as stated fails: after the successful send of 42 to the sample receiver, the receiver's
saved `eax` is still 0, not 42. -/
theorem C10_saved_eax_not_value :
    (sys_ipc_try_send (sampleState 7 0x900000 0) 0x1001 42 0 0).1 = 0
    ∧ envid2env (sampleState 7 0x900000 0) 0x1001 false = some 1
    ∧ (getEnv (sys_ipc_try_send (sampleState 7 0x900000 0) 0x1001 42 0 0).2
          1).env_tf.tf_regs.reg_eax = 0
    ∧ (getEnv (sys_ipc_try_send (sampleState 7 0x900000 0) 0x1001 42 0 0).2
          1).env_tf.tf_regs.reg_eax ≠ 42 := by
  decide

/-- C10 amended.  A successful `sys_ipc_try_send` leaves the receiver's saved trap frame as it
was and delivers `value` in `env_ipc_value`; and an accepted `sys_ipc_recv` does not return but
leaves the caller with saved `eax = 0`.  So the receiver's suspended system call resumes
returning 0, and the value travels through `env_ipc_value`. -/
theorem C10_value_staged_in_env_ipc_value (s : State) :
    (∀ envid value srcva perm, 0 ≤ (sys_ipc_try_send s envid value srcva perm).1 →
      ∃ t, envid2env s envid false = some t
        ∧ (getEnv (sys_ipc_try_send s envid value srcva perm).2 t).env_tf = (getEnv s t).env_tf
        ∧ (getEnv (sys_ipc_try_send s envid value srcva perm).2 t).env_ipc_value = value)
    ∧ (∀ dstva, s.curenv < s.envs.length → dstva < UTOP → dstva = ROUNDDOWN dstva PGSIZE →
      sys_ipc_recv s dstva = .noreturn (sys_ipc_recv s dstva).state
        ∧ (curEnv (sys_ipc_recv s dstva).state).env_tf.tf_regs.reg_eax = 0
        ∧ (curEnv (sys_ipc_recv s dstva).state).env_ipc_recving = 1) := by
  constructor
  · intro envid value srcva perm hok
    obtain ⟨t, s1, pd, h1, h2, _, h4, h5, _, _, h8⟩ :=
      sys_ipc_try_send_ok s envid value srcva perm hok
    obtain ⟨g1, _, _⟩ :=
      ipc_complete_spec s s1 t value perm (if srcva = 0 then 0 else 1) pd h2 h4 h5
    rw [h8]
    refine ⟨t, h1, ?_, ?_⟩
    · rw [g1]
    · rw [g1]
  · intro dstva hc h1 h2
    have hv : ¬ (dstva ≥ UTOP ∨ dstva ≠ ROUNDDOWN dstva PGSIZE) := by
      intro h
      rcases h with h | h
      · omega
      · exact h h2
    unfold sys_ipc_recv
    rw [if_neg hv]
    simp only [sched_yield, Outcome.state, curEnv]
    rw [show (setEnv s s.curenv _).curenv = s.curenv from rfl, getEnv_setEnv_eq _ _ _ hc]
    exact ⟨trivial, rfl, rfl⟩

/-- Witness for C10 amended, at the sample state: the send of 42 succeeds and the running
environment may call `sys_ipc_recv(0x00900000)`. -/
theorem C10_value_staged_in_env_ipc_value_witness :
    0 ≤ (sys_ipc_try_send (sampleState 7 0x900000 0) 0x1001 42 0 0).1
    ∧ (∃ t, envid2env (sampleState 7 0x900000 0) 0x1001 false = some t
        ∧ (getEnv (sys_ipc_try_send (sampleState 7 0x900000 0) 0x1001 42 0 0).2 t).env_tf
            = (getEnv (sampleState 7 0x900000 0) t).env_tf
        ∧ (getEnv (sys_ipc_try_send (sampleState 7 0x900000 0) 0x1001 42 0 0).2 t).env_ipc_value
            = 42)
    ∧ (sampleState 7 0x900000 0).curenv < (sampleState 7 0x900000 0).envs.length
    ∧ (0x900000 : Nat) < UTOP
    ∧ (0x900000 : Nat) = ROUNDDOWN 0x900000 PGSIZE
    ∧ sys_ipc_recv (sampleState 7 0x900000 0) 0x900000
          = .noreturn (sys_ipc_recv (sampleState 7 0x900000 0) 0x900000).state
    ∧ (curEnv (sys_ipc_recv (sampleState 7 0x900000 0) 0x900000).state).env_tf.tf_regs.reg_eax
          = 0
    ∧ (curEnv (sys_ipc_recv (sampleState 7 0x900000 0) 0x900000).state).env_ipc_recving = 1 :=
  ⟨by decide,
   (C10_value_staged_in_env_ipc_value (sampleState 7 0x900000 0)).1 0x1001 42 0 0 (by decide),
   by decide, by decide, by decide,
   (C10_value_staged_in_env_ipc_value (sampleState 7 0x900000 0)).2 0x900000
     (by decide) (by decide) (by decide)⟩

/-- C11 (sys_ipc_recv validation), the code at the failing inputs `dstva = UTOP` and
`dstva = 0xF0000000`, both page-aligned and `≥ UTOP` (the "no page wanted" range): the test
`dstva >= UTOP || dstva != ROUNDDOWN(dstva, PGSIZE)` rejects them with `-E_INVAL` and the caller
is not recorded as receiving. -/
theorem C11_dstva_at_or_above_utop_rejected :
    UTOP ≤ UTOP ∧ UTOP % PGSIZE = 0
    ∧ sys_ipc_recv sampleIdleState UTOP = .ret (-E_INVAL) sampleIdleState
    ∧ UTOP ≤ 0xF0000000
    ∧ sys_ipc_recv sampleIdleState 0xF0000000 = .ret (-E_INVAL) sampleIdleState
    ∧ (curEnv (sys_ipc_recv sampleIdleState UTOP).state).env_ipc_recving = 0 := by
  decide

/-- C12 (receiver that wants no page), the code at the failing input `srcva = USTACKTOP`: the
receiver blocks through `ipc_recv` with `pg = NULL`, which passes `USTACKTOP` to
`sys_ipc_recv`; that address is below `UTOP`, so it is recorded as a destination, and a sender
that sends its page at `USTACKTOP` gets it inserted into the receiver's address space. -/
theorem C12_page_inserted_into_receiver_without_pg :
    ipc_recv_arg 0 = USTACKTOP
    ∧ sys_ipc_recv sampleIdleState (ipc_recv_arg 0)
        = .noreturn (sys_ipc_recv sampleIdleState (ipc_recv_arg 0)).state
    ∧ (getEnv (sys_ipc_recv sampleIdleState (ipc_recv_arg 0)).state 1).env_ipc_recving = 1
    ∧ (getEnv (sys_ipc_recv sampleIdleState (ipc_recv_arg 0)).state 1).env_ipc_dstva = USTACKTOP
    ∧ page_lookup (getEnv (sys_ipc_recv sampleIdleState (ipc_recv_arg 0)).state 1).env_pgdir
        USTACKTOP = none
    ∧ (sys_ipc_try_send (switch_to (sys_ipc_recv sampleIdleState (ipc_recv_arg 0)).state 0)
          0x1001 42 USTACKTOP 7).1 = 1
    ∧ page_lookup
        (getEnv (sys_ipc_try_send (switch_to (sys_ipc_recv sampleIdleState (ipc_recv_arg 0)).state
          0) 0x1001 42 USTACKTOP 7).2 1).env_pgdir USTACKTOP = some ⟨8, 7⟩
    ∧ (sys_ipc_try_send (switch_to (sys_ipc_recv sampleIdleState (ipc_recv_arg 0)).state 0)
          0x1001 42 USTACKTOP 7).2.mm_ops = [⟨true, 1, USTACKTOP⟩] := by
  decide

/-- C14 (sys_page_alloc result).  Let `envid` resolve with permission to slot `task`, `va` be
page-aligned and below `UTOP`, `perm` be valid, `page` be the first free frame, and let the
insertion be able to succeed (the page table covering `va` exists, or a second frame is free).
Then `sys_page_alloc` returns 0; afterwards `va` in the target maps `page`, which was free
before the call, with permission `perm` (whatever was mapped there before); every byte of the
frame is zero; and the mapping of every other (environment, page) pair is as before. -/
theorem C14_sys_page_alloc_result (s : State) (envid va perm task page : Nat) (rest : List Nat)
    (hcur : s.curenv < s.envs.length)
    (htask : envid2env s envid true = some task)
    (hva : va < UTOP) (hal : va % PGSIZE = 0) (hperm : validPerm perm)
    (hfree : s.page_free_list = page :: rest)
    (hins : (fmGet (getEnv s task).env_pgdir.tables (PDX va)).isSome = true ∨ rest ≠ []) :
    (sys_page_alloc s envid va perm).1 = 0
    ∧ page ∈ s.page_free_list
    ∧ page_lookup (getEnv (sys_page_alloc s envid va perm).2 task).env_pgdir va
        = some ⟨page, perm⟩
    ∧ (∀ off, off < PGSIZE →
        physByte (sys_page_alloc s envid va perm).2 (page * PGSIZE + off) = 0)
    ∧ (∀ i va1, (i ≠ task ∨ PGNUM va1 ≠ PGNUM va) →
        page_lookup (getEnv (sys_page_alloc s envid va perm).2 i).env_pgdir va1
          = page_lookup (getEnv s i).env_pgdir va1) := by
  obtain ⟨s2, e1, _, e3, e4, e5⟩ :=
    sys_page_alloc_ok s envid va perm task page rest htask hva hal hperm hfree hins
  obtain ⟨pd, g1, _, _, _, g5, _, g7⟩ := page_insert_spec s2 task page va perm
  have hg : getEnv s2 task = getEnv s task := getEnv_congr _ _ _ e1
  rw [hg, e1] at g1
  rw [hg] at g7
  have ht := envid2env_lt s envid task true hcur htask
  rw [e5]
  refine ⟨rfl, ?_, ?_, ?_, ?_⟩
  · rw [hfree]
    exact List.mem_cons_self _ _
  · simp only [getEnv, g1]
    rw [envAt_set_eq _ _ _ ht]
    exact g5 e4
  · intro off ho
    unfold physByte
    rw [page_insert_mem]
    exact e3 off ho
  · intro i va1 hne
    rcases getEnv_of_set s _ task _ g1 i with h | ⟨h1, _, h3⟩
    · rw [h]
    · subst h1
      rw [h3]
      rcases hne with hne | hne
      · exact absurd rfl hne
      · exact g7 _ hne

/-- Witness for C14: the sample sender allocates a page at 0x00A00000; it gets frame 9, the
head of the free list, zero-filled. -/
theorem C14_sys_page_alloc_result_witness :
    (sampleState 7 0x900000 0).curenv < (sampleState 7 0x900000 0).envs.length
    ∧ envid2env (sampleState 7 0x900000 0) 0 true = some 0
    ∧ (0xA00000 : Nat) < UTOP ∧ (0xA00000 : Nat) % PGSIZE = 0 ∧ validPerm 7
    ∧ (sampleState 7 0x900000 0).page_free_list = 9 :: [10]
    ∧ (sys_page_alloc (sampleState 7 0x900000 0) 0 0xA00000 7).1 = 0
    ∧ page_lookup (getEnv (sys_page_alloc (sampleState 7 0x900000 0) 0 0xA00000 7).2 0).env_pgdir
        0xA00000 = some ⟨9, 7⟩
    ∧ physByte (sys_page_alloc (sampleState 7 0x900000 0) 0 0xA00000 7).2 (9 * PGSIZE + 17) = 0 :=
  ⟨by decide, by decide, by decide, by decide, by unfold validPerm; decide, by decide,
   (C14_sys_page_alloc_result (sampleState 7 0x900000 0) 0 0xA00000 7 0 9 [10] (by decide)
      (by decide) (by decide) (by decide) (by unfold validPerm; decide) (by decide) (by decide)).1,
   (C14_sys_page_alloc_result (sampleState 7 0x900000 0) 0 0xA00000 7 0 9 [10] (by decide)
      (by decide) (by decide) (by decide) (by unfold validPerm; decide) (by decide) (by decide)).2.2.1,
   (C14_sys_page_alloc_result (sampleState 7 0x900000 0) 0 0xA00000 7 0 9 [10] (by decide)
      (by decide) (by decide) (by decide) (by unfold validPerm; decide) (by decide) (by decide)).2.2.2.1 17
      (by decide)⟩

/-- C15 (no frame leaked on failure), the code at the failing inputs `va = 0x00800001`
(misaligned) and `perm = 0` (invalid): `sys_page_alloc` has already taken frame 9 from the free
list when it returns `-E_INVAL`, and does not give it back; the frame is mapped nowhere. -/
theorem C15_frame_leaked_on_einval :
    (sampleState 7 0x900000 0).page_free_list = [9, 10]
    ∧ (sys_page_alloc (sampleState 7 0x900000 0) 0 0x800001 7).1 = -E_INVAL
    ∧ (sys_page_alloc (sampleState 7 0x900000 0) 0 0x800001 7).2.page_free_list = [10]
    ∧ (sys_page_alloc (sampleState 7 0x900000 0) 0 0x800001 7).2.envs
        = (sampleState 7 0x900000 0).envs
    ∧ (sys_page_alloc (sampleState 7 0x900000 0) 0 0x800000 0).1 = -E_INVAL
    ∧ (sys_page_alloc (sampleState 7 0x900000 0) 0 0x800000 0).2.page_free_list = [10] := by
  decide

/-- C16 (address validation), the code at the failing inputs `va = UTOP` and `va = 0x00800001`
with no free frame: `sys_page_alloc` calls `page_alloc` before it looks at `va`, so it returns
`-E_NO_MEM`, not `-E_INVAL`; `sys_page_map` and `sys_page_unmap` return `-E_INVAL` in the same
state. -/
theorem C16_page_alloc_enomem_before_va_check :
    envid2env { sampleState 7 0x900000 0 with page_free_list := [] } 0 true = some 0
    ∧ sys_page_alloc { sampleState 7 0x900000 0 with page_free_list := [] } 0 UTOP 7
        = (-E_NO_MEM, { sampleState 7 0x900000 0 with page_free_list := [] })
    ∧ sys_page_alloc { sampleState 7 0x900000 0 with page_free_list := [] } 0 0x800001 7
        = (-E_NO_MEM, { sampleState 7 0x900000 0 with page_free_list := [] })
    ∧ -E_NO_MEM ≠ -E_INVAL
    ∧ (sys_page_map { sampleState 7 0x900000 0 with page_free_list := [] } 0 0x800000 0 UTOP
          7).1 = -E_INVAL
    ∧ (sys_page_unmap { sampleState 7 0x900000 0 with page_free_list := [] } 0 0x800001).1
        = -E_INVAL := by
  decide

/-- C17 (sys_exofork).  Let `env_alloc` succeed with slot `c` (a slot of the table other than
the caller's).  Then `sys_exofork` returns the child's id (a positive number); the child has the
caller's id as parent, status NOT_RUNNABLE, the caller's upcall, and the caller's saved trap
frame except that `reg_eax` is 0; the caller's own record and every other environment are
unchanged.  The caller can then make the child runnable with `sys_env_set_status`, which leaves
the child's frame alone; and when the child runs, `sys_getenvid` gives the value the parent
received. -/
theorem C17_sys_exofork (s : State) (c : Nat) (rest : List Nat)
    (hfree : s.env_free_list = c :: rest) (hc : c < s.envs.length) (hcn : c < NENV)
    (hne : c ≠ s.curenv) :
    (sys_exofork s).1 = ((getEnv (sys_exofork s).2 c).env_id : Int)
    ∧ 0 < (sys_exofork s).1
    ∧ (getEnv (sys_exofork s).2 c).env_parent_id = (curEnv s).env_id
    ∧ (getEnv (sys_exofork s).2 c).env_status = ENV_NOT_RUNNABLE
    ∧ (getEnv (sys_exofork s).2 c).env_pgfault_upcall = (curEnv s).env_pgfault_upcall
    ∧ (getEnv (sys_exofork s).2 c).env_tf
        = { (curEnv s).env_tf with
              tf_regs := { (curEnv s).env_tf.tf_regs with reg_eax := 0 } }
    ∧ (getEnv (sys_exofork s).2 c).env_tf.tf_eip = (curEnv s).env_tf.tf_eip
    ∧ (getEnv (sys_exofork s).2 c).env_tf.tf_regs.reg_eax = 0
    ∧ curEnv (sys_exofork s).2 = curEnv s
    ∧ (∀ i, i ≠ c → getEnv (sys_exofork s).2 i = getEnv s i)
    ∧ sys_env_set_status (sys_exofork s).2 (getEnv (sys_exofork s).2 c).env_id ENV_RUNNABLE
        = (0, setEnv (sys_exofork s).2 c
                { getEnv (sys_exofork s).2 c with env_status := ENV_RUNNABLE })
    ∧ sys_getenvid (switch_to (sys_exofork s).2 c) = (sys_exofork s).1 := by
  obtain ⟨h1, h2, h3⟩ := sys_exofork_ok s c rest hfree hc hne
  have hchild := getEnv_eq_of_set s _ c _ h2 hc
  have hoth : ∀ i, i ≠ c → getEnv (sys_exofork s).2 i = getEnv s i :=
    fun i hi => getEnv_ne_of_set s _ c i _ h2 hi
  have hcurE : curEnv (sys_exofork s).2 = curEnv s := by
    simp only [curEnv, h3]
    exact hoth _ (fun h => hne h.symm)
  have hid : (getEnv (sys_exofork s).2 c).env_id = mkenvid (getEnv s c).env_id c := by
    rw [hchild]
  have hret : (sys_exofork s).1 = ((mkenvid (getEnv s c).env_id c : Nat) : Int) := by
    rw [h1, toInt32_of_lt _ (mkenvid_lt _ _)]
  refine ⟨?_, ?_, ?_, ?_, ?_, ?_, ?_, ?_, hcurE, hoth, ?_, ?_⟩
  · rw [hid, hret]
  · rw [hret]
    exact Int.ofNat_lt.2 (mkenvid_pos _ _)
  · rw [hchild]
  · rw [hchild]
  · rw [hchild]
  · rw [hchild]
  · rw [hchild]
  · rw [hchild]
  · have hlen : c < (sys_exofork s).2.envs.length := by
      rw [h2]
      simpa using hc
    have hget : (sys_exofork s).2.envs.get? c = some (getEnv (sys_exofork s).2 c) := by
      simp [getEnv, envAt, List.getD_eq_getElem?_getD, List.get?_eq_getElem?,
        List.getElem?_eq_getElem hlen]
    have hres : envid2env (sys_exofork s).2 (getEnv (sys_exofork s).2 c).env_id true
        = some c := by
      unfold envid2env
      rw [hid, if_neg (Nat.pos_iff_ne_zero.1 (mkenvid_pos _ _)), ENVX_mkenvid _ _ hcn, hget]
      dsimp only
      rw [hcurE, hchild]
      simp [ENV_NOT_RUNNABLE, ENV_FREE]
    unfold sys_env_set_status
    rw [hres]
    simp [ENV_RUNNABLE, ENV_FREE, ENV_NOT_RUNNABLE]
  · unfold sys_getenvid switch_to curEnv
    dsimp only
    rw [show getEnv { (sys_exofork s).2 with curenv := c } c = getEnv (sys_exofork s).2 c from rfl,
      hid, h1]

/-- Witness for C17: in the sample state slot 1 is free; the caller receives 0x1001, and the
child has parent 0x1000, the caller's `eip` and `eax = 0`. -/
theorem C17_sys_exofork_witness :
    sampleForkState.env_free_list = 1 :: []
    ∧ 1 < sampleForkState.envs.length ∧ 1 < NENV ∧ 1 ≠ sampleForkState.curenv
    ∧ (sys_exofork sampleForkState).1 = 0x1001
    ∧ (sys_exofork sampleForkState).1 = ((getEnv (sys_exofork sampleForkState).2 1).env_id : Int)
    ∧ (getEnv (sys_exofork sampleForkState).2 1).env_parent_id = 0x1000
    ∧ (getEnv (sys_exofork sampleForkState).2 1).env_tf.tf_eip = 0x800100
    ∧ (getEnv (sys_exofork sampleForkState).2 1).env_tf.tf_regs.reg_eax = 0
    ∧ (curEnv (sys_exofork sampleForkState).2).env_tf.tf_regs.reg_eax = 7
    ∧ sys_getenvid (switch_to (sys_exofork sampleForkState).2 1)
        = (sys_exofork sampleForkState).1 :=
  ⟨by decide, by decide, by decide, by decide, by decide,
   (C17_sys_exofork sampleForkState 1 [] (by decide) (by decide) (by decide) (by decide)).1,
   by decide, by decide,
   (C17_sys_exofork sampleForkState 1 [] (by decide) (by decide) (by decide)
      (by decide)).2.2.2.2.2.2.2.1,
   by decide,
   (C17_sys_exofork sampleForkState 1 [] (by decide) (by decide) (by decide)
      (by decide)).2.2.2.2.2.2.2.2.2.2.2⟩

/-- C18 (sys_env_set_status validation), the code at the failing input `status = ENV_FREE`:
the test lets `ENV_FREE` through, so the call returns 0 and the child's status becomes FREE
(its address space is not torn down and the slot does not go back on the free list); a value
that is no status at all is refused. -/
theorem C18_env_free_accepted :
    envid2env (sampleState 7 0x900000 0x1000) 0x1001 true = some 1
    ∧ (getEnv (sampleState 7 0x900000 0x1000) 1).env_status = ENV_NOT_RUNNABLE
    ∧ (sys_env_set_status (sampleState 7 0x900000 0x1000) 0x1001 ENV_FREE).1 = 0
    ∧ (getEnv (sys_env_set_status (sampleState 7 0x900000 0x1000) 0x1001 ENV_FREE).2
          1).env_status = ENV_FREE
    ∧ (sys_env_set_status (sampleState 7 0x900000 0x1000) 0x1001 ENV_FREE).2.env_free_list = []
    ∧ sys_env_set_status (sampleState 7 0x900000 0x1000) 0x1001 3
        = (-E_INVAL, sampleState 7 0x900000 0x1000) := by
  decide

/-- C19 (sys_env_set_trapframe), the code at the failing inputs (the child 0x1001 the caller
may change, and an id that does not resolve): the body of the handler is a call of `panic`, so
the kernel stops in both cases; and `syscall` has no case for the handler, so a number outside
the fourteen dispatched ones is answered with `-E_INVAL`. -/
theorem C19_set_trapframe_panics :
    mayChange (sampleState 7 0x900000 0x1000) 0x1001 = true
    ∧ sys_env_set_trapframe (sampleState 7 0x900000 0x1000) 0x1001 0x800000
        = .panic (sampleState 7 0x900000 0x1000)
    ∧ mayChange (sampleState 7 0x900000 0x1000) 0x2005 = false
    ∧ sys_env_set_trapframe (sampleState 7 0x900000 0x1000) 0x2005 0x800000
        = .panic (sampleState 7 0x900000 0x1000)
    ∧ syscall (sampleState 7 0x900000 0x1000) 14 0x1001 0x800000 0 0 0
        = .ret (-E_INVAL) (sampleState 7 0x900000 0x1000) := by
  decide

/-- C20 (fault-frame placement).  For a page fault from user mode in the running environment,
with an upcall installed, both memory checks passing and the record fitting in the
exception-stack page, `page_fault_handler` leaves through `env_run` with the environment's saved
`esp` equal to `E`, where `E` is the trap-time `esp` minus 4 minus `sizeof(struct UTrapframe)`
when the trap-time `esp` lies in `[UXSTACKTOP - PGSIZE, UXSTACKTOP)` and
`UXSTACKTOP - sizeof(struct UTrapframe)` otherwise; the record is stored at address `E`, and the
saved `eip` is the upcall. -/
theorem C20_fault_frame_placement (s : State) (fault_va : Nat)
    (hcur : s.curenv < s.envs.length)
    (huser : (curEnv s).env_tf.tf_cs &&& 3 = 3)
    (hup : (curEnv s).env_pgfault_upcall ≠ 0)
    (hstk : user_mem_check (curEnv s) (UXSTACKTOP - 4) 4 (PTE_P ||| PTE_W ||| PTE_U) = true)
    (hcode : user_mem_check (curEnv s) (curEnv s).env_pgfault_upcall 4 (PTE_P ||| PTE_U) = true)
    (hesp : (curEnv s).env_tf.tf_esp < 2 ^ 32)
    (hfit : UXSTACKTOP - PGSIZE ≤ fault_record_addr (curEnv s).env_tf.tf_esp) :
    page_fault_handler s .env_tf fault_va
        = .env_run (page_fault_handler s .env_tf fault_va).state
    ∧ (curEnv (page_fault_handler s .env_tf fault_va).state).env_tf.tf_esp
        = fault_record_addr (curEnv s).env_tf.tf_esp
    ∧ (UXSTACKTOP - PGSIZE ≤ (curEnv s).env_tf.tf_esp ∧ (curEnv s).env_tf.tf_esp < UXSTACKTOP →
        (curEnv (page_fault_handler s .env_tf fault_va).state).env_tf.tf_esp
          = (curEnv s).env_tf.tf_esp - 4 - sizeof_UTrapframe)
    ∧ (¬ (UXSTACKTOP - PGSIZE ≤ (curEnv s).env_tf.tf_esp
          ∧ (curEnv s).env_tf.tf_esp < UXSTACKTOP) →
        (curEnv (page_fault_handler s .env_tf fault_va).state).env_tf.tf_esp
          = UXSTACKTOP - sizeof_UTrapframe)
    ∧ (page_fault_handler s .env_tf fault_va).state.mem
        = (copyout s (curEnv s) (fault_record_addr (curEnv s).env_tf.tf_esp)
            (utf_bytes
              { utf_fault_va := fault_va
                utf_err := (curEnv s).env_tf.tf_err
                utf_regs := (curEnv s).env_tf.tf_regs
                utf_eip := (curEnv s).env_tf.tf_eip
                utf_eflags := (curEnv s).env_tf.tf_eflags
                utf_esp := (curEnv s).env_tf.tf_esp })).mem
    ∧ (curEnv (page_fault_handler s .env_tf fault_va).state).env_tf.tf_eip
        = (curEnv s).env_pgfault_upcall := by
  have hE := utf_place_eq _ hesp
  have hu : (curEnv s).env_tf.tf_cs &&& 3 ≠ 0 := by
    rw [huser]
    decide
  have hf : ¬ utf_place (curEnv s).env_tf.tf_esp < UXSTACKTOP - PGSIZE := by
    rw [hE]
    omega
  have hd := page_fault_handler_deliver s fault_va hu hup hstk hcode hf
  rw [hE] at hd
  obtain ⟨a1, a2, a3, a4⟩ := tfStore_env_tf s
    { (curEnv s).env_tf with tf_esp := fault_record_addr (curEnv s).env_tf.tf_esp } hcur
  obtain ⟨b1, b2, _⟩ := copyout_frame (curEnv s)
    (utf_bytes
      { utf_fault_va := fault_va
        utf_err := (curEnv s).env_tf.tf_err
        utf_regs := (curEnv s).env_tf.tf_regs
        utf_eip := (curEnv s).env_tf.tf_eip
        utf_eflags := (curEnv s).env_tf.tf_eflags
        utf_esp := (curEnv s).env_tf.tf_esp })
    (tfStore s .env_tf
      { (curEnv s).env_tf with tf_esp := fault_record_addr (curEnv s).env_tf.tf_esp })
    (fault_record_addr (curEnv s).env_tf.tf_esp)
  have hlen : (copyout (tfStore s .env_tf
      { (curEnv s).env_tf with tf_esp := fault_record_addr (curEnv s).env_tf.tf_esp })
      (curEnv s) (fault_record_addr (curEnv s).env_tf.tf_esp)
      (utf_bytes
        { utf_fault_va := fault_va
          utf_err := (curEnv s).env_tf.tf_err
          utf_regs := (curEnv s).env_tf.tf_regs
          utf_eip := (curEnv s).env_tf.tf_eip
          utf_eflags := (curEnv s).env_tf.tf_eflags
          utf_esp := (curEnv s).env_tf.tf_esp })).curenv
      < (copyout (tfStore s .env_tf
      { (curEnv s).env_tf with tf_esp := fault_record_addr (curEnv s).env_tf.tf_esp })
      (curEnv s) (fault_record_addr (curEnv s).env_tf.tf_esp)
      (utf_bytes
        { utf_fault_va := fault_va
          utf_err := (curEnv s).env_tf.tf_err
          utf_regs := (curEnv s).env_tf.tf_regs
          utf_eip := (curEnv s).env_tf.tf_eip
          utf_eflags := (curEnv s).env_tf.tf_eflags
          utf_esp := (curEnv s).env_tf.tf_esp })).envs.length := by
    rw [b1, b2, a3, a4]
    exact hcur
  obtain ⟨c1, c2, _, _⟩ := tfStore_env_tf _
    { (curEnv s).env_tf with
        tf_esp := fault_record_addr (curEnv s).env_tf.tf_esp
        tf_eip := (curEnv s).env_pgfault_upcall } hlen
  have hesp1 : (curEnv (page_fault_handler s .env_tf fault_va).state).env_tf.tf_esp
      = fault_record_addr (curEnv s).env_tf.tf_esp := by
    rw [hd]
    simp only [TrapResult.state]
    rw [c1]
  refine ⟨?_, hesp1, ?_, ?_, ?_, ?_⟩
  · rw [hd]
    rfl
  · intro hin
    rw [hesp1]
    unfold fault_record_addr
    rw [if_pos hin]
  · intro hout
    rw [hesp1]
    unfold fault_record_addr
    rw [if_neg hout]
  · rw [hd]
    simp only [TrapResult.state]
    rw [c2]
    exact copyout_mem_congr _ _ _ _ _ a2
  · rw [hd]
    simp only [TrapResult.state]
    rw [c1]

/-- Witness for C20: a first fault with the trap-time `esp` on the normal stack puts the record
directly below `UXSTACKTOP`; a fault while running on the exception stack puts it one scratch
word and one record below the trap-time `esp`. -/
theorem C20_fault_frame_placement_witness :
    (curEnv (sampleFaultState 0xeebfdf00)).env_tf.tf_cs &&& 3 = 3
    ∧ (curEnv (sampleFaultState 0xeebfdf00)).env_pgfault_upcall ≠ 0
    ∧ UXSTACKTOP - PGSIZE ≤ fault_record_addr (curEnv (sampleFaultState 0xeebfdf00)).env_tf.tf_esp
    ∧ (curEnv (page_fault_handler (sampleFaultState 0xeebfdf00) .env_tf 0x1234).state).env_tf.tf_esp
        = UXSTACKTOP - sizeof_UTrapframe
    ∧ UXSTACKTOP - PGSIZE ≤ (curEnv (sampleFaultState (UXSTACKTOP - 100))).env_tf.tf_esp
    ∧ (curEnv (sampleFaultState (UXSTACKTOP - 100))).env_tf.tf_esp < UXSTACKTOP
    ∧ (curEnv (page_fault_handler (sampleFaultState (UXSTACKTOP - 100)) .env_tf
          0x1234).state).env_tf.tf_esp
        = (curEnv (sampleFaultState (UXSTACKTOP - 100))).env_tf.tf_esp - 4 - sizeof_UTrapframe :=
  ⟨by decide, by decide, by decide,
   (C20_fault_frame_placement (sampleFaultState 0xeebfdf00) 0x1234 (by decide) (by decide)
      (by decide) (by decide) (by decide) (by decide) (by decide)).2.2.2.1 (by decide),
   by decide, by decide,
   (C20_fault_frame_placement (sampleFaultState (UXSTACKTOP - 100)) 0x1234 (by decide)
      (by decide) (by decide) (by decide) (by decide) (by decide) (by decide)).2.2.1
      ⟨by decide, by decide⟩⟩

/-- C21 (fault-record contents).  Whenever `page_fault_handler` delivers a fault of the running
environment to the upcall (it leaves through `env_run`), the record that can be read back from
the exception stack at the new saved `esp` has `utf_fault_va` = the faulting address,
`utf_err = tf_err`, `utf_regs = tf_regs`, `utf_eip = tf_eip`, `utf_eflags = tf_eflags` and
`utf_esp = tf_esp` of the trap-time frame (the interrupted stack pointer, not the new one); the
saved `eip` afterwards is `env_pgfault_upcall`, and the saved general registers and `eflags` are
the trap-time ones. -/
theorem C21_fault_record_contents (s t : State) (fault_va : Nat)
    (hcur : s.curenv < s.envs.length)
    (h32 : Trapframe32 (curEnv s).env_tf) (hva : fault_va < 2 ^ 32)
    (h : page_fault_handler s .env_tf fault_va = .env_run t) :
    (curEnv t).env_tf.tf_esp = fault_record_addr (curEnv s).env_tf.tf_esp
    ∧ read_utf t (curEnv t) (curEnv t).env_tf.tf_esp
        = { utf_fault_va := fault_va
            utf_err := (curEnv s).env_tf.tf_err
            utf_regs := (curEnv s).env_tf.tf_regs
            utf_eip := (curEnv s).env_tf.tf_eip
            utf_eflags := (curEnv s).env_tf.tf_eflags
            utf_esp := (curEnv s).env_tf.tf_esp }
    ∧ (curEnv t).env_tf.tf_eip = (curEnv s).env_pgfault_upcall
    ∧ (curEnv t).env_tf.tf_regs = (curEnv s).env_tf.tf_regs
    ∧ (curEnv t).env_tf.tf_eflags = (curEnv s).env_tf.tf_eflags := by
  obtain ⟨r1, r2, r3, r4, r5, r6, r7, r8, r9, r10, r11, r12⟩ := h32
  obtain ⟨hc, _, _, hb⟩ := page_fault_handler_record s t fault_va hcur r12 h
  have hesp : (curEnv t).env_tf.tf_esp = fault_record_addr (curEnv s).env_tf.tf_esp := by
    rw [hc]
  refine ⟨hesp, ?_, by rw [hc], by rw [hc], by rw [hc]⟩
  rw [hesp]
  rw [utf_bytes_eq] at hb
  have w0 := readWord_of_bytes t (curEnv t) _ _ 0 fault_va (by decide) hva hb rfl rfl rfl rfl
  rw [Nat.add_zero] at w0
  have w1 := readWord_of_bytes t (curEnv t) _ _ 4 _ (by decide) r9 hb rfl rfl rfl rfl
  have w2 := readWord_of_bytes t (curEnv t) _ _ 8 _ (by decide) r1 hb rfl rfl rfl rfl
  have w3 := readWord_of_bytes t (curEnv t) _ _ 12 _ (by decide) r2 hb rfl rfl rfl rfl
  have w4 := readWord_of_bytes t (curEnv t) _ _ 16 _ (by decide) r3 hb rfl rfl rfl rfl
  have w5 := readWord_of_bytes t (curEnv t) _ _ 20 _ (by decide) r4 hb rfl rfl rfl rfl
  have w6 := readWord_of_bytes t (curEnv t) _ _ 24 _ (by decide) r5 hb rfl rfl rfl rfl
  have w7 := readWord_of_bytes t (curEnv t) _ _ 28 _ (by decide) r6 hb rfl rfl rfl rfl
  have w8 := readWord_of_bytes t (curEnv t) _ _ 32 _ (by decide) r7 hb rfl rfl rfl rfl
  have w9 := readWord_of_bytes t (curEnv t) _ _ 36 _ (by decide) r8 hb rfl rfl rfl rfl
  have w10 := readWord_of_bytes t (curEnv t) _ _ 40 _ (by decide) r10 hb rfl rfl rfl rfl
  have w11 := readWord_of_bytes t (curEnv t) _ _ 44 _ (by decide) r11 hb rfl rfl rfl rfl
  have w12 := readWord_of_bytes t (curEnv t) _ _ 48 _ (by decide) r12 hb rfl rfl rfl rfl
  unfold read_utf readRegs
  simp only [Nat.add_assoc, Nat.reduceAdd]
  rw [w0, w1, w2, w3, w4, w5, w6, w7, w8, w9, w10, w11, w12]

/-- Witness for C21: a first fault of the sample environment at address 0x1234 with trap-time
`esp = 0xeebfdf00`, `eip = 0x800100` and error code 7. -/
theorem C21_fault_record_contents_witness :
    page_fault_handler (sampleFaultState 0xeebfdf00) .env_tf 0x1234
      = .env_run (page_fault_handler (sampleFaultState 0xeebfdf00) .env_tf 0x1234).state
    ∧ read_utf (page_fault_handler (sampleFaultState 0xeebfdf00) .env_tf 0x1234).state
        (curEnv (page_fault_handler (sampleFaultState 0xeebfdf00) .env_tf 0x1234).state)
        (curEnv (page_fault_handler (sampleFaultState 0xeebfdf00) .env_tf 0x1234).state).env_tf.tf_esp
        = { utf_fault_va := 0x1234
            utf_err := 7
            utf_regs := default
            utf_eip := 0x800100
            utf_eflags := 0
            utf_esp := 0xeebfdf00 }
    ∧ (curEnv (page_fault_handler (sampleFaultState 0xeebfdf00) .env_tf 0x1234).state).env_tf.tf_eip
        = 0x800020 :=
  ⟨rfl,
   (C21_fault_record_contents (sampleFaultState 0xeebfdf00) _ 0x1234 (by decide)
      (by unfold Trapframe32; decide) (by decide) rfl).2.1,
   (C21_fault_record_contents (sampleFaultState 0xeebfdf00) _ 0x1234 (by decide)
      (by unfold Trapframe32; decide) (by decide) rfl).2.2.1⟩

/-- C22 (exception-stack bounds).  For a page fault of the running environment taken in user
mode with any 32-bit trap-time `esp`, `page_fault_handler` never panics, and it either destroys
the environment (its slot is FREE, the scheduler takes over) without changing memory, or leaves
through `env_run` after storing the record at the new saved `esp` `E`, the only change of
memory, with `UXSTACKTOP - PGSIZE ≤ E` and `E + sizeof(struct UTrapframe) ≤ UXSTACKTOP`, so that
every byte of the record lies in the exception-stack page.  With an upcall installed and both
memory checks passing, the environment is destroyed exactly when the new stack pointer is below
`UXSTACKTOP - PGSIZE`. -/
theorem C22_exception_stack_bounds (s : State) (fault_va : Nat)
    (hcur : s.curenv < s.envs.length)
    (huser : (curEnv s).env_tf.tf_cs &&& 3 = 3)
    (hesp : (curEnv s).env_tf.tf_esp < 2 ^ 32) :
    (∀ t, page_fault_handler s .env_tf fault_va ≠ .panic t)
    ∧ ((∃ t, page_fault_handler s .env_tf fault_va = .yielded t ∧ t.mem = s.mem
            ∧ (getEnv t s.curenv).env_status = ENV_FREE)
        ∨ (∃ t, page_fault_handler s .env_tf fault_va = .env_run t
            ∧ UXSTACKTOP - PGSIZE ≤ (curEnv t).env_tf.tf_esp
            ∧ (curEnv t).env_tf.tf_esp + sizeof_UTrapframe ≤ UXSTACKTOP
            ∧ (∀ k, k < sizeof_UTrapframe →
                PGNUM ((curEnv t).env_tf.tf_esp + k) = PGNUM (UXSTACKTOP - PGSIZE))
            ∧ t.mem = (copyout s (curEnv s) (curEnv t).env_tf.tf_esp
                (utf_bytes
                  { utf_fault_va := fault_va
                    utf_err := (curEnv s).env_tf.tf_err
                    utf_regs := (curEnv s).env_tf.tf_regs
                    utf_eip := (curEnv s).env_tf.tf_eip
                    utf_eflags := (curEnv s).env_tf.tf_eflags
                    utf_esp := (curEnv s).env_tf.tf_esp })).mem))
    ∧ ((curEnv s).env_pgfault_upcall ≠ 0 →
        user_mem_check (curEnv s) (UXSTACKTOP - 4) 4 (PTE_P ||| PTE_W ||| PTE_U) = true →
        user_mem_check (curEnv s) (curEnv s).env_pgfault_upcall 4 (PTE_P ||| PTE_U) = true →
        ((∃ t, page_fault_handler s .env_tf fault_va = .yielded t)
          ↔ utf_place (curEnv s).env_tf.tf_esp < UXSTACKTOP - PGSIZE)) := by
  have hu : ¬ ((tfRead s .env_tf).tf_cs &&& 3 = 0) := by
    show ¬ ((curEnv s).env_tf.tf_cs &&& 3 = 0)
    rw [huser]
    decide
  rcases page_fault_handler_cases s .env_tf fault_va with ⟨h0, _⟩ | ⟨_, hwhy, s1, hy, m1, m2, m3⟩
      | ⟨_, hup, hstk, hcode, hfit, t, hr⟩
  · exact absurd h0 hu
  · refine ⟨?_, Or.inl ⟨_, hy, ?_, ?_⟩, ?_⟩
    · intro t ht
      rw [hy] at ht
      cases ht
    · rw [env_free_mem, m1]
    · rw [getEnv_eq_of_set s1 _ _ _ (env_free_spec s1 s.curenv).1 (by rw [m3]; exact hcur)]
    · intro hup hstk hcode
      refine ⟨fun _ => ?_, fun _ => ⟨_, hy⟩⟩
      rcases hwhy with h | h | h | h
      · exact absurd h hup
      · rw [hstk] at h
        cases h
      · rw [hcode] at h
        cases h
      · exact h
  · obtain ⟨hc, hf, hm, _⟩ := page_fault_handler_record s t fault_va hcur hesp hr
    obtain ⟨g1, g2, _, g4⟩ := fault_record_addr_bounds _ hf
    have he : (curEnv t).env_tf.tf_esp = fault_record_addr (curEnv s).env_tf.tf_esp := by
      rw [hc]
    refine ⟨?_, Or.inr ⟨t, hr, ?_, ?_, ?_, ?_⟩, ?_⟩
    · intro t1 ht
      rw [hr] at ht
      cases ht
    · rw [he]
      exact g1
    · rw [he]
      exact g2
    · rw [he]
      exact g4
    · rw [he]
      exact hm
    · intro _ _ _
      refine ⟨fun ⟨t1, ht1⟩ => ?_, fun hlt => absurd hlt hfit⟩
      rw [hr] at ht1
      cases ht1

/-- Witness for C22: a fault with the trap-time `esp` 40 bytes above the bottom of the exception
stack overflows it and the environment is destroyed; with `esp` 100 bytes below `UXSTACKTOP` the
record is written inside the exception-stack page. -/
theorem C22_exception_stack_bounds_witness :
    (curEnv (sampleFaultState (UXSTACKTOP - PGSIZE + 40))).env_tf.tf_cs &&& 3 = 3
    ∧ utf_place (curEnv (sampleFaultState (UXSTACKTOP - PGSIZE + 40))).env_tf.tf_esp
        < UXSTACKTOP - PGSIZE
    ∧ (∃ t, page_fault_handler (sampleFaultState (UXSTACKTOP - PGSIZE + 40)) .env_tf 0x1234
        = .yielded t)
    ∧ ¬ (∃ t, page_fault_handler (sampleFaultState (UXSTACKTOP - 100)) .env_tf 0x1234
        = .yielded t) :=
  ⟨by decide, by decide,
   ((C22_exception_stack_bounds (sampleFaultState (UXSTACKTOP - PGSIZE + 40)) 0x1234 (by decide)
      (by decide) (by decide)).2.2 (by decide) (by decide) (by decide)).2 (by decide),
   fun h => absurd
     (((C22_exception_stack_bounds (sampleFaultState (UXSTACKTOP - 100)) 0x1234 (by decide)
        (by decide) (by decide)).2.2 (by decide) (by decide) (by decide)).1 h) (by decide)⟩

/-- C23 (duppage, writable or copy-on-write page).  For a user page number `pn` whose entry in
the parent (the running environment) has `PTE_W` or `PTE_COW`: when `duppage(envid, pn)`
returns, it returns 0, and the child's and the parent's entries for address `pn * PGSIZE` both
refer to the frame the parent had mapped there, with permission `PTE_U | PTE_P | PTE_COW`:
`PTE_P`, `PTE_U` and `PTE_COW` set and `PTE_W` clear. -/
theorem C23_duppage_writable_or_cow (s t : State) (envid pn : Nat) (v : Int) (pte : Pte)
    (hcur : s.curenv < s.envs.length) (hpn : pn < UTOP / PGSIZE)
    (hpte : page_lookup (curEnv s).env_pgdir (pn * PGSIZE) = some pte)
    (hw : vpt s pn &&& PTE_W ≠ 0 ∨ vpt s pn &&& PTE_COW ≠ 0)
    (h : duppage s envid pn = .ret v t) :
    v = 0
    ∧ ∃ child cpte ppte, envid2env s envid true = some child
      ∧ page_lookup (getEnv t child).env_pgdir (pn * PGSIZE) = some cpte
      ∧ page_lookup (curEnv t).env_pgdir (pn * PGSIZE) = some ppte
      ∧ cpte.frame = pte.frame ∧ ppte.frame = pte.frame
      ∧ cpte.perm = PTE_U ||| PTE_P ||| PTE_COW ∧ ppte.perm = PTE_U ||| PTE_P ||| PTE_COW
      ∧ cpte.perm &&& PTE_P ≠ 0 ∧ cpte.perm &&& PTE_U ≠ 0 ∧ cpte.perm &&& PTE_COW ≠ 0
      ∧ cpte.perm &&& PTE_W = 0
      ∧ ppte.perm &&& PTE_P ≠ 0 ∧ ppte.perm &&& PTE_U ≠ 0 ∧ ppte.perm &&& PTE_COW ≠ 0
      ∧ ppte.perm &&& PTE_W = 0 := by
  have hpn20 : pn < 2 ^ 20 := by
    unfold UTOP PGSIZE at hpn
    omega
  obtain ⟨g1, _, g3⟩ := pgnum_page pn hpn20
  rw [g3] at g1
  unfold page_lookup at hpte ⊢
  rw [g1] at hpte ⊢
  obtain ⟨hv, child, a1, _, _, _, a5, a6, _⟩ := duppage_cow_ret s t envid pn v pte hcur hpn20 hpte hw h
  have b1 : (PTE_U ||| PTE_P ||| PTE_COW) &&& PTE_P ≠ 0 := by decide
  have b2 : (PTE_U ||| PTE_P ||| PTE_COW) &&& PTE_U ≠ 0 := by decide
  have b3 : (PTE_U ||| PTE_P ||| PTE_COW) &&& PTE_COW ≠ 0 := by decide
  have b4 : (PTE_U ||| PTE_P ||| PTE_COW) &&& PTE_W = 0 := by decide
  exact ⟨hv, child, _, _, a1, a5, a6, rfl, rfl, rfl, rfl, b1, b2, b3, b4, b1, b2, b3, b4⟩

/-- Witness for C23: the sample parent duplicates its writable page 0x800 (frame 7) and its
copy-on-write page 0x801 (frame 8) into the child 0x1001. -/
theorem C23_duppage_writable_or_cow_witness :
    (∃ child cpte ppte,
      envid2env (sampleForkParent [(0x800, ⟨7, 7⟩), (0x801, ⟨8, 0x805⟩)]) 0x1001 true = some child
      ∧ page_lookup (getEnv (duppage (sampleForkParent [(0x800, ⟨7, 7⟩), (0x801, ⟨8, 0x805⟩)])
            0x1001 0x800).state child).env_pgdir (0x800 * PGSIZE) = some cpte
      ∧ page_lookup (curEnv (duppage (sampleForkParent [(0x800, ⟨7, 7⟩), (0x801, ⟨8, 0x805⟩)])
            0x1001 0x800).state).env_pgdir (0x800 * PGSIZE) = some ppte
      ∧ cpte.frame = 7 ∧ ppte.frame = 7
      ∧ cpte.perm = PTE_U ||| PTE_P ||| PTE_COW ∧ ppte.perm = PTE_U ||| PTE_P ||| PTE_COW)
    ∧ (∃ child cpte ppte,
      envid2env (sampleForkParent [(0x800, ⟨7, 7⟩), (0x801, ⟨8, 0x805⟩)]) 0x1001 true = some child
      ∧ page_lookup (getEnv (duppage (sampleForkParent [(0x800, ⟨7, 7⟩), (0x801, ⟨8, 0x805⟩)])
            0x1001 0x801).state child).env_pgdir (0x801 * PGSIZE) = some cpte
      ∧ page_lookup (curEnv (duppage (sampleForkParent [(0x800, ⟨7, 7⟩), (0x801, ⟨8, 0x805⟩)])
            0x1001 0x801).state).env_pgdir (0x801 * PGSIZE) = some ppte
      ∧ cpte.frame = 8 ∧ ppte.frame = 8
      ∧ cpte.perm = PTE_U ||| PTE_P ||| PTE_COW ∧ ppte.perm = PTE_U ||| PTE_P ||| PTE_COW) := by
  obtain ⟨_, c, cp, pp, h1, h2, h3, h4, h5, h6, h7, _⟩ :=
    C23_duppage_writable_or_cow (sampleForkParent [(0x800, ⟨7, 7⟩), (0x801, ⟨8, 0x805⟩)])
      (duppage (sampleForkParent [(0x800, ⟨7, 7⟩), (0x801, ⟨8, 0x805⟩)]) 0x1001 0x800).state
      0x1001 0x800 0 ⟨7, 7⟩ (by decide) (by decide) (by decide) (by decide) rfl
  obtain ⟨_, c', cp', pp', k1, k2, k3, k4, k5, k6, k7, _⟩ :=
    C23_duppage_writable_or_cow (sampleForkParent [(0x800, ⟨7, 7⟩), (0x801, ⟨8, 0x805⟩)])
      (duppage (sampleForkParent [(0x800, ⟨7, 7⟩), (0x801, ⟨8, 0x805⟩)]) 0x1001 0x801).state
      0x1001 0x801 0 ⟨8, 0x805⟩ (by decide) (by decide) (by decide) (by decide) rfl
  exact ⟨⟨c, cp, pp, h1, h2, h3, h4, h5, h6, h7⟩, ⟨c', cp', pp', k1, k2, k3, k4, k5, k6, k7⟩⟩

/-- C24 (duppage, read-only page): the code does not do what is claimed.  For every user page
number `pn` whose entry in the parent is present without `PTE_W` and without `PTE_COW`,
`duppage(envid, pn)` does not return 0: it asks `sys_page_map` for `PTE_W | PTE_P | PTE_U`,
which the kernel refuses for a source that is not writable, and stops in `panic`; nothing is
mapped into the child. -/
theorem C24_duppage_read_only_panics (s : State) (envid pn : Nat) (pte : Pte)
    (hpn : pn < UTOP / PGSIZE)
    (hpte : page_lookup (curEnv s).env_pgdir (pn * PGSIZE) = some pte)
    (hw : pte.perm &&& PTE_W = 0) (hcow : pte.perm &&& PTE_COW = 0) :
    duppage s envid pn = .panic s
    ∧ (sys_page_map s 0 (pn * PGSIZE) envid (pn * PGSIZE) (PTE_W ||| PTE_P ||| PTE_U)).1 < 0 := by
  have hpn20 : pn < 2 ^ 20 := by
    unfold UTOP PGSIZE at hpn
    omega
  obtain ⟨g1, _, g3⟩ := pgnum_page pn hpn20
  rw [g3] at g1
  unfold page_lookup at hpte
  rw [g1] at hpte
  refine ⟨duppage_not_writable s envid pn hpn20 (fun p hp => ?_), ?_⟩
  · rw [hpte] at hp
    cases hp
    exact ⟨hw, hcow⟩
  · rcases sys_page_map_cases s 0 (pn * PGSIZE) envid (pn * PGSIZE)
        (PTE_W ||| PTE_P ||| PTE_U) with
      ⟨_, ⟨h1, _⟩ | ⟨h1, _⟩⟩ | ⟨src, dst, p, a1, _, _, _, a5, _, a7, _, _⟩
    · rw [h1]
      decide
    · rw [h1]
      decide
    · rw [envid2env_zero] at a1
      have hsrc : src = s.curenv := (Option.some.inj a1).symm
      subst hsrc
      unfold page_lookup at a5
      rw [g1] at a5
      have hp : fmGet (curEnv s).env_pgdir.ptes pn = some p := a5
      rw [hpte] at hp
      cases hp
      exact absurd hw (a7 (by decide))

/-- Witness for C24: the sample parent has a read-only text page (frame 6, `PTE_P | PTE_U`) at
page 0x802; `duppage` for it into the child 0x1001 panics, the kernel having answered
`-E_INVAL`, and the child has no mapping there. -/
theorem C24_duppage_read_only_panics_witness :
    page_lookup (curEnv (sampleForkParent [(0x800, ⟨7, 7⟩), (0x802, ⟨6, 5⟩)])).env_pgdir
        (0x802 * PGSIZE) = some ⟨6, PTE_P ||| PTE_U⟩
    ∧ duppage (sampleForkParent [(0x800, ⟨7, 7⟩), (0x802, ⟨6, 5⟩)]) 0x1001 0x802
        = .panic (sampleForkParent [(0x800, ⟨7, 7⟩), (0x802, ⟨6, 5⟩)])
    ∧ (sys_page_map (sampleForkParent [(0x800, ⟨7, 7⟩), (0x802, ⟨6, 5⟩)]) 0 (0x802 * PGSIZE)
        0x1001 (0x802 * PGSIZE) (PTE_W ||| PTE_P ||| PTE_U)).1 = -E_INVAL
    ∧ page_lookup (getEnv (duppage (sampleForkParent [(0x800, ⟨7, 7⟩), (0x802, ⟨6, 5⟩)])
        0x1001 0x802).state 1).env_pgdir (0x802 * PGSIZE) = none :=
  ⟨by decide,
   (C24_duppage_read_only_panics (sampleForkParent [(0x800, ⟨7, 7⟩), (0x802, ⟨6, 5⟩)]) 0x1001
      0x802 ⟨6, 5⟩ (by decide) (by decide) (by decide) (by decide)).1,
   by decide, by decide⟩

/-- The parent branch of `fork`, as far as it gets, and when it returns.  The calls of
`duppage(envid, pn)` are for distinct page numbers, each with `pn < UTOP / PGSIZE`, other than the exception-stack page
`UXSTACKTOP / PGSIZE - 1`, and with page-directory entry and leaf entry present in the parent;
when the branch returns, `duppage` has been called for every such page number, and the child's
page at `UXSTACKTOP - PGSIZE` is a frame taken from the free list by `sys_page_alloc` (zeroed),
mapped with `PTE_W | PTE_U | PTE_P` while the child's status was still the one it had before,
and the child is `ENV_RUNNABLE` at the end. -/
theorem fork_parent_spec (s : State) (envid upcall : Nat) (o : UserOutcome)
    (calls : List Nat) (hcur : s.curenv < s.envs.length)
    (h : fork_parent s envid upcall = (o, calls)) :
    calls.Nodup
    ∧ (∀ pn, pn ∈ calls →
        pn < UTOP / PGSIZE ∧ pn ≠ UXSTACKTOP / PGSIZE - 1
        ∧ vpd s (pn >>> 10) &&& PTE_P ≠ 0 ∧ vpt s pn &&& PTE_P ≠ 0)
    ∧ (∀ v t, o = .ret v t →
        (∀ pn, pn < UTOP / PGSIZE → pn ≠ UXSTACKTOP / PGSIZE - 1 →
          vpd s (pn >>> 10) &&& PTE_P ≠ 0 → vpt s pn &&& PTE_P ≠ 0 → pn ∈ calls)
        ∧ ∃ v0 s1 child frame,
            fork_scan envid (UTOP / PGSIZE - 1) s [] = (.ret v0 s1, calls)
            ∧ envid2env s1 envid true = some child
            ∧ s1.page_free_list.head? = some frame
            ∧ (sys_page_alloc s1 envid (UXSTACKTOP - PGSIZE) (PTE_W ||| PTE_U ||| PTE_P)).1 = 0
            ∧ page_lookup (getEnv (sys_page_alloc s1 envid (UXSTACKTOP - PGSIZE)
                  (PTE_W ||| PTE_U ||| PTE_P)).2 child).env_pgdir (UXSTACKTOP - PGSIZE)
                = some ⟨frame, PTE_W ||| PTE_U ||| PTE_P⟩
            ∧ (getEnv (sys_page_alloc s1 envid (UXSTACKTOP - PGSIZE)
                  (PTE_W ||| PTE_U ||| PTE_P)).2 child).env_status = (getEnv s1 child).env_status
            ∧ page_lookup (getEnv t child).env_pgdir (UXSTACKTOP - PGSIZE)
                = some ⟨frame, PTE_W ||| PTE_U ||| PTE_P⟩
            ∧ (∀ off, off < PGSIZE → physByte t (frame * PGSIZE + off) = 0)
            ∧ (getEnv t child).env_status = ENV_RUNNABLE) := by
  have hn : UTOP / PGSIZE - 1 ≤ 2 ^ 20 := by decide
  have hx : UXSTACKTOP / PGSIZE - 1 = UTOP / PGSIZE - 1 := rfl
  unfold fork_parent at h
  cases hscan : fork_scan envid (UTOP / PGSIZE - 1) s [] with
  | mk o1 c1 =>
    obtain ⟨new, n1, n2, n3, n4⟩ := fork_scan_spec envid _ s [] o1 c1 hcur hn hscan
    rw [List.nil_append] at n1
    subst n1
    have hmem : ∀ pn, pn ∈ c1 →
        pn < UTOP / PGSIZE ∧ pn ≠ UXSTACKTOP / PGSIZE - 1
        ∧ vpd s (pn >>> 10) &&& PTE_P ≠ 0 ∧ vpt s pn &&& PTE_P ≠ 0 := by
      intro pn hpn
      obtain ⟨a1, a2⟩ := n3 pn hpn
      rw [hx]
      exact ⟨by omega, by omega, a2⟩
    rw [hscan] at h
    cases o1 with
    | panic s1 =>
      simp only [Prod.mk.injEq] at h
      obtain ⟨h1, h2⟩ := h
      subst h1 h2
      exact ⟨n2, hmem, fun v t hvt => by cases hvt⟩
    | fault s1 =>
      simp only [Prod.mk.injEq] at h
      obtain ⟨h1, h2⟩ := h
      subst h1 h2
      exact ⟨n2, hmem, fun v t hvt => by cases hvt⟩
    | ret v0 s1 =>
      obtain ⟨m1, m2, m3⟩ := n4 v0 s1 rfl
      have hcur1 : s1.curenv < s1.envs.length := by
        rw [m2, m3]
        exact hcur
      simp only [] at h
      by_cases c1' : (sys_page_alloc s1 envid (UXSTACKTOP - PGSIZE)
          (PTE_W ||| PTE_U ||| PTE_P)).1 < 0
      · rw [if_pos c1'] at h
        simp only [Prod.mk.injEq] at h
        obtain ⟨h1, h2⟩ := h
        subst h1 h2
        exact ⟨n2, hmem, fun v t hvt => by cases hvt⟩
      rw [if_neg c1'] at h
      obtain ⟨child, frame, rest, p1, p2, p3, _, p5, p6, p7, _, _, p10⟩ :=
        sys_page_alloc_inv s1 envid _ _ hcur1 c1'
      obtain ⟨r1, hr1⟩ : ∃ r1, r1 = sys_page_alloc s1 envid (UXSTACKTOP - PGSIZE)
          (PTE_W ||| PTE_U ||| PTE_P) := ⟨_, rfl⟩
      rw [← hr1] at h p5 p6 p7 p10
      obtain ⟨q1, q2, q3, q4, q5⟩ := p6
      have hcur2 : r1.2.curenv < r1.2.envs.length := by
        rw [q1, q2]
        exact hcur1
      by_cases c2 : (sys_env_set_pgfault_upcall r1.2 envid upcall).1 < 0
      · rw [if_pos c2] at h
        simp only [Prod.mk.injEq] at h
        obtain ⟨h1, h2⟩ := h
        subst h1 h2
        exact ⟨n2, hmem, fun v t hvt => by cases hvt⟩
      rw [if_neg c2] at h
      obtain ⟨u1, u2, u3, u4, u5⟩ := sys_env_set_pgfault_upcall_inv r1.2 envid upcall c2
      obtain ⟨r2, hr2⟩ : ∃ r2, r2 = sys_env_set_pgfault_upcall r1.2 envid upcall := ⟨_, rfl⟩
      rw [← hr2] at h u1 u2 u3 u4 u5
      have hcur3 : r2.2.curenv < r2.2.envs.length := by
        rw [u1, u2]
        exact hcur2
      by_cases c3 : (sys_env_set_status r2.2 envid ENV_RUNNABLE).1 < 0
      · rw [if_pos c3] at h
        simp only [Prod.mk.injEq] at h
        obtain ⟨h1, h2⟩ := h
        subst h1 h2
        exact ⟨n2, hmem, fun v t hvt => by cases hvt⟩
      rw [if_neg c3] at h
      obtain ⟨task, w1, _, w3, w4, w5⟩ := sys_env_set_status_inv r2.2 envid ENV_RUNNABLE hcur3 c3
      rw [u4, q5, p1] at w1
      have htask : child = task := Option.some.inj w1
      subst htask
      simp only [Prod.mk.injEq] at h
      obtain ⟨h1, h2⟩ := h
      subst h1 h2
      refine ⟨n2, hmem, fun v t hvt => ?_⟩
      simp only [UserOutcome.ret.injEq] at hvt
      obtain ⟨_, ht⟩ := hvt
      subst ht
      refine ⟨fun pn a1 a2 a3 a4 => m1 pn (by rw [hx] at a2; omega) a3 a4, v0, s1, child, frame,
        rfl, p1, by rw [p3]; rfl, by rw [← hr1]; exact p5, ?_, ?_, ?_, ?_, w4⟩
      · rw [← hr1]
        unfold page_lookup
        exact p7
      · rw [← hr1, q4]
      · unfold page_lookup
        rw [w3, (u3 child).1]
        exact p7
      · intro off hoff
        have e1 : physByte (sys_env_set_status r2.2 envid ENV_RUNNABLE).2 (frame * PGSIZE + off)
            = physByte r1.2 (frame * PGSIZE + off) := by
          unfold physByte
          rw [w5, u5]
        rw [e1, p10, if_pos]
        unfold PGSIZE at hoff ⊢
        omega

/-- The parent branch of `fork` on a sample without a read-only page: the sample parent has a
writable page 0x800, a copy-on-write page 0x801 and its exception stack (page 0xEEBFF); the parent branch of `fork` returns the child's id
after calling `duppage` for 0x801 and 0x800 only, and the child is runnable with a fresh
exception stack. -/
theorem fork_parent_spec_sample :
    ∃ t, fork_parent (sampleForkParent [(0x800, ⟨7, 7⟩), (0x801, ⟨8, 0x805⟩), (0xEEBFF, ⟨11, 7⟩)])
          0x1001 0x800020 = (.ret (toInt32 0x1001) t, [0x801, 0x800])
      ∧ (∀ pn, pn < UTOP / PGSIZE → pn ≠ UXSTACKTOP / PGSIZE - 1 →
          vpd (sampleForkParent [(0x800, ⟨7, 7⟩), (0x801, ⟨8, 0x805⟩), (0xEEBFF, ⟨11, 7⟩)])
            (pn >>> 10) &&& PTE_P ≠ 0 →
          vpt (sampleForkParent [(0x800, ⟨7, 7⟩), (0x801, ⟨8, 0x805⟩), (0xEEBFF, ⟨11, 7⟩)])
            pn &&& PTE_P ≠ 0 → pn ∈ [0x801, 0x800])
      ∧ page_lookup (getEnv t 1).env_pgdir (UXSTACKTOP - PGSIZE)
          = some ⟨10, PTE_W ||| PTE_U ||| PTE_P⟩
      ∧ (getEnv t 1).env_status = ENV_RUNNABLE := by
  have habs : ∀ pn, pn ≠ 0x800 → pn ≠ 0x801 → pn ≠ 0xEEBFF →
      ¬ (vpd (sampleForkParent [(0x800, ⟨7, 7⟩), (0x801, ⟨8, 0x805⟩), (0xEEBFF, ⟨11, 7⟩)])
            (pn >>> 10) &&& PTE_P ≠ 0 ∧
          vpt (sampleForkParent [(0x800, ⟨7, 7⟩), (0x801, ⟨8, 0x805⟩), (0xEEBFF, ⟨11, 7⟩)])
            pn &&& PTE_P ≠ 0) := by
    intro pn h1 h2 h3 hc
    apply hc.2
    rw [vpt_of_none]
    · rfl
    · show fmGet [(0x800, (⟨7, 7⟩ : Pte)), (0x801, ⟨8, 0x805⟩), (0xEEBFF, ⟨11, 7⟩)] pn = none
      simp only [fmGet]
      rw [if_neg (fun h => h1 h.symm), if_neg (fun h => h2 h.symm), if_neg (fun h => h3 h.symm)]
  have hd1 : duppage (sampleForkParent [(0x800, ⟨7, 7⟩), (0x801, ⟨8, 0x805⟩), (0xEEBFF, ⟨11, 7⟩)])
      0x1001 0x801
      = .ret 0 (duppage (sampleForkParent [(0x800, ⟨7, 7⟩), (0x801, ⟨8, 0x805⟩),
          (0xEEBFF, ⟨11, 7⟩)]) 0x1001 0x801).state := rfl
  obtain ⟨s1, hs1⟩ : ∃ s1, s1 = (duppage (sampleForkParent [(0x800, ⟨7, 7⟩), (0x801, ⟨8, 0x805⟩),
      (0xEEBFF, ⟨11, 7⟩)]) 0x1001 0x801).state := ⟨_, rfl⟩
  have hd2 : duppage s1 0x1001 0x800 = .ret 0 (duppage s1 0x1001 0x800).state := by
    rw [hs1]
    rfl
  obtain ⟨s2, hs2⟩ : ∃ s2, s2 = (duppage s1 0x1001 0x800).state := ⟨_, rfl⟩
  rw [← hs1] at hd1
  rw [← hs2] at hd2
  have hp1 : vpd (sampleForkParent [(0x800, ⟨7, 7⟩), (0x801, ⟨8, 0x805⟩), (0xEEBFF, ⟨11, 7⟩)])
        (0x801 >>> 10) &&& PTE_P ≠ 0 ∧
      vpt (sampleForkParent [(0x800, ⟨7, 7⟩), (0x801, ⟨8, 0x805⟩), (0xEEBFF, ⟨11, 7⟩)])
        0x801 &&& PTE_P ≠ 0 := by decide
  obtain ⟨i1, i2, i3, i4⟩ := duppage_present_inv _ s1 0x1001 0x801 0 (by decide) (by decide) hp1 hd1
  have hp2 : vpd s1 (0x800 >>> 10) &&& PTE_P ≠ 0 ∧ vpt s1 0x800 &&& PTE_P ≠ 0 := by
    rw [i3]
    exact ⟨by decide, (i4 0x800).2 (by decide)⟩
  obtain ⟨j1, j2, j3, j4⟩ := duppage_present_inv s1 s2 0x1001 0x800 0
    (by rw [i1, i2]; decide) (by decide) hp2 hd2
  have hscan : fork_scan 0x1001 (UTOP / PGSIZE - 1)
      (sampleForkParent [(0x800, ⟨7, 7⟩), (0x801, ⟨8, 0x805⟩), (0xEEBFF, ⟨11, 7⟩)]) []
      = (.ret 0 s2, [0x801, 0x800]) := by
    rw [fork_scan_skip 0x1001 _ [] 0x802 (UTOP / PGSIZE - 1) (by decide)
      (fun pn h1 h2 => habs pn (by omega) (by omega) (by
        have : UTOP / PGSIZE - 1 = 0xEEBFF := by decide
        omega))]
    rw [fork_scan_step 0x1001 _ s1 [] 0x801 0 hp1 hd1]
    rw [fork_scan_step 0x1001 s1 s2 _ 0x800 0 hp2 hd2]
    rw [fork_scan_skip 0x1001 s2 _ 0 0x800 (by decide) (fun pn h1 h2 hc => by
      have hc1 : vpd s1 (pn >>> 10) &&& PTE_P ≠ 0 ∧ vpt s1 pn &&& PTE_P ≠ 0 := by
        rw [← j3]
        exact ⟨hc.1, (j4 pn).1 hc.2⟩
      have hc0 := habs pn (by omega) (by omega) (by omega)
      apply hc0
      rw [← i3]
      exact ⟨hc1.1, (i4 pn).1 hc1.2⟩)]
    rfl
  have hfork : fork_parent (sampleForkParent [(0x800, ⟨7, 7⟩), (0x801, ⟨8, 0x805⟩),
        (0xEEBFF, ⟨11, 7⟩)]) 0x1001 0x800020
      = (.ret (toInt32 0x1001) (sys_env_set_status (sys_env_set_pgfault_upcall (sys_page_alloc s2 0x1001
          (UXSTACKTOP - PGSIZE) (PTE_W ||| PTE_U ||| PTE_P)).2 0x1001 0x800020).2 0x1001
          ENV_RUNNABLE).2, [0x801, 0x800]) := by
    have c1 : ¬ (sys_page_alloc s2 0x1001 (UXSTACKTOP - PGSIZE)
        (PTE_W ||| PTE_U ||| PTE_P)).1 < 0 := by
      rw [hs2, hs1]
      decide
    have c2 : ¬ (sys_env_set_pgfault_upcall (sys_page_alloc s2 0x1001 (UXSTACKTOP - PGSIZE)
        (PTE_W ||| PTE_U ||| PTE_P)).2 0x1001 0x800020).1 < 0 := by
      rw [hs2, hs1]
      decide
    have c3 : ¬ (sys_env_set_status (sys_env_set_pgfault_upcall (sys_page_alloc s2 0x1001
        (UXSTACKTOP - PGSIZE) (PTE_W ||| PTE_U ||| PTE_P)).2 0x1001 0x800020).2 0x1001
        ENV_RUNNABLE).1 < 0 := by
      rw [hs2, hs1]
      decide
    exact fork_parent_of_scan _ 0x1001 0x800020 0 s2 _ hscan c1 c2 c3
  obtain ⟨_, _, h3⟩ := fork_parent_spec _ 0x1001 0x800020 _ _ (by decide) hfork
  obtain ⟨k1, v0, s1', child, frame, k2, k3, k4, k5, k6, k7, k8, k9, k10⟩ := h3 _ _ rfl
  rw [hscan] at k2
  simp only [Prod.mk.injEq, UserOutcome.ret.injEq, and_true] at k2
  obtain ⟨_, k2⟩ := k2
  subst k2
  have hc : envid2env s2 0x1001 true = some 1 := by
    rw [hs2, hs1]
    rfl
  rw [hc] at k3
  have hchild : child = 1 := (Option.some.inj k3).symm
  subst hchild
  have hf : s2.page_free_list.head? = some 10 := by
    rw [hs2, hs1]
    rfl
  rw [hf] at k4
  have hframe : frame = 10 := (Option.some.inj k4).symm
  subst hframe
  exact ⟨_, hfork, k1, k8, k10⟩

/-- C25 as stated fails for a fault inside the page at `PFTEMP` itself: with that page mapped
copy-on-write and a write fault at `PFTEMP + 8`, the three system calls of `pgfault` succeed
and it returns, but the page that contains the faulting address is not mapped afterwards (the
final `sys_page_unmap` of `PFTEMP` removes the page just installed). -/
theorem C25_fault_in_pftemp_page_ends_unmapped :
    PGNUM 0x7ff008 = PGNUM PFTEMP
    ∧ (7 : Nat) &&& FEC_WR ≠ 0
    ∧ vpt (sampleCowState [(0x7ff, ⟨7, 0x805⟩)]) (PGNUM 0x7ff008) &&& PTE_COW ≠ 0
    ∧ pgfault (sampleCowState [(0x7ff, ⟨7, 0x805⟩)])
        { (default : UTrapframe) with utf_fault_va := 0x7ff008, utf_err := 7 }
      = .ret 0 (pgfault (sampleCowState [(0x7ff, ⟨7, 0x805⟩)])
          { (default : UTrapframe) with utf_fault_va := 0x7ff008, utf_err := 7 }).state
    ∧ page_lookup (curEnv (pgfault (sampleCowState [(0x7ff, ⟨7, 0x805⟩)])
          { (default : UTrapframe) with utf_fault_va := 0x7ff008, utf_err := 7 }).state).env_pgdir
        0x7ff008 = none :=
  ⟨by decide, by decide, by decide, rfl, by decide⟩

/-- C25 (copy-on-write fault handler), amended.  `pgfault` panics unless the error code has
`FEC_WR` and the entry of the faulting page has `PTE_COW`.  When it returns (its three system
calls succeeded), for a faulting address outside the page at `PFTEMP` and a kernel state in
which the frame mapped at the fault is not on the free list: the page containing the faulting
address is mapped in the current environment to a different frame with permission exactly
`PTE_U | PTE_W | PTE_P`, its 4096 bytes read as before the fault, `PFTEMP` is unmapped, the
bytes of the frame mapped before are unchanged, and every other environment is as before. -/
theorem C25_pgfault_private_copy (s : State) (utf : UTrapframe)
    (hcur : s.curenv < s.envs.length) :
    (¬ (utf.utf_err &&& FEC_WR ≠ 0 ∧ vpt s (PGNUM utf.utf_fault_va) &&& PTE_COW ≠ 0) →
      pgfault s utf = .panic s)
    ∧ (∀ v t old, pgfault s utf = .ret v t →
        page_lookup (curEnv s).env_pgdir utf.utf_fault_va = some old →
        PGNUM utf.utf_fault_va ≠ PGNUM PFTEMP →
        old.frame ∉ s.page_free_list →
        v = 0
        ∧ ∃ new, page_lookup (curEnv t).env_pgdir utf.utf_fault_va
              = some ⟨new, PTE_U ||| PTE_W ||| PTE_P⟩
          ∧ new ≠ old.frame
          ∧ (∀ off, off < PGSIZE →
              readByte t (curEnv t) (ROUNDDOWN utf.utf_fault_va PGSIZE + off)
                = readByte s (curEnv s) (ROUNDDOWN utf.utf_fault_va PGSIZE + off))
          ∧ page_lookup (curEnv t).env_pgdir PFTEMP = none
          ∧ (∀ off, off < PGSIZE →
              physByte t (old.frame * PGSIZE + off) = physByte s (old.frame * PGSIZE + off))
          ∧ (∀ j, j ≠ s.curenv → getEnv t j = getEnv s j)) := by
  constructor
  · intro hc
    unfold pgfault
    simp only []
    rw [if_pos hc]
  · intro v t old h hold hne hfree
    unfold page_lookup at hold
    obtain ⟨hv, new, rest, a1, _, a3, a4, _, a6, a7, a8⟩ := pgfault_ret s t utf v old hcur hold hne h
    have hnew : new ≠ old.frame := by
      intro hc
      apply hfree
      rw [a1, ← hc]
      exact List.mem_cons_self _ _
    refine ⟨hv, new, a3, hnew, fun off hoff => ?_, a4, fun off hoff => ?_, a6⟩
    · obtain ⟨e1, e2, _⟩ := rounddown_page utf.utf_fault_va off hoff
      unfold readByte page_lookup
      rw [e1, e2, a3, hold]
      exact a7 hnew off hoff
    · apply a8
      intro hc
      apply hnew
      rw [← hc]
      unfold PGSIZE at hoff ⊢
      omega

/-- Witness for C25: a write fault at 0x00800123 in the sample environment, whose page 0x800 is
mapped copy-on-write to frame 7 shared with environment 0x1001; afterwards the page is mapped
writable to frame 9, byte 0x123 still reads 0xAB, and the other environment still maps frame
7. -/
theorem C25_pgfault_private_copy_witness :
    pgfault (sampleCowState [(0x800, ⟨7, 0x805⟩)])
        { (default : UTrapframe) with utf_fault_va := 0x800123, utf_err := 7 }
      = .ret 0 (pgfault (sampleCowState [(0x800, ⟨7, 0x805⟩)])
          { (default : UTrapframe) with utf_fault_va := 0x800123, utf_err := 7 }).state
    ∧ page_lookup (curEnv (sampleCowState [(0x800, ⟨7, 0x805⟩)])).env_pgdir 0x800123
        = some ⟨7, 0x805⟩
    ∧ (∃ new, page_lookup (curEnv (pgfault (sampleCowState [(0x800, ⟨7, 0x805⟩)])
            { (default : UTrapframe) with utf_fault_va := 0x800123, utf_err := 7 }).state).env_pgdir
            0x800123 = some ⟨new, PTE_U ||| PTE_W ||| PTE_P⟩
        ∧ new ≠ 7)
    ∧ readByte (pgfault (sampleCowState [(0x800, ⟨7, 0x805⟩)])
          { (default : UTrapframe) with utf_fault_va := 0x800123, utf_err := 7 }).state
        (curEnv (pgfault (sampleCowState [(0x800, ⟨7, 0x805⟩)])
          { (default : UTrapframe) with utf_fault_va := 0x800123, utf_err := 7 }).state)
        (ROUNDDOWN 0x800123 PGSIZE + 0x123) = 0xAB
    ∧ getEnv (pgfault (sampleCowState [(0x800, ⟨7, 0x805⟩)])
          { (default : UTrapframe) with utf_fault_va := 0x800123, utf_err := 7 }).state 1
        = getEnv (sampleCowState [(0x800, ⟨7, 0x805⟩)]) 1 := by
  obtain ⟨_, new, h1, h2, h3, _, _, h6⟩ :=
    (C25_pgfault_private_copy (sampleCowState [(0x800, ⟨7, 0x805⟩)])
      { (default : UTrapframe) with utf_fault_va := 0x800123, utf_err := 7 } (by decide)).2
      0 (pgfault (sampleCowState [(0x800, ⟨7, 0x805⟩)])
          { (default : UTrapframe) with utf_fault_va := 0x800123, utf_err := 7 }).state
      ⟨7, 0x805⟩ rfl (by decide) (by decide) (by decide)
  exact ⟨rfl, by decide, ⟨new, h1, h2⟩, (h3 0x123 (by decide)).trans (by decide),
    h6 1 (by decide)⟩

/-- C27 (writable segment contents): the code does not do what is claimed when `p_offset` is
not page-aligned.  For the segment `p_offset = 0x1004`, `p_va = 0x00800004`,
`p_filesz = p_memsz = 8` (so `PGOFF(p_offset) = PGOFF(p_va)`), `load_elf_to_child` returns 0,
but the child's byte at `p_va` is the file's byte at offset 0x1000, not the one at `p_offset`:
the code seeks to `ROUNDDOWN(offset, PGSIZE)` and reads `size` bytes from there into
`UTEMP + PGOFF(offset)`. -/
theorem C27_unaligned_offset_loads_wrong_bytes :
    (sampleSegment 0x1004 0x800004 8 8).p_offset % PGSIZE
        = (sampleSegment 0x1004 0x800004 8 8).p_va % PGSIZE
    ∧ (sampleSegment 0x1004 0x800004 8 8).p_flags &&& ELF_PROG_FLAG_WRITE ≠ 0
    ∧ (∃ t, load_elf_to_child 4 (sampleForkParent []) sampleFile
          (sampleSegment 0x1004 0x800004 8 8) 0x1001 (fun _ => 0) = some (.ret 0 t)
        ∧ page_lookup (getEnv t 1).env_pgdir 0x800004 = some ⟨9, PTE_P ||| PTE_U ||| PTE_W⟩
        ∧ readByte t (getEnv t 1) 0x800004 = sampleFile.byte 0x1000
        ∧ readByte t (getEnv t 1) 0x800004 ≠ sampleFile.byte 0x1004
        ∧ readByte t (getEnv t 1) (0x800004 + 7) = sampleFile.byte (0x1000 + 7)
        ∧ readByte t (getEnv t 1) (0x800004 + 7) ≠ sampleFile.byte (0x1004 + 7)) := by
  refine ⟨by decide, by decide, _, rfl, ?_⟩
  decide

/-- C29 (writable segment coverage): the code does not do what is claimed when `p_filesz = 0`
and `p_va` is not page-aligned.  For the segment `p_va = 0x00800ff0`, `p_filesz = 0`,
`p_memsz = 0x20`, `load_elf_to_child` returns 0 having mapped the page at 0x00801000 only; the
page at 0x00800000, which holds the first 16 bytes of the segment, is not mapped in the child:
the zero-fill loop starts at `ROUNDUP(p_va, PGSIZE)`. -/
theorem C29_first_page_of_bss_not_mapped :
    (sampleSegment 0x1000 0x800ff0 0 0x20).p_flags &&& ELF_PROG_FLAG_WRITE ≠ 0
    ∧ (sampleSegment 0x1000 0x800ff0 0 0x20).p_memsz > 0
    ∧ (sampleSegment 0x1000 0x800ff0 0 0x20).p_va + (sampleSegment 0x1000 0x800ff0 0 0x20).p_memsz
        < 2 ^ 32
    ∧ (∃ t, load_elf_to_child 4 (sampleForkParent []) sampleFile
          (sampleSegment 0x1000 0x800ff0 0 0x20) 0x1001 (fun _ => 0) = some (.ret 0 t)
        ∧ page_lookup (getEnv t 1).env_pgdir 0x801000 = some ⟨9, PTE_P ||| PTE_U ||| PTE_W⟩
        ∧ page_lookup (getEnv t 1).env_pgdir 0x800ff0 = none) := by
  refine ⟨by decide, by decide, by decide, _, rfl, ?_⟩
  decide

/-- C30 (argv size check): the code does not do what is claimed when the size computation
wraps.  For one argument of 0x401000 bytes (`S = UTEMP + PGSIZE + 1`, far more than a page),
`UTEMP + PGSIZE - S` wraps to 0xFFFFFFFF, the test `argv_store - 2 < UTEMP` is false, and
`init_stack` does not return `-E_NO_MEM`: it allocates and maps a page at `UTEMP` and then
stores the string from address 0xFFFFFFFF on, outside `[UTEMP, UTEMP + PGSIZE)`, where the
store traps. -/
theorem C30_oversized_argv_passes_size_check (str : List Nat) (hlen : str.length = 0x401000) :
    ¬ argv_fits [str]
    ∧ string_size [str] = UTEMP + PGSIZE + 1
    ∧ string_store0 [str] = 0xFFFFFFFF
    ∧ ¬ (sub32 (argv_store0 [str]) 8 < UTEMP)
    ∧ (sys_page_alloc (sampleForkParent []) 0 UTEMP (PTE_P ||| PTE_U ||| PTE_W)).1 = 0
    ∧ page_lookup (curEnv (sys_page_alloc (sampleForkParent []) 0 UTEMP
        (PTE_P ||| PTE_U ||| PTE_W)).2).env_pgdir UTEMP = some ⟨9, PTE_P ||| PTE_U ||| PTE_W⟩
    ∧ (init_stack_stores [str]).head? = some (0xFFFFFFFF, str)
    ∧ ¬ (UTEMP ≤ 0xFFFFFFFF ∧ 0xFFFFFFFF < UTEMP + PGSIZE)
    ∧ init_stack (sampleForkParent []) 0x1001 [str]
        = (.fault (sys_page_alloc (sampleForkParent []) 0 UTEMP (PTE_P ||| PTE_U ||| PTE_W)).2,
            none) := by
  have h1 : string_size [str] = UTEMP + PGSIZE + 1 := by
    simp only [string_size, List.foldl, hlen]
    decide
  have h2 : string_store0 [str] = 0xFFFFFFFF := by
    unfold string_store0
    rw [h1]
    decide
  have h3 : argv_store0 [str] = 0xFFFFFFF4 := by
    unfold argv_store0
    rw [h2, show [str].length = 1 from rfl]
    decide
  have h4 : ¬ (sub32 (argv_store0 [str]) 8 < UTEMP) := by
    rw [h3]
    decide
  have h5 : init_stack_stores [str]
      = [(0xFFFFFFFF, str), (add32 0xFFFFFFFF str.length, [0]),
          (0xFFFFFFF4, word_bytes (UTEMP2USTACK 0xFFFFFFFF)),
          (add32 0xFFFFFFF4 (4 * [str].length % 2 ^ 32), word_bytes 0),
          (sub32 0xFFFFFFF4 4, word_bytes (UTEMP2USTACK 0xFFFFFFF4)),
          (sub32 0xFFFFFFF4 8, word_bytes [str].length)] := by
    unfold init_stack_stores
    rw [h2, h3]
    rfl
  have h6 : user_store (sys_page_alloc (sampleForkParent []) 0 UTEMP
      (PTE_P ||| PTE_U ||| PTE_W)).2 0xFFFFFFFF str = none := by
    unfold user_store
    rw [hlen, if_neg (by decide), if_neg]
    rw [user_mem_check_first_unmapped _ _ _ _ (by decide) (by decide)]
    decide
  have h7 : ¬ argv_fits [str] := by
    intro hf
    have := hf.1
    simp only [argv_bytes, List.map, List.sum_cons, List.sum_nil, hlen] at this
    exact absurd this (by decide)
  refine ⟨h7, h1, h2, h4, by decide, by decide, by rw [h5]; rfl, by decide, ?_⟩
  unfold init_stack
  rw [if_neg h4]
  simp only []
  rw [if_neg (by decide), h5]
  simp only [perform_stores, h6]
  rfl

/-- Witness for C30: an argument of 0x401000 bytes `A`. -/
theorem C30_oversized_argv_passes_size_check_witness :
    (List.replicate 0x401000 0x41).length = 0x401000
    ∧ ¬ (sub32 (argv_store0 [List.replicate 0x401000 0x41]) 8 < UTEMP)
    ∧ init_stack (sampleForkParent []) 0x1001 [List.replicate 0x401000 0x41]
        = (.fault (sys_page_alloc (sampleForkParent []) 0 UTEMP (PTE_P ||| PTE_U ||| PTE_W)).2,
            none) :=
  ⟨List.length_replicate _ _,
   (C30_oversized_argv_passes_size_check _ (List.length_replicate _ _)).2.2.2.1,
   (C30_oversized_argv_passes_size_check _ (List.length_replicate _ _)).2.2.2.2.2.2.2.2⟩

/-- C26 (argv stack round trip).  In a state in which the caller has no user-writable page at
or above `UTOP`, whenever `init_stack` returns 0 the arguments fit in one page (strings,
`(argc + 1)` pointers at a 4-byte aligned address and two words), and the page it mapped into
the child at `USTACKTOP - PGSIZE` with `PTE_P | PTE_U | PTE_W` decodes back to the arguments:
`*init_esp` is 4-byte aligned and lies in `[USTACKTOP - PGSIZE, USTACKTOP)`, the word at
`*init_esp` is `argc`, the word at `*init_esp + 4` is `*init_esp + 8`, the array entry `i` at
`*init_esp + 8 + 4 * i` is a child address inside the page at which the bytes of the argument
`i` are stored followed by a NUL, the entry `argc` is 0, and the parent's `UTEMP` is
unmapped. -/
theorem C26_init_stack_round_trip (s t : State) (child : Nat) (argv : List (List Nat))
    (esp : Nat) (hcur : s.curenv < s.envs.length) (hinv : UserWritableBelowUTOP (curEnv s))
    (h : init_stack s child argv = (.ret 0 t, some esp)) :
    argv_fits argv
    ∧ ∃ c f, envid2env s child true = some c
      ∧ page_lookup (getEnv t c).env_pgdir (USTACKTOP - PGSIZE)
          = some ⟨f, PTE_P ||| PTE_U ||| PTE_W⟩
      ∧ esp % 4 = 0 ∧ USTACKTOP - PGSIZE ≤ esp ∧ esp < USTACKTOP
      ∧ readWord t (getEnv t c) esp = argv.length
      ∧ readWord t (getEnv t c) (esp + 4) = esp + 8
      ∧ (∀ i str, argv.get? i = some str →
          USTACKTOP - PGSIZE ≤ readWord t (getEnv t c) (esp + 8 + 4 * i)
          ∧ readWord t (getEnv t c) (esp + 8 + 4 * i) + str.length < USTACKTOP
          ∧ (∀ j, j < str.length →
              readByte t (getEnv t c) (readWord t (getEnv t c) (esp + 8 + 4 * i) + j)
                = str.getD j 0)
          ∧ readByte t (getEnv t c) (readWord t (getEnv t c) (esp + 8 + 4 * i) + str.length) = 0)
      ∧ readWord t (getEnv t c) (esp + 8 + 4 * argv.length) = 0
      ∧ page_lookup (curEnv t).env_pgdir UTEMP = none := by
  unfold init_stack at h
  by_cases hchk : sub32 (argv_store0 argv) 8 < UTEMP
  · rw [if_pos hchk] at h
    simp at h
  rw [if_neg hchk] at h
  simp only [] at h
  obtain ⟨r1, hr1⟩ : ∃ r1, r1 = sys_page_alloc s 0 UTEMP (PTE_P ||| PTE_U ||| PTE_W) := ⟨_, rfl⟩
  rw [← hr1] at h
  by_cases c1 : r1.1 < 0
  · rw [if_pos c1] at h
    simp at h
  rw [if_neg c1] at h
  rw [hr1] at c1
  obtain ⟨task, f, rest, p1, _, _, _, _, p6, p7, p8, _, _⟩ :=
    sys_page_alloc_inv s 0 UTEMP _ hcur c1
  rw [← hr1] at p6 p7 p8
  rw [envid2env_zero] at p1
  have htask : task = s.curenv := (Option.some.inj p1).symm
  subst htask
  obtain ⟨q1, q2, _, _, q5⟩ := p6
  have hP1 : fmGet (curEnv r1.2).env_pgdir.ptes (PGNUM UTEMP)
      = some ⟨f, PTE_P ||| PTE_U ||| PTE_W⟩ := by
    unfold curEnv
    rw [q1]
    exact p7
  have hI1 : UserWritableBelowUTOP (curEnv r1.2) := by
    intro pn pte hg hp
    by_cases hk : pn = PGNUM UTEMP
    · rw [hk]
      decide
    · unfold curEnv at hg
      rw [q1, p8 pn hk] at hg
      exact hinv pn pte hg hp
  obtain ⟨w, hw⟩ : ∃ w, w = perform_stores r1.2 (init_stack_stores argv) := ⟨_, rfl⟩
  rw [← hw] at h
  by_cases cw : w.2 = false
  · rw [if_pos cw] at h
    simp at h
  rw [if_neg cw] at h
  have hw2 : perform_stores r1.2 (init_stack_stores argv) = (w.1, true) := by
    rw [← hw]
    cases hb : w.2 with
    | false => exact absurd hb cw
    | true => rw [← hb]
  have hfit : argv_fits argv := init_stack_stores_fit r1.2 w.1 argv hI1 hchk hw2
  refine ⟨hfit, ?_⟩
  obtain ⟨s2, w1, w2, w3, f1, f2, f3, f4⟩ := init_stack_stores_page f argv r1.2 hfit hP1
  have hs2 : w.1 = s2 := by
    rw [hw, w1]
  rw [hs2] at h
  clear hw hw2 hs2 cw w hI1 hinv p8
  have hcur2 : s2.curenv < s2.envs.length := by
    rw [w3, w2, q1, q2]
    exact hcur
  obtain ⟨r2, hr2⟩ : ∃ r2, r2 = sys_page_map s2 0 UTEMP child (USTACKTOP - PGSIZE)
      (PTE_P ||| PTE_U ||| PTE_W) := ⟨_, rfl⟩
  rw [← hr2] at h
  by_cases c2 : r2.1 < 0
  · rw [if_pos c2] at h
    simp only [Prod.mk.injEq, UserOutcome.ret.injEq] at h
    omega
  rw [if_neg c2] at h
  obtain ⟨r3, hr3⟩ : ∃ r3, r3 = sys_page_unmap r2.2 0 UTEMP := ⟨_, rfl⟩
  rw [← hr3] at h
  by_cases c3 : r3.1 < 0
  · rw [if_pos c3] at h
    simp only [Prod.mk.injEq, UserOutcome.ret.injEq] at h
    omega
  rw [if_neg c3] at h
  simp only [Prod.mk.injEq, UserOutcome.ret.injEq, true_and, Option.some.injEq] at h
  obtain ⟨ht, hesp⟩ := h
  -- the mapping into the child
  rw [hr2] at c2
  obtain ⟨src, c, pte, a1, a2, _, _, _, a6, _, _, a9, a10, a11, _, _⟩ :=
    sys_page_map_inv s2 0 UTEMP child _ _ hcur2 c2
  rw [← hr2] at a9 a10 a11
  rw [envid2env_zero, w3, q1] at a1
  have hsrc : src = s.curenv := (Option.some.inj a1).symm
  subst hsrc
  rw [envid2env_congr r1.2 s2 w2 w3, q5] at a2
  obtain ⟨b1, b2, _, _, _⟩ := a9
  have hpte : pte = ⟨f, PTE_P ||| PTE_U ||| PTE_W⟩ := by
    unfold page_lookup at a6
    rw [getEnv_congr _ _ _ w2, p7] at a6
    exact (Option.some.inj a6).symm
  subst hpte
  have hcur3 : r2.2.curenv < r2.2.envs.length := by
    rw [b1, b2]
    exact hcur2
  -- the unmapping in the parent
  rw [hr3] at c3
  obtain ⟨task3, u1, _, _, _, u5, u6, u7, u8⟩ := sys_page_unmap_inv r2.2 0 UTEMP hcur3 c3
  rw [← hr3, ht] at u5 u6 u7 u8
  rw [envid2env_zero, b1, w3, q1] at u1
  have ht3 : task3 = s.curenv := (Option.some.inj u1).symm
  subst ht3
  obtain ⟨d1, _, d3, _, _⟩ := u5
  have hmap : fmGet (getEnv t c).env_pgdir.ptes (PGNUM (USTACKTOP - PGSIZE))
      = some ⟨f, PTE_P ||| PTE_U ||| PTE_W⟩ := by
    by_cases hc : c = s.curenv
    · rw [hc, u7 _ (by decide)]
      rw [hc] at a11
      exact a11
    · rw [d3 c hc]
      exact a11
  have hmem : t.mem = s2.mem := by rw [u8, a10]
  have rd : ∀ a, UTEMP ≤ a → a < UTEMP + PGSIZE →
      readByte t (getEnv t c) (a + 0xEE7FD000) = pageByte s2 f a :=
    fun a h1 h2 => child_stack_read t s2 _ f _ a hmap hmem h1 h2
  obtain ⟨e1, e2, e3, e4, e5, e6, e7⟩ :=
    init_stack_page_decode f argv s2 t (getEnv t c) esp hfit hesp rd f1 f2 f3 f4
  refine ⟨c, f, a2, hmap, e1, e2, e3, e4, e5, e6, e7, ?_⟩
  unfold page_lookup curEnv
  rw [d1, b1, w3, q1]
  exact u6

theorem C26_init_stack_round_trip_witness :
    argv_fits sampleArgv
    ∧ ∃ c f, envid2env (sampleForkParent []) 0x1001 true = some c
      ∧ page_lookup (getEnv (init_stack (sampleForkParent []) 0x1001 sampleArgv).1.state c).env_pgdir
          (USTACKTOP - PGSIZE) = some ⟨f, PTE_P ||| PTE_U ||| PTE_W⟩
      ∧ readWord (init_stack (sampleForkParent []) 0x1001 sampleArgv).1.state
          (getEnv (init_stack (sampleForkParent []) 0x1001 sampleArgv).1.state c) 0xEEBFDFDC = 3
      ∧ readByte (init_stack (sampleForkParent []) 0x1001 sampleArgv).1.state
          (getEnv (init_stack (sampleForkParent []) 0x1001 sampleArgv).1.state c)
          (readWord (init_stack (sampleForkParent []) 0x1001 sampleArgv).1.state
            (getEnv (init_stack (sampleForkParent []) 0x1001 sampleArgv).1.state c)
            (0xEEBFDFDC + 8 + 4 * 2) + 1) = 0x62 := by
  obtain ⟨h0, c, f, h1, h2, _, _, _, h6, _, h8, _⟩ :=
    C26_init_stack_round_trip (sampleForkParent [])
      (init_stack (sampleForkParent []) 0x1001 sampleArgv).1.state
      0x1001 sampleArgv 0xEEBFDFDC (by decide) (fun _ _ hg _ => nomatch hg) rfl
  exact ⟨h0, c, f, h1, h2, h6, (h8 2 [0x62, 0x62] rfl).2.2.1 1 (by decide)⟩


/-- C32 (user traps never panic the kernel): the code does not do what is claimed for the
breakpoint vector.  For every trap frame that arrived from user mode (`tf_cs & 3 == 3`, the
frame `trap` copied into `curenv->env_tf`): when the trap number is `T_BRKPT`, whose gate
`idt_init` sets with privilege level 3, `trap_dispatch` stops in `panic`; for every other trap
number, and for `T_SYSCALL` every system-call number and argument tuple, it does not reach
`panic`, and a trap that is neither a page fault nor a system call destroys the current
environment. -/
theorem C32_breakpoint_from_user_mode_panics (s : State) (fault_va : Nat)
    (huser : (curEnv s).env_tf.tf_cs &&& 3 = 3) :
    idt_dpl T_BRKPT = 3
    ∧ ((curEnv s).env_tf.tf_trapno = T_BRKPT → trap_dispatch s .env_tf fault_va = .panic s)
    ∧ ((curEnv s).env_tf.tf_trapno ≠ T_BRKPT →
        ∀ t, trap_dispatch s .env_tf fault_va ≠ .panic t)
    ∧ ((curEnv s).env_tf.tf_trapno ≠ T_BRKPT → (curEnv s).env_tf.tf_trapno ≠ T_PGFLT →
        (curEnv s).env_tf.tf_trapno ≠ T_SYSCALL →
        trap_dispatch s .env_tf fault_va = .yielded (env_free s s.curenv)) := by
  have hkt : ¬ ((tfRead s .env_tf).tf_cs = GD_KT) := user_cs_ne_kernel _ huser
  have hunexp : unexpected_trap s .env_tf = .yielded (env_free s s.curenv) := by
    unfold unexpected_trap
    rw [if_neg hkt, destroy_curenv_eq]
  have e : (curEnv s).env_tf = tfRead s .env_tf := rfl
  rw [e]
  refine ⟨by decide, fun hb => ?_, fun hb t ht => ?_, fun hb hp hs => ?_⟩
  · unfold trap_dispatch
    simp only []
    rw [if_pos hb]
  · unfold trap_dispatch at ht
    simp only [] at ht
    rw [if_neg hb] at ht
    by_cases hp : (tfRead s .env_tf).tf_trapno = T_PGFLT
    · rw [if_pos hp] at ht
      rcases page_fault_handler_cases s .env_tf fault_va with ⟨h0, _⟩ | ⟨_, _, s1, hy, _⟩
          | ⟨_, _, _, _, _, t1, hr⟩
      · have h3 := huser
        rw [e, h0] at h3
        exact absurd h3 (by decide)
      · rw [hy] at ht
        cases ht
      · rw [hr] at ht
        cases ht
    rw [if_neg hp] at ht
    by_cases hs : (tfRead s .env_tf).tf_trapno = T_SYSCALL
    · rw [if_pos hs] at ht
      obtain ⟨o, ho⟩ : ∃ o, o = syscall s (tfRead s .env_tf).tf_regs.reg_eax
          (tfRead s .env_tf).tf_regs.reg_edx (tfRead s .env_tf).tf_regs.reg_ecx
          (tfRead s .env_tf).tf_regs.reg_ebx (tfRead s .env_tf).tf_regs.reg_edi
          (tfRead s .env_tf).tf_regs.reg_esi := ⟨_, rfl⟩
      rw [← ho] at ht
      cases o with
      | ret v s1 => cases ht
      | noreturn s1 => cases ht
      | panic s1 => exact syscall_no_panic _ _ _ _ _ _ _ _ ho.symm
    rw [if_neg hs, hunexp] at ht
    cases ht
  · unfold trap_dispatch
    simp only []
    rw [if_neg hb, if_neg hp, if_neg hs, hunexp]

/-- Witness for C32: the sample environment executes `int3` (trap number 3) in user mode and
the kernel panics; its system call `SYS_getenvid` (trap number 48) is serviced. -/
theorem C32_breakpoint_from_user_mode_panics_witness :
    (curEnv (sampleTrapState T_BRKPT 0)).env_tf.tf_cs &&& 3 = 3
    ∧ idt_dpl (curEnv (sampleTrapState T_BRKPT 0)).env_tf.tf_trapno = 3
    ∧ trap_dispatch (sampleTrapState T_BRKPT 0) .env_tf 0 = .panic (sampleTrapState T_BRKPT 0)
    ∧ trap_dispatch (sampleTrapState T_SYSCALL SYS_getenvid) .env_tf 0
        ≠ .panic (sampleTrapState T_SYSCALL SYS_getenvid) :=
  ⟨by decide, by decide,
   (C32_breakpoint_from_user_mode_panics (sampleTrapState T_BRKPT 0) 0 (by decide)).2.1
     (by decide),
   (C32_breakpoint_from_user_mode_panics (sampleTrapState T_SYSCALL SYS_getenvid) 0
     (by decide)).2.2.1 (by decide) _⟩


/-- C28 (fork page scan): the code does not do what is claimed when the parent has a present
page that is neither writable nor copy-on-write.  For every such page `pn` below `UTOP` other
than the exception-stack page, the parent branch of `fork` ends in `panic` inside the page scan
(at `duppage(envid, pn)`, which asks the kernel for a writable mapping of a read-only page, or
at a page above it): `duppage` is called for no page below `pn`, whether present or not, and
the code after the scan, which allocates the child's exception stack and sets the child
`ENV_RUNNABLE`, is never reached.  The calls that are made are for distinct page numbers below
`UTOP` other than the exception-stack page. -/
theorem C28_read_only_page_ends_fork_scan (s : State) (envid upcall pn : Nat) (pte : Pte)
    (hcur : s.curenv < s.envs.length)
    (hpn : pn < UTOP / PGSIZE) (hx : pn ≠ UXSTACKTOP / PGSIZE - 1)
    (hdir : vpd s (pn >>> 10) &&& PTE_P ≠ 0)
    (hpte : page_lookup (curEnv s).env_pgdir (pn * PGSIZE) = some pte)
    (hp : pte.perm &&& PTE_P ≠ 0) (hw : pte.perm &&& PTE_W = 0)
    (hcow : pte.perm &&& PTE_COW = 0) :
    ∃ t calls, fork_scan envid (UTOP / PGSIZE - 1) s [] = (.panic t, calls)
      ∧ fork_parent s envid upcall = (.panic t, calls)
      ∧ calls.Nodup
      ∧ (∀ k, k ∈ calls → pn ≤ k ∧ k < UTOP / PGSIZE ∧ k ≠ UXSTACKTOP / PGSIZE - 1
          ∧ vpd s (k >>> 10) &&& PTE_P ≠ 0 ∧ vpt s k &&& PTE_P ≠ 0)
      ∧ (∀ k, k < pn → k ∉ calls) := by
  have hxe : UXSTACKTOP / PGSIZE - 1 = UTOP / PGSIZE - 1 := rfl
  have hn : UTOP / PGSIZE - 1 = 0xEEBFF := by decide
  have hn1 : UTOP / PGSIZE = 0xEEC00 := by decide
  rw [hxe, hn] at hx
  rw [hn1] at hpn
  rw [hxe, hn, hn1]
  have hpg : PGNUM (pn * PGSIZE) = pn := by
    unfold PGNUM
    exact Nat.mul_div_cancel pn (by decide)
  unfold page_lookup at hpte
  rw [hpg] at hpte
  obtain ⟨t, new, c1, c2⟩ := fork_scan_read_only envid pn pte hp hw hcow 0xEEBFF s [] hcur
    (by omega) (by decide) hdir hpte
  rw [List.nil_append] at c1
  obtain ⟨new1, n1, n2, n3, _⟩ := fork_scan_spec envid 0xEEBFF s [] _ _ hcur (by decide) c1
  rw [List.nil_append] at n1
  subst n1
  refine ⟨t, new, c1, ?_, n2, fun k hk => ?_, fun k hk hmem => ?_⟩
  · apply fork_parent_of_panic
    rw [hn]
    exact c1
  · obtain ⟨d1, d2, d3⟩ := n3 k hk
    exact ⟨c2 k hk, by omega, by omega, d2, d3⟩
  · have := c2 k hmem
    omega

/-- Witness for C28: the sample parent has a writable page 0x800 and a read-only text page
0x802 (frame 6, `PTE_P | PTE_U`); the parent branch of `fork` panics at `duppage` for 0x802 with
the state unchanged, page 0x800 is present and never passed to `duppage`, and the child has no
exception stack and is not runnable. -/
theorem C28_read_only_page_ends_fork_scan_witness :
    fork_parent (sampleForkParent [(0x800, ⟨7, 7⟩), (0x802, ⟨6, 5⟩)]) 0x1001 0x800020
      = (.panic (sampleForkParent [(0x800, ⟨7, 7⟩), (0x802, ⟨6, 5⟩)]), [0x802])
    ∧ (0x800 < UTOP / PGSIZE
        ∧ vpd (sampleForkParent [(0x800, ⟨7, 7⟩), (0x802, ⟨6, 5⟩)]) (0x800 >>> 10) &&& PTE_P ≠ 0
        ∧ vpt (sampleForkParent [(0x800, ⟨7, 7⟩), (0x802, ⟨6, 5⟩)]) 0x800 &&& PTE_P ≠ 0)
    ∧ 0x800 ∉ [0x802]
    ∧ page_lookup (getEnv (sampleForkParent [(0x800, ⟨7, 7⟩), (0x802, ⟨6, 5⟩)]) 1).env_pgdir
        (UXSTACKTOP - PGSIZE) = none
    ∧ (getEnv (sampleForkParent [(0x800, ⟨7, 7⟩), (0x802, ⟨6, 5⟩)]) 1).env_status
        = ENV_NOT_RUNNABLE := by
  have habs : ∀ pn, pn ≠ 0x800 → pn ≠ 0x802 →
      ¬ (vpd (sampleForkParent [(0x800, ⟨7, 7⟩), (0x802, ⟨6, 5⟩)]) (pn >>> 10) &&& PTE_P ≠ 0 ∧
          vpt (sampleForkParent [(0x800, ⟨7, 7⟩), (0x802, ⟨6, 5⟩)]) pn &&& PTE_P ≠ 0) := by
    intro pn h1 h2 hc
    apply hc.2
    rw [vpt_of_none]
    · rfl
    · show fmGet [(0x800, (⟨7, 7⟩ : Pte)), (0x802, ⟨6, 5⟩)] pn = none
      simp only [fmGet]
      rw [if_neg (fun h => h1 h.symm), if_neg (fun h => h2 h.symm)]
  have hscan : fork_scan 0x1001 (UTOP / PGSIZE - 1)
      (sampleForkParent [(0x800, ⟨7, 7⟩), (0x802, ⟨6, 5⟩)]) []
      = (.panic (sampleForkParent [(0x800, ⟨7, 7⟩), (0x802, ⟨6, 5⟩)]), [0x802]) := by
    rw [fork_scan_skip 0x1001 _ [] (0x802 + 1) (UTOP / PGSIZE - 1) (by decide)
      (fun pn h1 h2 => habs pn (by omega) (by omega))]
    rw [fork_scan_panic_step 0x1001 _ _ [] 0x802 (by decide)
      (duppage_not_writable _ 0x1001 0x802 (by decide) (fun p hp => by
        have h6 : p = ⟨6, 5⟩ := (Option.some.inj hp).symm
        rw [h6]
        decide))]
    rfl
  obtain ⟨t, calls, h1, h2, _, _, h5⟩ :=
    C28_read_only_page_ends_fork_scan (sampleForkParent [(0x800, ⟨7, 7⟩), (0x802, ⟨6, 5⟩)])
      0x1001 0x800020 0x802 ⟨6, 5⟩ (by decide) (by decide) (by decide) (by decide) (by decide)
      (by decide) (by decide) (by decide)
  rw [hscan] at h1
  simp only [Prod.mk.injEq, UserOutcome.panic.injEq] at h1
  obtain ⟨h3, h4⟩ := h1
  subst h3 h4
  exact ⟨h2, by decide, h5 0x800 (by decide), by decide, by decide⟩


end JOS
